import Mathlib

/-! # Multi-machine IP router (`base_udp/router.c`)

A shallow embedding of the router's checksum engine, route resolution and
packet dispatcher, followed by theorems about them.

Conventions of the embedding.

* A packet buffer is a `List Byte`; a C pointer into it is an offset.  A read
  outside the modelled buffer yields the byte `0` and a write outside it is
  dropped; the theorems that depend on buffer contents state the bounds they
  need.
* 16- and 32-bit values that the C code keeps in network byte order
  (`ip->saddr`, `ip->daddr`, `ip->check`, `udp->check`, the value returned by
  `htons`) are represented by the big-endian number their bytes spell in
  memory.  Comparing two such values for equality, or one with zero, gives the
  same answer as comparing the raw machine words on any host.
* `uint32_t` accumulators wrap explicitly with `% 4294967296`.
* `printf`, `fprintf`, `perror` and `write` calls become entries of an event
  trace, in program order.
-/

namespace Router

/-! ## Memory -/

abbrev Byte := Fin 256

/-- Build a byte from a number, keeping the low eight bits. -/
def mkByte (v : Nat) : Byte := ⟨v % 256, Nat.mod_lt v (by decide)⟩

/-- Load of one `uint8_t` at offset `i`. -/
def rd8 (mem : List Byte) (i : Nat) : Nat := (mem.getD i 0).val

/-- Store of one `uint8_t` at offset `i`. -/
def wr8 (mem : List Byte) (i : Nat) (v : Nat) : List Byte := mem.set i (mkByte v)

/-- The value `ntohs(*(uint16_t *)(mem + i))`: two bytes read big-endian. -/
def ntohs_at (mem : List Byte) (i : Nat) : Nat := rd8 mem i * 256 + rd8 mem (i + 1)

/-- Store of a 16-bit value whose network-order reading is `v`. -/
def wr16 (mem : List Byte) (i : Nat) (v : Nat) : List Byte :=
  wr8 (wr8 mem i (v / 256)) (i + 1) v

/-- A 32-bit field held in network byte order, read as the number its four bytes spell. -/
def rd32 (mem : List Byte) (i : Nat) : Nat :=
  ((rd8 mem i * 256 + rd8 mem (i + 1)) * 256 + rd8 mem (i + 2)) * 256 + rd8 mem (i + 3)

/-! ## Header fields (`struct iphdr`, `struct udphdr`) -/

def IPPROTO_UDP : Nat := 17
def MAX_MACHINES : Nat := 100
def MAX_ROUTES : Nat := 256
def MAX_PACKET : Nat := 4096

/-- Field `ip->ihl`: low nibble of the first header byte. -/
def ip_ihl (mem : List Byte) (ip : Nat) : Nat := rd8 mem ip &&& 0xF
/-- Field `ip->version`: high nibble of the first header byte. -/
def ip_version (mem : List Byte) (ip : Nat) : Nat := rd8 mem ip >>> 4
def ip_protocol (mem : List Byte) (ip : Nat) : Nat := rd8 mem (ip + 9)
def ip_check (mem : List Byte) (ip : Nat) : Nat := ntohs_at mem (ip + 10)
def ip_saddr (mem : List Byte) (ip : Nat) : Nat := rd32 mem (ip + 12)
def ip_daddr (mem : List Byte) (ip : Nat) : Nat := rd32 mem (ip + 16)

def udp_source (mem : List Byte) (udp : Nat) : Nat := ntohs_at mem udp
def udp_dest (mem : List Byte) (udp : Nat) : Nat := ntohs_at mem (udp + 2)
def udp_len (mem : List Byte) (udp : Nat) : Nat := ntohs_at mem (udp + 4)
def udp_check (mem : List Byte) (udp : Nat) : Nat := ntohs_at mem (udp + 6)

/-! ## Checksum engine -/

/-- The summation loops of both checksum routines:
`while (len > 1) { sum += ntohs(*ptr); ptr++; len -= 2; }
 if (len) sum += (*(uint8_t *)ptr) << 8;`
with `sum` a `uint32_t`. -/
def sum_loop (mem : List Byte) : Nat → Nat → Nat → Nat
  | _, 0, sum => sum
  | ptr, 1, sum => (sum + (rd8 mem ptr <<< 8)) % 4294967296
  | ptr, len + 2, sum => sum_loop mem (ptr + 2) len ((sum + ntohs_at mem ptr) % 4294967296)

/-- The carry fold `while (sum >> 16) sum = (sum & 0xFFFF) + (sum >> 16);`, with a
bound on the number of iterations. -/
def fold_loop : Nat → Nat → Nat
  | 0, sum => sum
  | fuel + 1, sum =>
    if sum >>> 16 ≠ 0 then fold_loop fuel ((sum &&& 0xFFFF) + (sum >>> 16)) else sum

/-- The carry fold run to completion: every iteration lowers `sum`, so `sum` iterations
are always enough (`fold_carries_unfold`, `fold_carries_lt`). -/
def fold_carries (sum : Nat) : Nat := fold_loop sum sum

/-- The value `htons(~sum)` for a `uint32_t sum`, as the number its two bytes spell. -/
def htons_not (sum : Nat) : Nat := (0xFFFFFFFF - sum) % 65536

/-- Function `calculate_ip_checksum`.  Returns the result and the memory it leaves. -/
def calculate_ip_checksum (mem : List Byte) (ip : Nat) : Nat × List Byte :=
  let len := ip_ihl mem ip * 4
  let check_save := ip_check mem ip
  let mem1 := wr16 mem (ip + 10) 0
  let sum := sum_loop mem1 ip len 0
  let sum := fold_carries sum
  let mem2 := wr16 mem1 (ip + 10) check_save
  (htons_not sum, mem2)

/-- Accumulator of `calculate_udp_checksum` after the pseudo-header has been added. -/
def udp_pseudo_sum (mem : List Byte) (ip udp : Nat) : Nat :=
  let len := udp_len mem udp
  let sum := 0
  let sum := (sum + (ntohs_at mem (ip + 12) + ntohs_at mem (ip + 14))) % 4294967296
  let sum := (sum + (ntohs_at mem (ip + 16) + ntohs_at mem (ip + 18))) % 4294967296
  let sum := (sum + IPPROTO_UDP) % 4294967296
  let sum := (sum + len) % 4294967296
  sum

/-- Accumulator of `calculate_udp_checksum` after the carry fold. -/
def udp_folded_sum (mem : List Byte) (ip udp : Nat) : Nat :=
  let len := udp_len mem udp
  let sum := udp_pseudo_sum mem ip udp
  let mem1 := wr16 mem (udp + 6) 0
  let sum := sum_loop mem1 udp len sum
  fold_carries sum

/-- Function `calculate_udp_checksum` (its `payload` and `payload_len` arguments are unused).
Returns the result and the memory it leaves.  The loop sums `ntohs(udp->len)` bytes from
`udp` on with no bound; in the model a load past the end of `mem` reads `0`, where the C
code reads whatever lies behind the buffer.  The value is therefore that of the C routine
when `udp + udp_len mem udp ≤ mem.length`, and the theorems that identify the computed
checksum assume that bound. -/
def calculate_udp_checksum (mem : List Byte) (ip udp : Nat) : Nat × List Byte :=
  let check_save := udp_check mem udp
  let mem1 := wr16 mem (udp + 6) 0
  let sum := udp_folded_sum mem ip udp
  let mem2 := wr16 mem1 (udp + 6) check_save
  let result := htons_not sum
  (if result ≠ 0 then result else 0xFFFF, mem2)

/-! ## Router state -/

/-- One entry of the C array `vms` (a TUN device).  Field `ip_addr` is in network byte order. -/
structure VirtualMachine where
  fd : Int
  ip_addr : Nat
  name : String
  active : Int
deriving DecidableEq

/-- One entry of the C array `routes`.  Fields `src_ip` and `dst_ip` are in network byte
order, `dst_port` and `forward_to_port` in host order. -/
structure Route where
  src_ip : Nat
  dst_ip : Nat
  dst_port : Nat
  output_vm_index : Int
  forward_to_port : Nat
deriving DecidableEq

/-- What the dispatcher does to the outside world, in program order.  Each `log_` entry is
one `printf`, `fprintf` or `perror` call; `route_lookup` records the call of
`find_output_vm`; `write` records the call `write(vms[dst_vm_idx].fd, packet, len)`, with
`count` the `len` passed and `data` the first `count` bytes of the buffer. -/
inductive Event where
  | log_too_short
  | log_non_ipv4 (version : Nat)
  | log_invalid_ihl
  | log_rx (vm_idx : Int) (saddr daddr : Nat) (len : Int) (protocol : Nat)
      (ports : Option (Nat × Nat))
  | route_lookup
  | log_forward_to (output_vm : Int)
  | log_port_forward (old_port new_port : Nat)
  | write (dst_vm_idx : Int) (data : List Byte) (count : Int)
  | log_write_failed
  | log_no_route
  | log_would_loop
deriving DecidableEq

/-! ## Routing and forwarding -/

/-- Second loop of `find_output_vm`: the default route by destination address, starting at
index `i`; `-1` when no machine qualifies. -/
def default_route_loop : List VirtualMachine → Nat → Nat → Int
  | [], _, _ => -1
  | vm :: rest, i, daddr =>
    if vm.ip_addr = daddr ∧ vm.active ≠ 0 then (i : Int)
    else default_route_loop rest (i + 1) daddr

/-- First loop of `find_output_vm`, falling through to the default route when the table is
exhausted. -/
def route_loop (vms : List VirtualMachine) (saddr daddr dst_port : Nat) : List Route → Int
  | [] => default_route_loop vms 0 daddr
  | r :: rest =>
    if r.src_ip ≠ 0 ∧ r.src_ip ≠ saddr then route_loop vms saddr daddr dst_port rest
    else if r.dst_ip ≠ daddr then route_loop vms saddr daddr dst_port rest
    else if r.dst_port ≠ 0 ∧ r.dst_port ≠ dst_port then route_loop vms saddr daddr dst_port rest
    else r.output_vm_index

/-- Function `find_output_vm`.  The `udp` argument is the offset of the UDP header, or
`none` for a null pointer. -/
def find_output_vm (routes : List Route) (vms : List VirtualMachine) (mem : List Byte)
    (ip : Nat) (udp : Option Nat) : Int :=
  let dst_port := match udp with
    | some u => udp_dest mem u
    | none => 0
  route_loop vms (ip_saddr mem ip) (ip_daddr mem ip) dst_port routes

/-- The test `ip->protocol == IPPROTO_UDP && len > ip->ihl * 4 + 8` that both
`process_packet_from_vm` and `forward_packet` use to locate the UDP header. -/
def parse_udp (mem : List Byte) (ip : Nat) (len : Int) : Option Nat :=
  if ip_protocol mem ip = IPPROTO_UDP ∧ len > ((ip_ihl mem ip * 4 + 8 : Nat) : Int)
  then some (ip + ip_ihl mem ip * 4) else none

/-- Body of the `if` inside the route loop of `forward_packet`: the port rewrite and the
conditional UDP checksum update. -/
def port_forward (r : Route) (mem : List Byte) (ip : Nat) (udp : Option Nat) :
    List Byte × List Event :=
  match udp with
  | none => (mem, [])
  | some u =>
    if r.forward_to_port ≠ 0 then
      let old_port := udp_dest mem u
      let mem1 := wr16 mem (u + 2) r.forward_to_port
      let mem2 :=
        if udp_check mem1 u ≠ 0 then
          let res := calculate_udp_checksum mem1 ip u
          wr16 res.2 (u + 6) res.1
        else mem1
      (mem2, [Event.log_port_forward old_port r.forward_to_port])
    else (mem, [])

/-- Route loop of `forward_packet`: stops (`break`) at the first route whose output and
destination address agree with the packet. -/
def forward_loop (dst_vm_idx : Int) (mem : List Byte) (ip : Nat) (udp : Option Nat) :
    List Route → List Byte × List Event
  | [] => (mem, [])
  | r :: rest =>
    if r.output_vm_index = dst_vm_idx ∧ r.dst_ip = ip_daddr mem ip then
      port_forward r mem ip udp
    else forward_loop dst_vm_idx mem ip udp rest

set_option linter.unusedVariables false in
/-- Function `forward_packet`.  Argument `write_ret` is what the `write` call returns.
The result is the buffer as left by the call and the events produced. -/
def forward_packet (routes : List Route) (packet : List Byte) (len : Int)
    (src_vm_idx dst_vm_idx : Int) (write_ret : Int) : List Byte × List Event :=
  let ip := 0
  let udp := parse_udp packet ip len
  let r1 := forward_loop dst_vm_idx packet ip udp routes
  let mem1 := r1.1
  let mem2 := wr16 mem1 (ip + 10) (calculate_ip_checksum mem1 ip).1
  (mem2, r1.2 ++ [Event.write dst_vm_idx (mem2.take len.toNat) len]
    ++ (if write_ret < 0 then [Event.log_write_failed] else []))

/-- Function `process_packet_from_vm`.  Arguments `packet` and `len` are the buffer
contents after, and the value returned by, `read(vms[vm_idx].fd, packet, sizeof(packet))`.
The comparison of `len` with `sizeof(struct iphdr)` is made on `size_t`. -/
def process_packet_from_vm (routes : List Route) (vms : List VirtualMachine) (vm_idx : Int)
    (packet : List Byte) (len : Int) (write_ret : Int) : List Event :=
  if len % 18446744073709551616 < 20 then [Event.log_too_short]
  else
    let ip := 0
    if ip_version packet ip ≠ 4 then [Event.log_non_ipv4 (ip_version packet ip)]
    else if ip_ihl packet ip < 5 then [Event.log_invalid_ihl]
    else
      let udp := parse_udp packet ip len
      let ports := match udp with
        | some u => some (udp_source packet u, udp_dest packet u)
        | none => none
      let rx := Event.log_rx vm_idx (ip_saddr packet ip) (ip_daddr packet ip) len
        (ip_protocol packet ip) ports
      let output_vm := find_output_vm routes vms packet ip udp
      if output_vm ≥ 0 ∧ output_vm ≠ vm_idx then
        [rx, Event.route_lookup, Event.log_forward_to output_vm]
          ++ (forward_packet routes packet len vm_idx output_vm write_ret).2
      else if output_vm < 0 then [rx, Event.route_lookup, Event.log_no_route]
      else [rx, Event.route_lookup, Event.log_would_loop]

/-- Function `add_route`: appends to the table unless it already holds `MAX_ROUTES`. -/
def add_route (routes : List Route) (src_ip dst_ip dst_port : Nat) (output_vm_idx : Int)
    (forward_to_port : Nat) : List Route :=
  if routes.length ≥ MAX_ROUTES then routes
  else routes ++ [⟨src_ip, dst_ip, dst_port, output_vm_idx, forward_to_port⟩]

/-- Function `add_virtual_machine`.  Argument `fd` is what `open_tun_device(name)` returned
and `ip_addr` is `inet_addr(ip_str)`.  Returns the new registry and the function result.
The name is taken to fit the 16-byte field that `strcpy` fills. -/
def add_virtual_machine (vms : List VirtualMachine) (name : String) (ip_addr : Nat)
    (fd : Int) : List VirtualMachine × Int :=
  if vms.length ≥ MAX_MACHINES then (vms, -1)
  else if fd < 0 then (vms, -1)
  else (vms ++ [⟨fd, ip_addr, name, 1⟩], (vms.length : Int))

/-- The value `inet_addr("10.0.0.k")` for `k < 256`, as the number its bytes spell. -/
def inet_addr_10_0_0 (k : Nat) : Nat := 0x0A000000 + k

/-- The default-route loops of `main`:
`for i < num_vms, for j < num_vms, if (i != j) add_route(0, 10.0.0.(j+1), 0, j, 0)`. -/
def configure_default_routes (num_vms : Nat) (routes : List Route) : List Route :=
  (List.range num_vms).foldl (fun acc i =>
    (List.range num_vms).foldl (fun acc j =>
      if i ≠ j then add_route acc 0 (inet_addr_10_0_0 (j + 1)) 0 (j : Int) 0 else acc) acc)
    routes

/-! ## The specification's reading of route matching -/

/-- Route matching in the words of the specification: `src==0 or src==packet.srcIP`,
`route.dstIP==packet.dstIP`, and `dstPort==0 or (packet has a UDP header and
dstPort==packet.udpDestPort)`.  Argument `udp_dst_port` is `none` for a packet without a
parsed UDP header. -/
def spec_route_matches (r : Route) (src_ip dst_ip : Nat) (udp_dst_port : Option Nat) : Prop :=
  (r.src_ip = 0 ∨ r.src_ip = src_ip) ∧ r.dst_ip = dst_ip ∧
    (r.dst_port = 0 ∨ udp_dst_port = some r.dst_port)

instance (r : Route) (s d : Nat) (p : Option Nat) : Decidable (spec_route_matches r s d p) := by
  unfold spec_route_matches
  exact inferInstance

/-! ## The specification's reading of the checksums -/

/-- The big-endian 16-bit words spelled by a byte string; an odd trailing byte is the high
byte of a last word whose low byte is zero. -/
def be_words : List Byte → List Nat
  | [] => []
  | [a] => [a.val * 256]
  | a :: b :: rest => (a.val * 256 + b.val) :: be_words rest

/-- The bytes `mem[p], ..., mem[p + n - 1]`. -/
def slice (mem : List Byte) (p n : Nat) : List Byte := (mem.drop p).take n

/-- A header or segment with the two bytes of its checksum field, at offset `off`, taken
as zero. -/
def zero_check (bytes : List Byte) (off : Nat) : List Byte := (bytes.set off 0).set (off + 1) 0

/-- IP checksum in the words of the specification: sum all 16-bit words of the header with
the checksum field treated as zero, fold carries, take the ones-complement.  No machine
width enters: the sum is a natural number. -/
def spec_ip_checksum (header : List Byte) : Nat :=
  0xFFFF - fold_carries (be_words (zero_check header 10)).sum

/-- UDP checksum in the words of the specification: pseudo-header (source and destination
address as two words each, zero byte and protocol 17, UDP length), then the segment with
its checksum field zeroed, an odd trailing byte padded; fold, complement, and send
`0xFFFF` in place of `0`. -/
def spec_udp_checksum (src dst : List Byte) (udp_length : Nat) (segment : List Byte) : Nat :=
  let total := (be_words src).sum + (be_words dst).sum + 0x0011 + udp_length +
    (be_words (zero_check segment 6)).sum
  let c := 0xFFFF - fold_carries total
  if c = 0 then 0xFFFF else c

/-- The sum a receiver forms to verify a UDP checksum: the pseudo-header and the segment
as transmitted, checksum field included. -/
def udp_verify_sum (src dst : List Byte) (udp_length : Nat) (segment : List Byte) : Nat :=
  (be_words src).sum + (be_words dst).sum + 0x0011 + udp_length + (be_words segment).sum

/-! ## Sample data -/

/-- The registry that `main` builds for three machines (channel handles 3, 4, 5). -/
def three_vms : List VirtualMachine :=
  [⟨3, inet_addr_10_0_0 1, "tun0", 1⟩, ⟨4, inet_addr_10_0_0 2, "tun1", 1⟩,
   ⟨5, inet_addr_10_0_0 3, "tun2", 1⟩]

/-- A 30-byte UDP datagram from 10.0.0.1 port 4660 to 10.0.0.2 port `dport`, with a
two-byte payload and UDP checksum field `check`. -/
def sample_udp (dport check : Nat) : List Byte :=
  [0x45, 0, 0, 30, 0, 0, 0, 0, 64, 17, 0, 0, 10, 0, 0, 1, 10, 0, 0, 2,
   0x12, 0x34, mkByte (dport / 256), mkByte dport, 0, 10, mkByte (check / 256), mkByte check,
   0xAB, 0xCD]

/-- The routing table of scenario B: the explicit rewrite route, then the mesh. -/
def scenario_b_routes : List Route :=
  configure_default_routes 3 (add_route [] 0 (inet_addr_10_0_0 2) 9999 1 8000)

/-- A table with two rewrite routes to the same address and output that differ in their
port criterion: port 1111 is rewritten to 7000, port 9999 to 8000. -/
def two_rewrite_routes : List Route :=
  add_route (add_route [] 0 (inet_addr_10_0_0 2) 1111 1 7000) 0 (inet_addr_10_0_0 2) 9999 1 8000

/-- A table holding only the rewrite route of scenario B, without the mesh. -/
def rewrite_route_only : List Route := add_route [] 0 (inet_addr_10_0_0 2) 9999 1 8000

/-- A registry in which the first endpoint registered with 10.0.0.2 has its active flag
cleared and a second endpoint carries the same address. -/
def vms_first_inactive : List VirtualMachine :=
  [⟨3, inet_addr_10_0_0 1, "tun0", 1⟩, ⟨4, inet_addr_10_0_0 2, "tun1", 0⟩,
   ⟨5, inet_addr_10_0_0 2, "tun2", 1⟩]

/-- The datagram that the loop body of `main` in `tun_sender.c` builds and writes for
packet number `i`, with `id` the current value of `ip_id`: a 20-byte IP header from
10.0.0.1 to `dst_ip` (checksum from the sender's own `calculate_ip_checksum`, which is the
router's routine without the restore), a UDP header with source port 5555, destination
port 9999, length `8 + payload_size` and checksum 0, and `payload_size` pattern bytes.
The sender accepts `payload_size` from 0 to `MAX_PACKET - 28`. -/
def tun_sender_packet (dst_ip id i payload_size : Nat) : List Byte :=
  let total_len := 20 + 8 + payload_size
  let header : List Byte :=
    [0x45, 0, mkByte (total_len / 256), mkByte total_len, mkByte (id / 256), mkByte id, 0, 0,
     64, 17, 0, 0, 10, 0, 0, 1,
     mkByte (dst_ip / 16777216), mkByte (dst_ip / 65536), mkByte (dst_ip / 256), mkByte dst_ip]
  let udp : List Byte :=
    [mkByte (5555 / 256), mkByte 5555, mkByte (9999 / 256), mkByte 9999,
     mkByte ((8 + payload_size) / 256), mkByte (8 + payload_size), 0, 0]
  let payload : List Byte := (List.range payload_size).map (fun j => mkByte (i + j))
  let packet := header ++ udp ++ payload
  wr16 packet 10 (calculate_ip_checksum packet 0).1

/-- Whether an event is a `write` call. -/
def is_write : Event → Bool
  | Event.write _ _ _ => true
  | _ => false

/-- Number of `write` calls in a trace. -/
def write_count (trace : List Event) : Nat := (trace.filter is_write).length

/-- The routing table that `main` builds for three machines: the mesh alone. -/
def mesh3_routes : List Route := configure_default_routes 3 []

/-- A 30-byte UDP datagram from 10.0.0.1 to 10.0.0.2 port 5000 whose identification field
(`0x66CD`) makes the header words other than the checksum sum to `0xFFFF`, and whose
checksum field holds `0xFFFF`.  The header verifies: its words sum to `0x1FFFE`, which
folds to `0xFFFF`. -/
def sample_udp_check_ffff : List Byte :=
  [0x45, 0, 0, 30, 0x66, 0xCD, 0, 0, 64, 17, 0xFF, 0xFF, 10, 0, 0, 1, 10, 0, 0, 2,
   0x12, 0x34, 0x13, 0x88, 0, 10, 0, 0, 0xAB, 0xCD]

/-- What the configuration routines print on standard error. -/
inductive ConfigEvent where
  | log_routing_table_full
  | log_max_machines_reached
  | log_created_machine (index : Nat)
deriving DecidableEq

/-- The message part of `add_route`: `Routing table full` when the table already holds
`MAX_ROUTES` entries, nothing otherwise. -/
def add_route_log (routes : List Route) : List ConfigEvent :=
  if routes.length ≥ MAX_ROUTES then [ConfigEvent.log_routing_table_full] else []

/-- Call of `add_route` with the fields of `r` as arguments. -/
def add_route_entry (routes : List Route) (r : Route) : List Route :=
  add_route routes r.src_ip r.dst_ip r.dst_port r.output_vm_index r.forward_to_port

/-- The default route to endpoint `j`: `(src=0, dst=10.0.0.(j+1), dstPort=0, output=j,
rewrite=0)`. -/
def mesh_route (j : Nat) : Route := ⟨0, inet_addr_10_0_0 (j + 1), 0, (j : Int), 0⟩

/-- The full mesh in the words of the specification: one default route per ordered pair
`(i, j)` of distinct endpoint indices below `n`, pairs taken in lexicographic order. -/
def spec_mesh (n : Nat) : List Route :=
  (List.range n).flatMap (fun i =>
    ((List.range n).filter (fun j => decide (i ≠ j))).map mesh_route)

/-- A table built by one call of `add_route` whose output index, 7, is not the index of any
of three registered endpoints. -/
def stray_output_routes : List Route := add_route [] 0 (inet_addr_10_0_0 2) 0 7 0

/-- The machine counts that `main` accepts: it exits when
`num_vms < 2 || num_vms > MAX_MACHINES`. -/
def main_accepts (num_vms : Int) : Bool :=
  !(decide (num_vms < 2) || decide (num_vms > (MAX_MACHINES : Int)))

/-- The message part of `add_virtual_machine`: `Max machines reached` when the registry
is full, the `Created machine` line on success, and nothing of its own when
`open_tun_device` failed (that routine reports the failure itself).  When the registry is
full `open_tun_device` is not called and `fd` plays no part. -/
def add_virtual_machine_log (vms : List VirtualMachine) (fd : Int) : List ConfigEvent :=
  if vms.length ≥ MAX_MACHINES then [ConfigEvent.log_max_machines_reached]
  else if fd < 0 then []
  else [ConfigEvent.log_created_machine vms.length]

/-- The summation loop of the checksum routines with an accumulator of unbounded width:
`sum_loop` without the reduction modulo `2^32`. -/
def sum_loop_unbounded (mem : List Byte) : Nat → Nat → Nat → Nat
  | _, 0, sum => sum
  | ptr, 1, sum => sum + (rd8 mem ptr <<< 8)
  | ptr, len + 2, sum => sum_loop_unbounded mem (ptr + 2) len (sum + ntohs_at mem ptr)

/-- Result of `calculate_ip_checksum` when the sum is formed in unbounded integers. -/
def calculate_ip_checksum_unbounded (mem : List Byte) (ip : Nat) : Nat :=
  let len := ip_ihl mem ip * 4
  let mem1 := wr16 mem (ip + 10) 0
  htons_not (fold_carries (sum_loop_unbounded mem1 ip len 0))

/-- Pseudo-header sum of `calculate_udp_checksum` in unbounded integers. -/
def udp_pseudo_sum_unbounded (mem : List Byte) (ip udp : Nat) : Nat :=
  ntohs_at mem (ip + 12) + ntohs_at mem (ip + 14) + (ntohs_at mem (ip + 16)
    + ntohs_at mem (ip + 18)) + IPPROTO_UDP + udp_len mem udp

/-- Result of `calculate_udp_checksum` when the sum is formed in unbounded integers. -/
def calculate_udp_checksum_unbounded (mem : List Byte) (ip udp : Nat) : Nat :=
  let len := udp_len mem udp
  let mem1 := wr16 mem (udp + 6) 0
  let sum := sum_loop_unbounded mem1 udp len (udp_pseudo_sum_unbounded mem ip udp)
  let result := htons_not (fold_carries sum)
  if result ≠ 0 then result else 0xFFFF

/-- The offsets that the summation loop loads from, in the order of the loads. -/
def sum_loop_reads : Nat → Nat → List Nat
  | _, 0 => []
  | ptr, 1 => [ptr]
  | ptr, len + 2 => ptr :: (ptr + 1) :: sum_loop_reads (ptr + 2) len

/-- The offsets that the loop of `calculate_ip_checksum` loads from. -/
def ip_checksum_reads (mem : List Byte) (ip : Nat) : List Nat :=
  sum_loop_reads ip (ip_ihl mem ip * 4)

/-- The offsets that the loop of `calculate_udp_checksum` loads from. -/
def udp_checksum_reads (mem : List Byte) (udp : Nat) : List Nat :=
  sum_loop_reads udp (udp_len mem udp)

/-- A 20-byte datagram from 10.0.0.1 to 10.0.0.2 whose header-length field is 6, so that
its header claims 24 bytes. -/
def long_header_datagram : List Byte :=
  [0x46, 0, 0, 20, 0, 0, 0, 0, 64, 17, 0, 0, 10, 0, 0, 1, 10, 0, 0, 2]

/-- The sample datagram to port 9999 (30 bytes, nonzero UDP checksum) with its UDP length
field raised to 12, two more than the ten bytes that follow the IP header. -/
def long_udp_length_datagram : List Byte := wr16 (sample_udp 9999 0x1111) 24 12

/-! ## The main loop -/

/-- What `select` reports to one pass of the loop of `run_router`: a negative result with
`errno == EINTR`, a negative result with another error, or a return with the descriptor
set `readfds` filled in, given by its test `FD_ISSET`. -/
inductive SelectResult where
  | interrupted
  | failed
  | ready (isset : Int → Bool)

/-- What the outside world supplies to one pass of the `while (running)` loop: the value of
`running` at the loop test, the outcome of `select`, and, for the call of
`process_packet_from_vm` on endpoint `i`, the buffer and length its `read` delivers and
the value its `write` returns. -/
structure LoopInput where
  running : Bool
  select_result : SelectResult
  read_result : Nat → List Byte × Int
  write_ret : Nat → Int

/-- What `run_router` does, in program order: a call `process_packet_from_vm(vm_idx)`
together with the trace of that call, or the `perror("select")` message. -/
inductive RouterEvent where
  | invoke (vm_idx : Nat) (trace : List Event)
  | log_select_failed

/-- The dispatch loop of `run_router` after `select` returned:
`for i < num_machines: if (vms[i].active && FD_ISSET(vms[i].fd, &readfds))
process_packet_from_vm(i)`, from index `i` on. -/
def dispatch_loop (routes : List Route) (vms : List VirtualMachine) (isset : Int → Bool)
    (read_result : Nat → List Byte × Int) (write_ret : Nat → Int) :
    List VirtualMachine → Nat → List RouterEvent
  | [], _ => []
  | vm :: rest, i =>
    if vm.active ≠ 0 ∧ isset vm.fd = true then
      RouterEvent.invoke i
          (process_packet_from_vm routes vms (i : Int) (read_result i).1 (read_result i).2
            (write_ret i))
        :: dispatch_loop routes vms isset read_result write_ret rest (i + 1)
    else dispatch_loop routes vms isset read_result write_ret rest (i + 1)

/-- Function `run_router`, over the passes of its loop for which the outside world's part
is given.  The banner printed before the loop is left out. -/
def run_router (routes : List Route) (vms : List VirtualMachine) :
    List LoopInput → List RouterEvent
  | [] => []
  | inp :: rest =>
    if inp.running = false then []
    else
      match inp.select_result with
      | SelectResult.interrupted => run_router routes vms rest
      | SelectResult.failed => [RouterEvent.log_select_failed]
      | SelectResult.ready isset =>
        dispatch_loop routes vms isset inp.read_result inp.write_ret vms 0
          ++ run_router routes vms rest

/-- The endpoint indices for which a trace of `run_router` calls the dispatcher, in order. -/
def invoked_indices : List RouterEvent → List Nat
  | [] => []
  | RouterEvent.invoke i _ :: rest => i :: invoked_indices rest
  | RouterEvent.log_select_failed :: rest => invoked_indices rest

/-- One pass in which `select` reports the descriptor 4 ready and every read delivers the
sample datagram to 10.0.0.2 port 5000. -/
def sample_pass : LoopInput :=
  ⟨true, SelectResult.ready (fun fd => decide (fd = 4)),
    fun _ => (sample_udp 5000 0x1111, 30), fun _ => 0⟩

/-- The sample datagram to port 9999 with its destination address changed to 10.0.0.9, an
address that no endpoint of `three_vms` carries and no route of scenario B names. -/
def sample_udp_unknown_dest : List Byte := (sample_udp 9999 0x1111).set 19 9

/-! ## Route resolution -/

/-- A route that fails the specification's match test is passed over by the first loop. -/
theorem route_loop_cons_of_not_match (vms : List VirtualMachine) (s d p : Nat) (r : Route)
    (rest : List Route) (udp : Option Nat)
    (hp : p = (match udp with | some q => q | none => 0))
    (h : ¬ spec_route_matches r s d udp) :
    route_loop vms s d p (r :: rest) = route_loop vms s d p rest := by
  unfold spec_route_matches at h
  simp only [route_loop]
  by_cases h1 : r.src_ip ≠ 0 ∧ r.src_ip ≠ s
  · rw [if_pos h1]
  · rw [if_neg h1]
    by_cases h2 : r.dst_ip ≠ d
    · rw [if_pos h2]
    · rw [if_neg h2]
      by_cases h3 : r.dst_port ≠ 0 ∧ r.dst_port ≠ p
      · rw [if_pos h3]
      · exfalso
        apply h
        refine ⟨by tauto, by tauto, ?_⟩
        by_cases h0 : r.dst_port = 0
        · exact Or.inl h0
        · right
          have hrp : r.dst_port = p := by tauto
          cases udp with
          | none => simp only at hp; omega
          | some q => simp only at hp; rw [hrp, hp]

/-- A route that passes the specification's match test ends the first loop. -/
theorem route_loop_cons_of_match (vms : List VirtualMachine) (s d p : Nat) (r : Route)
    (rest : List Route) (udp : Option Nat)
    (hp : p = (match udp with | some q => q | none => 0))
    (h : spec_route_matches r s d udp) :
    route_loop vms s d p (r :: rest) = r.output_vm_index := by
  obtain ⟨h1, h2, h3⟩ := h
  have e1 : ¬ (r.src_ip ≠ 0 ∧ r.src_ip ≠ s) := by tauto
  have e2 : ¬ (r.dst_ip ≠ d) := by tauto
  have e3 : ¬ (r.dst_port ≠ 0 ∧ r.dst_port ≠ p) := by
    rintro ⟨h0, hne⟩
    rcases h3 with h3 | h3
    · exact h0 h3
    · subst h3
      exact hne (by simp [hp])
  simp only [route_loop]
  rw [if_neg e1, if_neg e2, if_neg e3]

/-- The first loop returns the output of the first route that matches. -/
theorem route_loop_first_match (vms : List VirtualMachine) (s d p : Nat) (udp : Option Nat)
    (hp : p = (match udp with | some q => q | none => 0)) :
    ∀ (routes : List Route) (i : Nat) (r : Route), routes[i]? = some r →
      spec_route_matches r s d udp →
      (∀ j r', j < i → routes[j]? = some r' → ¬ spec_route_matches r' s d udp) →
      route_loop vms s d p routes = r.output_vm_index := by
  intro routes
  induction routes with
  | nil => intro i r hi; simp at hi
  | cons r0 rest ih =>
    intro i r hi hm hfirst
    cases i with
    | zero =>
      simp only [List.getElem?_cons_zero, Option.some.injEq] at hi
      subst hi
      exact route_loop_cons_of_match vms s d p r0 rest udp hp hm
    | succ k =>
      simp only [List.getElem?_cons_succ] at hi
      have h0 : ¬ spec_route_matches r0 s d udp :=
        hfirst 0 r0 (Nat.succ_pos k) (by simp)
      rw [route_loop_cons_of_not_match vms s d p r0 rest udp hp h0]
      apply ih k r hi hm
      intro j r' hj hr'
      exact hfirst (j + 1) r' (Nat.succ_lt_succ hj) (by simpa using hr')

/-- With no UDP header parsed, a route with a nonzero port criterion is passed over wherever
it stands in the table. -/
theorem route_loop_port_route_no_udp (vms : List VirtualMachine) (s d : Nat) (r0 : Route)
    (h0 : r0.dst_port ≠ 0) (post : List Route) :
    ∀ pre : List Route,
      route_loop vms s d 0 (pre ++ r0 :: post) = route_loop vms s d 0 (pre ++ post) := by
  intro pre
  induction pre with
  | nil =>
    simp only [List.nil_append]
    apply route_loop_cons_of_not_match vms s d 0 r0 post none rfl
    unfold spec_route_matches
    simp [h0]
  | cons a pre ih =>
    have e : ∀ l : List Route, route_loop vms s d 0 (a :: l) =
        if a.src_ip ≠ 0 ∧ a.src_ip ≠ s then route_loop vms s d 0 l
        else if a.dst_ip ≠ d then route_loop vms s d 0 l
        else if a.dst_port ≠ 0 ∧ a.dst_port ≠ 0 then route_loop vms s d 0 l
        else a.output_vm_index := fun l => rfl
    rw [List.cons_append, List.cons_append, e, e, ih]

/-- The destination port that `find_output_vm` compares routes against. -/
theorem find_output_vm_eq (routes : List Route) (vms : List VirtualMachine) (mem : List Byte)
    (ip : Nat) (udp : Option Nat) :
    find_output_vm routes vms mem ip udp =
      route_loop vms (ip_saddr mem ip) (ip_daddr mem ip)
        (match udp.map (udp_dest mem) with | some q => q | none => 0) routes := by
  cases udp <;> rfl

/-- Claim C1.  If some route matches the packet in the specification's sense, then
`find_output_vm` returns the output index of the matching route with the smallest
insertion index; and when no UDP header was parsed, a route with a nonzero port criterion
is passed over wherever it stands in the table. -/
theorem find_output_vm_first_match (routes : List Route) (vms : List VirtualMachine)
    (mem : List Byte) (ip : Nat) (udp : Option Nat) (i : Nat) (r : Route)
    (hi : routes[i]? = some r)
    (hm : spec_route_matches r (ip_saddr mem ip) (ip_daddr mem ip) (udp.map (udp_dest mem)))
    (hfirst : ∀ j r', j < i → routes[j]? = some r' →
      ¬ spec_route_matches r' (ip_saddr mem ip) (ip_daddr mem ip) (udp.map (udp_dest mem))) :
    find_output_vm routes vms mem ip udp = r.output_vm_index ∧
    (∀ (pre post : List Route) (r0 : Route), r0.dst_port ≠ 0 →
      find_output_vm (pre ++ r0 :: post) vms mem ip none =
        find_output_vm (pre ++ post) vms mem ip none) := by
  constructor
  · rw [find_output_vm_eq]
    exact route_loop_first_match vms _ _ _ (udp.map (udp_dest mem)) rfl routes i r hi hm hfirst
  · intro pre post r0 h0
    simp only [find_output_vm]
    exact route_loop_port_route_no_udp vms _ _ r0 h0 post pre

/-- Claim C1 at a concrete input: in scenario B a datagram to 10.0.0.2 port 5000 is not
matched by route 0 (port criterion 9999) and is resolved by route 1, the first mesh route to
10.0.0.2. -/
theorem find_output_vm_first_match_witness :
    scenario_b_routes[1]? = some ⟨0, inet_addr_10_0_0 2, 0, 1, 0⟩ ∧
    find_output_vm scenario_b_routes three_vms (sample_udp 5000 0x1111) 0 (some 20) = 1 :=
  ⟨by decide,
   (find_output_vm_first_match scenario_b_routes three_vms (sample_udp 5000 0x1111) 0
      (some 20) 1 ⟨0, inet_addr_10_0_0 2, 0, 1, 0⟩ (by decide) (by decide)
      (by
        intro j r' hj hr'
        have hj0 : j = 0 := by omega
        subst hj0
        have hr0 : r' = ⟨0, inet_addr_10_0_0 2, 9999, 1, 8000⟩ := by
          have h0 : scenario_b_routes[0]? = some ⟨0, inet_addr_10_0_0 2, 9999, 1, 8000⟩ := by
            decide
          rw [h0] at hr'
          exact (Option.some.inj hr').symm
        subst hr0
        decide)).1⟩

/-! ## Memory lemmas -/

theorem rd8_lt (mem : List Byte) (i : Nat) : rd8 mem i < 256 := (mem.getD i 0).isLt

theorem ntohs_at_lt (mem : List Byte) (i : Nat) : ntohs_at mem i < 65536 := by
  have h1 := rd8_lt mem i
  have h2 := rd8_lt mem (i + 1)
  unfold ntohs_at
  omega

theorem rd8_eq_getElem (mem : List Byte) (i : Nat) (h : i < mem.length) :
    rd8 mem i = (mem[i]).val := by
  unfold rd8
  rw [List.getD_eq_getElem mem 0 h]

theorem length_wr8 (mem : List Byte) (i v : Nat) : (wr8 mem i v).length = mem.length := by
  unfold wr8
  exact List.length_set mem i _

theorem length_wr16 (mem : List Byte) (i v : Nat) : (wr16 mem i v).length = mem.length := by
  unfold wr16
  rw [length_wr8, length_wr8]

theorem getElem?_wr8_ne (mem : List Byte) (i j v : Nat) (h : i ≠ j) :
    (wr8 mem i v)[j]? = mem[j]? := by
  unfold wr8
  exact List.getElem?_set_ne h

theorem getElem?_wr16_ne (mem : List Byte) (i j v : Nat) (h1 : i ≠ j) (h2 : i + 1 ≠ j) :
    (wr16 mem i v)[j]? = mem[j]? := by
  unfold wr16
  rw [getElem?_wr8_ne _ _ _ _ h2, getElem?_wr8_ne _ _ _ _ h1]

theorem rd8_eq_of_getElem? (m1 m2 : List Byte) (j : Nat) (h : m1[j]? = m2[j]?) :
    rd8 m1 j = rd8 m2 j := by
  unfold rd8
  rw [List.getD_eq_getElem?_getD, List.getD_eq_getElem?_getD, h]

theorem rd8_wr16_ne (mem : List Byte) (i j v : Nat) (h1 : i ≠ j) (h2 : i + 1 ≠ j) :
    rd8 (wr16 mem i v) j = rd8 mem j :=
  rd8_eq_of_getElem? _ _ _ (getElem?_wr16_ne mem i j v h1 h2)

theorem ntohs_at_wr16_ne (mem : List Byte) (i j v : Nat) (h : i + 1 < j ∨ j + 1 < i) :
    ntohs_at (wr16 mem i v) j = ntohs_at mem j := by
  unfold ntohs_at
  rw [rd8_wr16_ne mem i j v (by omega) (by omega),
    rd8_wr16_ne mem i (j + 1) v (by omega) (by omega)]

theorem mkByte_val (b : Byte) : mkByte b.val = b := by
  apply Fin.ext
  show b.val % 256 = b.val
  exact Nat.mod_eq_of_lt b.isLt

theorem mkByte_zero : mkByte 0 = 0 := rfl

/-- Reading back a stored 16-bit value inside the buffer. -/
theorem ntohs_at_wr16_self (mem : List Byte) (i v : Nat) (h : i + 1 < mem.length) :
    ntohs_at (wr16 mem i v) i = v % 65536 := by
  have hlen : i + 1 < (wr16 mem i v).length := by rw [length_wr16]; exact h
  unfold ntohs_at
  rw [rd8_eq_getElem _ i (by omega), rd8_eq_getElem _ (i + 1) hlen]
  have e1 : (wr16 mem i v)[i]? = some (mkByte (v / 256)) := by
    unfold wr16
    rw [getElem?_wr8_ne _ _ _ _ (by omega)]
    unfold wr8
    exact List.getElem?_set_self (by omega)
  have e2 : (wr16 mem i v)[i + 1]? = some (mkByte v) := by
    unfold wr16 wr8
    exact List.getElem?_set_self (by rw [List.length_set]; exact h)
  rw [List.getElem?_eq_getElem (by omega)] at e1
  rw [List.getElem?_eq_getElem hlen] at e2
  rw [Option.some.inj e1, Option.some.inj e2]
  show v / 256 % 256 * 256 + v % 256 = v % 65536
  omega

/-- Storing back the 16-bit value read from a place restores the buffer, whatever was
stored there in between. -/
theorem wr16_restore (mem : List Byte) (i v : Nat) :
    wr16 (wr16 mem i v) i (ntohs_at mem i) = mem := by
  apply List.ext_getElem?
  intro j
  have hlt1 := rd8_lt mem i
  have hlt2 := rd8_lt mem (i + 1)
  by_cases hj1 : i = j
  · subst hj1
    unfold wr16
    rw [getElem?_wr8_ne _ _ _ _ (by omega)]
    unfold wr8
    rw [List.getElem?_set]
    simp only [if_true, List.length_set]
    by_cases hlen : i < mem.length
    · rw [if_pos hlen, List.getElem?_eq_getElem hlen]
      congr 1
      have e : ntohs_at mem i / 256 = (mem[i]).val := by
        unfold ntohs_at
        rw [rd8_eq_getElem mem i hlen] at hlt1 ⊢
        omega
      rw [e, mkByte_val]
    · rw [if_neg hlen, List.getElem?_eq_none (by omega)]
  · by_cases hj2 : i + 1 = j
    · subst hj2
      unfold wr16 wr8
      rw [List.getElem?_set]
      simp only [if_true, List.length_set]
      by_cases hlen : i + 1 < mem.length
      · rw [if_pos hlen, List.getElem?_eq_getElem hlen]
        congr 1
        apply Fin.ext
        show ntohs_at mem i % 256 = (mem[i + 1]).val
        unfold ntohs_at
        rw [rd8_eq_getElem mem (i + 1) hlen] at hlt2 ⊢
        omega
      · rw [if_neg hlen, List.getElem?_eq_none (by omega)]
    · rw [getElem?_wr16_ne _ _ _ _ hj1 hj2, getElem?_wr16_ne _ _ _ _ hj1 hj2]

/-- A second store to the same 16-bit place overrides the first. -/
theorem wr16_wr16 (mem : List Byte) (i v w : Nat) :
    wr16 (wr16 mem i v) i w = wr16 mem i w := by
  unfold wr16 wr8
  rw [List.set_comm _ _ _ (show i + 1 ≠ i by omega)]
  simp only [List.set_set]

/-! ## The carry fold -/

theorem shiftRight16 (n : Nat) : n >>> 16 = n / 65536 := Nat.shiftRight_eq_div_pow n 16

theorem and_FFFF (n : Nat) : n &&& 0xFFFF = n % 65536 := Nat.and_pow_two_sub_one_eq_mod n 16

/-- With enough iterations allowed, the fold computes the ones-complement residue of
`n`: `0` for `0`, and otherwise the representative of `n` modulo `0xFFFF` in `1..0xFFFF`. -/
theorem fold_loop_eq : ∀ (fuel n : Nat), n ≤ fuel →
    fold_loop fuel n = if n = 0 then 0 else (n - 1) % 65535 + 1 := by
  intro fuel
  induction fuel with
  | zero =>
    intro n hn
    have h0 : n = 0 := by omega
    subst h0
    rfl
  | succ k ih =>
    intro n hn
    simp only [fold_loop, shiftRight16, and_FFFF]
    by_cases hc : n / 65536 ≠ 0
    · rw [if_pos hc, ih _ (by omega)]
      have h1 : ¬ (n % 65536 + n / 65536 = 0) := by omega
      have h2 : ¬ (n = 0) := by omega
      rw [if_neg h1, if_neg h2]
      omega
    · rw [if_neg hc]
      by_cases h2 : n = 0
      · rw [if_pos h2]; exact h2
      · rw [if_neg h2]; omega

theorem fold_carries_eq (n : Nat) :
    fold_carries n = if n = 0 then 0 else (n - 1) % 65535 + 1 :=
  fold_loop_eq n n (Nat.le_refl n)

/-- The fold ends because its loop condition fails: the result has no carry left. -/
theorem fold_carries_lt (n : Nat) : fold_carries n < 65536 := by
  rw [fold_carries_eq]
  split_ifs <;> omega

/-- Function `fold_carries` satisfies the equation of the C `while` loop. -/
theorem fold_carries_unfold (n : Nat) :
    fold_carries n =
      if n >>> 16 ≠ 0 then fold_carries ((n &&& 0xFFFF) + (n >>> 16)) else n := by
  rw [shiftRight16, and_FFFF, fold_carries_eq, fold_carries_eq]
  by_cases hc : n / 65536 ≠ 0
  · rw [if_pos hc]
    have h1 : ¬ (n % 65536 + n / 65536 = 0) := by omega
    have h2 : ¬ (n = 0) := by omega
    rw [if_neg h1, if_neg h2]
    omega
  · rw [if_neg hc]
    by_cases h2 : n = 0
    · rw [if_pos h2]; exact h2.symm
    · rw [if_neg h2]; omega

theorem htons_not_eq (f : Nat) (h : f < 65536) : htons_not f = 0xFFFF - f := by
  unfold htons_not
  omega

/-- Adding the complement of the folded sum makes the sum fold to `0xFFFF`. -/
theorem fold_carries_add_complement (n : Nat) :
    fold_carries (n + (0xFFFF - fold_carries n)) = 0xFFFF := by
  rw [fold_carries_eq (n + _), fold_carries_eq n]
  by_cases h : n = 0
  · subst h
    decide
  · rw [if_neg h]
    have h1 : ¬ (n + (0xFFFF - ((n - 1) % 65535 + 1)) = 0) := by omega
    rw [if_neg h1]
    omega

/-! ## The summation loop -/

theorem slice_zero (mem : List Byte) (p : Nat) : slice mem p 0 = [] := by
  unfold slice
  exact List.take_zero _

theorem slice_succ (mem : List Byte) (p n : Nat) (h : p < mem.length) :
    slice mem p (n + 1) = mem[p] :: slice mem (p + 1) n := by
  unfold slice
  rw [List.drop_eq_getElem_cons h, List.take_succ_cons]

theorem length_slice (mem : List Byte) (p n : Nat) (h : p + n ≤ mem.length) :
    (slice mem p n).length = n := by
  unfold slice
  rw [List.length_take, List.length_drop]
  omega

theorem getElem?_slice (mem : List Byte) (p n j : Nat) :
    (slice mem p n)[j]? = if j < n then mem[p + j]? else none := by
  unfold slice
  rw [List.getElem?_take, List.getElem?_drop]

/-- A store inside a window shows as the same store in the slice. -/
theorem slice_set (mem : List Byte) (p n k : Nat) (x : Byte) :
    slice (mem.set (p + k) x) p n = (slice mem p n).set k x := by
  apply List.ext_getElem?
  intro j
  rw [getElem?_slice, List.getElem?_set, List.getElem?_set, getElem?_slice]
  have hlen : (slice mem p n).length = min n (mem.length - p) := by
    unfold slice
    rw [List.length_take, List.length_drop]
  rw [hlen]
  by_cases hjn : j < n
  · rw [if_pos hjn]
    by_cases hkj : k = j
    · subst hkj
      rw [if_pos rfl, if_pos rfl]
      by_cases hl : p + k < mem.length
      · rw [if_pos hl, if_pos (by omega)]
      · rw [if_neg hl, if_neg (by omega)]
    · rw [if_neg (by omega), if_neg hkj, if_pos hjn]
  · rw [if_neg hjn]
    by_cases hkj : k = j
    · subst hkj
      rw [if_pos rfl, if_neg (by omega)]
    · rw [if_neg hkj, if_neg hjn]

theorem slice_wr16 (mem : List Byte) (p n off v : Nat) :
    slice (wr16 mem (p + off) v) p n =
      ((slice mem p n).set off (mkByte (v / 256))).set (off + 1) (mkByte v) := by
  unfold wr16 wr8
  rw [show p + off + 1 = p + (off + 1) by omega, slice_set, slice_set]

theorem slice_wr16_zero (mem : List Byte) (p n off : Nat) :
    slice (wr16 mem (p + off) 0) p n = zero_check (slice mem p n) off :=
  slice_wr16 mem p n off 0

/-- The summation loop adds, modulo `2^32`, the big-endian words of the bytes it covers. -/
theorem sum_loop_eq (mem : List Byte) : ∀ (len ptr acc : Nat), ptr + len ≤ mem.length →
    acc < 4294967296 →
    sum_loop mem ptr len acc = (acc + (be_words (slice mem ptr len)).sum) % 4294967296 := by
  intro len
  induction len using Nat.twoStepInduction with
  | zero =>
    intro ptr acc _ hacc
    rw [slice_zero]
    simp only [sum_loop, be_words, List.sum_nil, Nat.add_zero]
    exact (Nat.mod_eq_of_lt hacc).symm
  | one =>
    intro ptr acc hb _
    rw [slice_succ mem ptr 0 (by omega), slice_zero]
    simp only [sum_loop, be_words, List.sum_cons, List.sum_nil, Nat.add_zero]
    rw [rd8_eq_getElem mem ptr (by omega), Nat.shiftLeft_eq]
  | more n ih _ =>
    intro ptr acc hb _
    rw [slice_succ mem ptr (n + 1) (by omega), slice_succ mem (ptr + 1) n (by omega),
      show ptr + 1 + 1 = ptr + 2 from rfl]
    simp only [sum_loop, be_words, List.sum_cons]
    rw [ih (ptr + 2) _ (by omega) (Nat.mod_lt _ (by decide))]
    unfold ntohs_at
    rw [rd8_eq_getElem mem ptr (by omega), rd8_eq_getElem mem (ptr + 1) (by omega)]
    omega

/-- Every word is at most `0xFFFF`, and there is one word per two bytes. -/
theorem be_words_sum_le : ∀ (l : List Byte), (be_words l).sum * 2 ≤ 65535 * (l.length + 1) := by
  intro l
  induction l using be_words.induct with
  | case1 => simp [be_words]
  | case2 a =>
    have := a.isLt
    simp only [be_words, List.sum_cons, List.sum_nil, List.length_cons, List.length_nil]
    omega
  | case3 a b rest ih =>
    have := a.isLt
    have := b.isLt
    simp only [be_words, List.sum_cons, List.length_cons]
    omega

/-! ## The checksum routines against the specification -/

theorem ip_ihl_le (mem : List Byte) (ip : Nat) : ip_ihl mem ip ≤ 15 := by
  unfold ip_ihl
  have h : rd8 mem ip &&& 0xF = rd8 mem ip % 16 := Nat.and_pow_two_sub_one_eq_mod _ 4
  rw [h]
  omega

theorem ip_ihl_wr16 (mem : List Byte) (ip off v : Nat) (h : 0 < off) :
    ip_ihl (wr16 mem (ip + off) v) ip = ip_ihl mem ip := by
  unfold ip_ihl
  rw [rd8_wr16_ne mem (ip + off) ip v (by omega) (by omega)]

theorem length_zero_check (l : List Byte) (off : Nat) : (zero_check l off).length = l.length := by
  unfold zero_check
  rw [List.length_set, List.length_set]

/-- The accumulator of `calculate_ip_checksum` before the fold, for a header inside the
buffer: the plain sum of the header words with the checksum field zeroed.  The 32-bit
accumulator does not wrap. -/
theorem ip_sum_loop_eq (mem : List Byte) (ip : Nat)
    (hb : ip + ip_ihl mem ip * 4 ≤ mem.length) :
    sum_loop (wr16 mem (ip + 10) 0) ip (ip_ihl mem ip * 4) 0 =
      (be_words (zero_check (slice mem ip (ip_ihl mem ip * 4)) 10)).sum := by
  have h15 := ip_ihl_le mem ip
  rw [sum_loop_eq _ _ _ _ (by rw [length_wr16]; exact hb) (by decide), slice_wr16_zero]
  have hle := be_words_sum_le (zero_check (slice mem ip (ip_ihl mem ip * 4)) 10)
  rw [length_zero_check, length_slice mem ip _ hb] at hle
  omega

theorem calculate_ip_checksum_fst (mem : List Byte) (ip : Nat)
    (hb : ip + ip_ihl mem ip * 4 ≤ mem.length) :
    (calculate_ip_checksum mem ip).1 = spec_ip_checksum (slice mem ip (ip_ihl mem ip * 4)) := by
  unfold calculate_ip_checksum spec_ip_checksum
  simp only
  rw [ip_sum_loop_eq mem ip hb, htons_not_eq _ (fold_carries_lt _)]

theorem calculate_ip_checksum_snd (mem : List Byte) (ip : Nat) :
    (calculate_ip_checksum mem ip).2 = mem := by
  unfold calculate_ip_checksum ip_check
  simp only
  exact wr16_restore mem (ip + 10) 0

theorem calculate_ip_checksum_wr16_check (mem : List Byte) (ip v : Nat) :
    (calculate_ip_checksum (wr16 mem (ip + 10) v) ip).1 = (calculate_ip_checksum mem ip).1 := by
  unfold calculate_ip_checksum
  simp only
  rw [ip_ihl_wr16 mem ip 10 v (by decide), wr16_wr16]

/-- Claim C6.  For an IP header that lies inside the buffer (whatever its `ihl`, so in
particular for `ihl` between 5 and 15), `calculate_ip_checksum` returns the 16-bit
ones-complement of the carry-folded sum of the header's big-endian words with the checksum
word taken as zero; the result is the same whatever value is stored in the checksum field;
and the call leaves the buffer as it found it. -/
theorem calculate_ip_checksum_spec (mem : List Byte) (ip : Nat)
    (hb : ip + ip_ihl mem ip * 4 ≤ mem.length) :
    (calculate_ip_checksum mem ip).1 = spec_ip_checksum (slice mem ip (ip_ihl mem ip * 4)) ∧
    (∀ v : Nat,
      (calculate_ip_checksum (wr16 mem (ip + 10) v) ip).1 = (calculate_ip_checksum mem ip).1) ∧
    (calculate_ip_checksum mem ip).2 = mem :=
  ⟨calculate_ip_checksum_fst mem ip hb,
    fun v => calculate_ip_checksum_wr16_check mem ip v,
    calculate_ip_checksum_snd mem ip⟩

/-- Claim C6 at a concrete input: the 20-byte header (`ihl` 5) of the sample datagram. -/
theorem calculate_ip_checksum_spec_witness :
    ip_ihl (sample_udp 5000 0x1111) 0 = 5 ∧
    (calculate_ip_checksum (sample_udp 5000 0x1111) 0).1 =
      spec_ip_checksum (slice (sample_udp 5000 0x1111) 0 (ip_ihl (sample_udp 5000 0x1111) 0 * 4)) ∧
    (∀ v : Nat,
      (calculate_ip_checksum (wr16 (sample_udp 5000 0x1111) (0 + 10) v) 0).1 =
        (calculate_ip_checksum (sample_udp 5000 0x1111) 0).1) ∧
    (calculate_ip_checksum (sample_udp 5000 0x1111) 0).2 = sample_udp 5000 0x1111 :=
  ⟨by decide, calculate_ip_checksum_spec (sample_udp 5000 0x1111) 0 (by decide)⟩

theorem be_words_slice4 (mem : List Byte) (p : Nat) (h : p + 4 ≤ mem.length) :
    (be_words (slice mem p 4)).sum = ntohs_at mem p + ntohs_at mem (p + 2) := by
  rw [slice_succ mem p 3 (by omega), slice_succ mem (p + 1) 2 (by omega),
    show p + 1 + 1 = p + 2 from rfl, slice_succ mem (p + 2) 1 (by omega),
    slice_succ mem (p + 2 + 1) 0 (by omega), slice_zero]
  simp only [be_words, List.sum_cons, List.sum_nil]
  unfold ntohs_at
  rw [rd8_eq_getElem mem p (by omega), rd8_eq_getElem mem (p + 1) (by omega),
    rd8_eq_getElem mem (p + 2) (by omega), rd8_eq_getElem mem (p + 2 + 1) (by omega)]
  omega

/-- The accumulator of `calculate_udp_checksum` after the fold, for a header and a segment
inside the buffer: the fold of the plain sum the specification describes.  The 32-bit
accumulator does not wrap. -/
theorem udp_folded_sum_eq (mem : List Byte) (ip udp : Nat) (hip : ip + 20 ≤ mem.length)
    (hudp : udp + udp_len mem udp ≤ mem.length) :
    udp_folded_sum mem ip udp =
      fold_carries ((be_words (slice mem (ip + 12) 4)).sum + (be_words (slice mem (ip + 16) 4)).sum
        + 0x0011 + udp_len mem udp
        + (be_words (zero_check (slice mem udp (udp_len mem udp)) 6)).sum) := by
  have hL : udp_len mem udp < 65536 := ntohs_at_lt mem (udp + 4)
  have h1 := ntohs_at_lt mem (ip + 12)
  have h2 := ntohs_at_lt mem (ip + 14)
  have h3 := ntohs_at_lt mem (ip + 16)
  have h4 := ntohs_at_lt mem (ip + 18)
  have hp : udp_pseudo_sum mem ip udp =
      ntohs_at mem (ip + 12) + ntohs_at mem (ip + 14) + (ntohs_at mem (ip + 16)
        + ntohs_at mem (ip + 18)) + 17 + udp_len mem udp := by
    unfold udp_pseudo_sum IPPROTO_UDP
    simp only
    omega
  unfold udp_folded_sum
  simp only
  rw [sum_loop_eq _ _ _ _ (by rw [length_wr16]; exact hudp) (by rw [hp]; omega),
    slice_wr16_zero, hp, be_words_slice4 mem (ip + 12) (by omega),
    be_words_slice4 mem (ip + 16) (by omega)]
  have hle := be_words_sum_le (zero_check (slice mem udp (udp_len mem udp)) 6)
  rw [length_zero_check, length_slice mem udp _ hudp] at hle
  congr 1
  rw [show ip + 12 + 2 = ip + 14 from rfl, show ip + 16 + 2 = ip + 18 from rfl]
  omega

theorem calculate_udp_checksum_fst (mem : List Byte) (ip udp : Nat)
    (hip : ip + 20 ≤ mem.length) (hudp : udp + udp_len mem udp ≤ mem.length) :
    (calculate_udp_checksum mem ip udp).1 =
      spec_udp_checksum (slice mem (ip + 12) 4) (slice mem (ip + 16) 4) (udp_len mem udp)
        (slice mem udp (udp_len mem udp)) := by
  unfold calculate_udp_checksum spec_udp_checksum
  simp only
  rw [udp_folded_sum_eq mem ip udp hip hudp, htons_not_eq _ (fold_carries_lt _)]
  split_ifs <;> first | rfl | omega

/-- Claim C7.  For an IP header and a UDP segment whose length field does not exceed the
bytes available, `calculate_udp_checksum` returns the checksum of the specification:
the ones-complement of the folded sum of the pseudo-header and of the segment with its
checksum field taken as zero and an odd last byte padded, with `0` replaced by `0xFFFF`. -/
theorem calculate_udp_checksum_spec (mem : List Byte) (ip udp : Nat)
    (hip : ip + 20 ≤ mem.length) (hudp : udp + udp_len mem udp ≤ mem.length) :
    (calculate_udp_checksum mem ip udp).1 =
      spec_udp_checksum (slice mem (ip + 12) 4) (slice mem (ip + 16) 4) (udp_len mem udp)
        (slice mem udp (udp_len mem udp)) :=
  calculate_udp_checksum_fst mem ip udp hip hudp

/-- Claim C7 at a concrete input: the sample datagram, whose UDP length field is 10. -/
theorem calculate_udp_checksum_spec_witness :
    (calculate_udp_checksum (sample_udp 5000 0x1111) 0 20).1 =
      spec_udp_checksum (slice (sample_udp 5000 0x1111) (0 + 12) 4)
        (slice (sample_udp 5000 0x1111) (0 + 16) 4) (udp_len (sample_udp 5000 0x1111) 20)
        (slice (sample_udp 5000 0x1111) 20 (udp_len (sample_udp 5000 0x1111) 20)) :=
  calculate_udp_checksum_spec (sample_udp 5000 0x1111) 0 20 (by decide) (by decide)

/-- Claim C8.  Function `calculate_udp_checksum` never returns 0: when the ones-complement of
the folded sum is 0 it returns `0xFFFF`, and otherwise it returns that complement
unchanged. -/
theorem calculate_udp_checksum_nonzero (mem : List Byte) (ip udp : Nat) :
    (calculate_udp_checksum mem ip udp).1 ≠ 0 ∧
    (htons_not (udp_folded_sum mem ip udp) = 0 →
      (calculate_udp_checksum mem ip udp).1 = 0xFFFF) ∧
    (htons_not (udp_folded_sum mem ip udp) ≠ 0 →
      (calculate_udp_checksum mem ip udp).1 = htons_not (udp_folded_sum mem ip udp)) := by
  unfold calculate_udp_checksum
  simp only
  refine ⟨?_, ?_, ?_⟩
  · by_cases h : htons_not (udp_folded_sum mem ip udp) ≠ 0
    · rw [if_pos h]; exact h
    · rw [if_neg h]; decide
  · intro h
    rw [if_neg (by simpa using h)]
  · intro h
    rw [if_pos h]

/-! ## What `forward_packet` changes -/

theorem calculate_udp_checksum_snd (mem : List Byte) (ip udp : Nat) :
    (calculate_udp_checksum mem ip udp).2 = mem := by
  unfold calculate_udp_checksum udp_check
  simp only
  exact wr16_restore mem (udp + 6) 0

/-- The rewrite step with no UDP header, or with a zero rewrite port, does nothing. -/
theorem port_forward_none (r : Route) (mem : List Byte) (ip : Nat) :
    port_forward r mem ip none = (mem, []) := rfl

theorem port_forward_zero (r : Route) (mem : List Byte) (ip : Nat) (udp : Option Nat)
    (h : r.forward_to_port = 0) : port_forward r mem ip udp = (mem, []) := by
  cases udp with
  | none => rfl
  | some u =>
    unfold port_forward
    simp only
    rw [if_neg (by simpa using h)]

/-- The rewrite step, when it fires: the buffer it leaves and the one message it prints. -/
theorem port_forward_some (r : Route) (mem : List Byte) (ip u : Nat)
    (h : r.forward_to_port ≠ 0) :
    port_forward r mem ip (some u) =
      (if udp_check mem u ≠ 0 then
          wr16 (wr16 mem (u + 2) r.forward_to_port) (u + 6)
            (calculate_udp_checksum (wr16 mem (u + 2) r.forward_to_port) ip u).1
        else wr16 mem (u + 2) r.forward_to_port,
       [Event.log_port_forward (udp_dest mem u) r.forward_to_port]) := by
  have hc : udp_check (wr16 mem (u + 2) r.forward_to_port) u = udp_check mem u := by
    unfold udp_check
    exact ntohs_at_wr16_ne mem (u + 2) (u + 6) _ (by omega)
  unfold port_forward
  simp only
  rw [if_pos h, hc, calculate_udp_checksum_snd]

/-- The route loop of `forward_packet` either leaves the buffer alone and prints nothing,
or it is the rewrite step of one route of the table with a nonzero rewrite port, applied
to a parsed UDP header. -/
theorem forward_loop_cases (dst_vm_idx : Int) (mem : List Byte) (ip : Nat) (udp : Option Nat) :
    ∀ routes : List Route,
      forward_loop dst_vm_idx mem ip udp routes = (mem, []) ∨
      ∃ r u, r ∈ routes ∧ udp = some u ∧ r.forward_to_port ≠ 0 ∧
        r.output_vm_index = dst_vm_idx ∧ r.dst_ip = ip_daddr mem ip ∧
        forward_loop dst_vm_idx mem ip udp routes = port_forward r mem ip (some u) := by
  intro routes
  induction routes with
  | nil => exact Or.inl rfl
  | cons r rest ih =>
    simp only [forward_loop]
    by_cases hc : r.output_vm_index = dst_vm_idx ∧ r.dst_ip = ip_daddr mem ip
    · rw [if_pos hc]
      by_cases hz : r.forward_to_port = 0
      · exact Or.inl (port_forward_zero r mem ip udp hz)
      · cases udp with
        | none => exact Or.inl rfl
        | some u =>
          exact Or.inr ⟨r, u, List.mem_cons_self r rest, rfl, hz, hc.1, hc.2, rfl⟩
    · rw [if_neg hc]
      rcases ih with h | ⟨r', u, hr, hu, hz, ho, hd, he⟩
      · exact Or.inl h
      · exact Or.inr ⟨r', u, List.mem_cons_of_mem r hr, hu, hz, ho, hd, he⟩

/-- The rewrite step touches only the destination port and the checksum of the UDP header. -/
theorem port_forward_getElem? (r : Route) (mem : List Byte) (ip u j : Nat)
    (h2 : j ≠ u + 2) (h3 : j ≠ u + 3) (h6 : j ≠ u + 6) (h7 : j ≠ u + 7) :
    (port_forward r mem ip (some u)).1[j]? = mem[j]? := by
  by_cases hz : r.forward_to_port = 0
  · rw [port_forward_zero r mem ip _ hz]
  · rw [port_forward_some r mem ip u hz]
    simp only
    by_cases hc : udp_check mem u ≠ 0
    · rw [if_pos hc, getElem?_wr16_ne _ _ _ _ (by omega) (by omega),
        getElem?_wr16_ne _ _ _ _ (by omega) (by omega)]
    · rw [if_neg hc, getElem?_wr16_ne _ _ _ _ (by omega) (by omega)]

theorem port_forward_length (r : Route) (mem : List Byte) (ip : Nat) (udp : Option Nat) :
    (port_forward r mem ip udp).1.length = mem.length := by
  cases udp with
  | none => rfl
  | some u =>
    by_cases hz : r.forward_to_port = 0
    · rw [port_forward_zero r mem ip _ hz]
    · rw [port_forward_some r mem ip u hz]
      simp only
      by_cases hc : udp_check mem u ≠ 0
      · rw [if_pos hc, length_wr16, length_wr16]
      · rw [if_neg hc, length_wr16]

theorem forward_loop_length (dst_vm_idx : Int) (mem : List Byte) (ip : Nat) (udp : Option Nat)
    (routes : List Route) :
    (forward_loop dst_vm_idx mem ip udp routes).1.length = mem.length := by
  rcases forward_loop_cases dst_vm_idx mem ip udp routes with h | ⟨r, u, _, _, _, _, _, he⟩
  · rw [h]
  · rw [he]; exact port_forward_length r mem ip (some u)

/-- The route loop leaves every byte in front of the UDP header as it was. -/
theorem forward_loop_getElem?_header (dst_vm_idx : Int) (mem : List Byte) (ip : Nat)
    (len : Int) (routes : List Route) (j : Nat) (hj : j < ip + ip_ihl mem ip * 4 + 2) :
    (forward_loop dst_vm_idx mem ip (parse_udp mem ip len) routes).1[j]? = mem[j]? := by
  rcases forward_loop_cases dst_vm_idx mem ip (parse_udp mem ip len) routes with
    h | ⟨r, u, _, hu, _, _, _, he⟩
  · rw [h]
  · rw [he]
    have hu2 : u = ip + ip_ihl mem ip * 4 := by
      unfold parse_udp at hu
      split_ifs at hu
      exact (Option.some.inj hu).symm
    exact port_forward_getElem? r mem ip u j (by omega) (by omega) (by omega) (by omega)

/-- The messages of the route loop are port-forward messages. -/
theorem forward_loop_events (dst_vm_idx : Int) (mem : List Byte) (ip : Nat) (udp : Option Nat)
    (routes : List Route) (e : Event)
    (he : e ∈ (forward_loop dst_vm_idx mem ip udp routes).2) :
    ∃ o n, e = Event.log_port_forward o n := by
  rcases forward_loop_cases dst_vm_idx mem ip udp routes with h | ⟨r, u, _, _, hz, _, _, hf⟩
  · rw [h] at he
    simp at he
  · rw [hf, port_forward_some r mem ip u hz] at he
    simp only [List.mem_singleton] at he
    exact ⟨_, _, he⟩

/-! ## The dispatcher -/

theorem forward_packet_fst (routes : List Route) (packet : List Byte) (len : Int)
    (src dst wr : Int) :
    (forward_packet routes packet len src dst wr).1 =
      wr16 (forward_loop dst packet 0 (parse_udp packet 0 len) routes).1 (0 + 10)
        (calculate_ip_checksum (forward_loop dst packet 0 (parse_udp packet 0 len) routes).1 0).1 :=
  rfl

theorem forward_packet_snd (routes : List Route) (packet : List Byte) (len : Int)
    (src dst wr : Int) :
    (forward_packet routes packet len src dst wr).2 =
      (forward_loop dst packet 0 (parse_udp packet 0 len) routes).2 ++
        [Event.write dst ((forward_packet routes packet len src dst wr).1.take len.toNat) len] ++
        (if wr < 0 then [Event.log_write_failed] else []) :=
  rfl

/-- The only `write` of `forward_packet` is the one of its last statement. -/
theorem forward_packet_write_mem (routes : List Route) (packet : List Byte) (len : Int)
    (src dst wr : Int) (d : Int) (data : List Byte) (count : Int)
    (hw : Event.write d data count ∈ (forward_packet routes packet len src dst wr).2) :
    d = dst ∧ count = len ∧
      data = (forward_packet routes packet len src dst wr).1.take len.toNat := by
  rw [forward_packet_snd, List.mem_append, List.mem_append] at hw
  rcases hw with (h | h) | h
  · obtain ⟨o, n, he⟩ := forward_loop_events _ _ _ _ _ _ h
    cases he
  · simp only [List.mem_singleton, Event.write.injEq] at h
    exact ⟨h.1, h.2.2, h.2.1⟩
  · split_ifs at h
    · simp only [List.mem_singleton] at h
      cases h
    · simp at h

/-- A port-forward message of `forward_packet` comes from its route loop. -/
theorem forward_packet_port_forward_mem (routes : List Route) (packet : List Byte) (len : Int)
    (src dst wr : Int) (o n : Nat) :
    Event.log_port_forward o n ∈ (forward_packet routes packet len src dst wr).2 ↔
      Event.log_port_forward o n ∈
        (forward_loop dst packet 0 (parse_udp packet 0 len) routes).2 := by
  rw [forward_packet_snd, List.mem_append, List.mem_append]
  constructor
  · rintro ((h | h) | h)
    · exact h
    · simp only [List.mem_singleton] at h
      cases h
    · split_ifs at h
      · simp only [List.mem_singleton] at h
        cases h
      · simp at h
  · intro h
    exact Or.inl (Or.inl h)

/-- The trace of the dispatcher on a packet that passes validation. -/
theorem process_packet_from_vm_valid (routes : List Route) (vms : List VirtualMachine)
    (vm_idx : Int) (packet : List Byte) (len : Int) (wr : Int)
    (h1 : ¬ (len % 18446744073709551616 < 20)) (h2 : ip_version packet 0 = 4)
    (h3 : 5 ≤ ip_ihl packet 0) :
    process_packet_from_vm routes vms vm_idx packet len wr =
      if find_output_vm routes vms packet 0 (parse_udp packet 0 len) ≥ 0 ∧
          find_output_vm routes vms packet 0 (parse_udp packet 0 len) ≠ vm_idx then
        [Event.log_rx vm_idx (ip_saddr packet 0) (ip_daddr packet 0) len (ip_protocol packet 0)
            (match parse_udp packet 0 len with
              | some u => some (udp_source packet u, udp_dest packet u)
              | none => none),
          Event.route_lookup,
          Event.log_forward_to (find_output_vm routes vms packet 0 (parse_udp packet 0 len))]
          ++ (forward_packet routes packet len vm_idx
                (find_output_vm routes vms packet 0 (parse_udp packet 0 len)) wr).2
      else if find_output_vm routes vms packet 0 (parse_udp packet 0 len) < 0 then
        [Event.log_rx vm_idx (ip_saddr packet 0) (ip_daddr packet 0) len (ip_protocol packet 0)
            (match parse_udp packet 0 len with
              | some u => some (udp_source packet u, udp_dest packet u)
              | none => none),
          Event.route_lookup, Event.log_no_route]
      else
        [Event.log_rx vm_idx (ip_saddr packet 0) (ip_daddr packet 0) len (ip_protocol packet 0)
            (match parse_udp packet 0 len with
              | some u => some (udp_source packet u, udp_dest packet u)
              | none => none),
          Event.route_lookup, Event.log_would_loop] := by
  unfold process_packet_from_vm
  simp only
  rw [if_neg h1, if_neg (by simpa using h2), if_neg (by omega)]

/-- A `write` in the dispatcher's trace is the one `forward_packet` makes, on a packet that
passed validation, to the endpoint that `find_output_vm` returned. -/
theorem process_write_inv (routes : List Route) (vms : List VirtualMachine)
    (vm_idx : Int) (packet : List Byte) (len : Int) (wr : Int)
    (dst : Int) (data : List Byte) (count : Int)
    (hw : Event.write dst data count ∈
      process_packet_from_vm routes vms vm_idx packet len wr) :
    ¬ (len % 18446744073709551616 < 20) ∧ ip_version packet 0 = 4 ∧ 5 ≤ ip_ihl packet 0 ∧
    dst = find_output_vm routes vms packet 0 (parse_udp packet 0 len) ∧ 0 ≤ dst ∧
    dst ≠ vm_idx ∧ count = len ∧
    data = (forward_packet routes packet len vm_idx dst wr).1.take len.toNat ∧
    process_packet_from_vm routes vms vm_idx packet len wr =
      [Event.log_rx vm_idx (ip_saddr packet 0) (ip_daddr packet 0) len (ip_protocol packet 0)
            (match parse_udp packet 0 len with
              | some u => some (udp_source packet u, udp_dest packet u)
              | none => none),
          Event.route_lookup, Event.log_forward_to dst]
          ++ (forward_packet routes packet len vm_idx dst wr).2 := by
  by_cases h1 : len % 18446744073709551616 < 20
  · unfold process_packet_from_vm at hw
    rw [if_pos h1] at hw
    simp at hw
  by_cases h2 : ip_version packet 0 = 4
  swap
  · unfold process_packet_from_vm at hw
    simp only at hw
    rw [if_neg h1, if_pos h2] at hw
    simp at hw
  by_cases h3 : 5 ≤ ip_ihl packet 0
  swap
  · unfold process_packet_from_vm at hw
    simp only at hw
    rw [if_neg h1, if_neg (by simpa using h2), if_pos (by omega)] at hw
    simp at hw
  have hv := process_packet_from_vm_valid routes vms vm_idx packet len wr h1 h2 h3
  rw [hv] at hw
  by_cases hf : find_output_vm routes vms packet 0 (parse_udp packet 0 len) ≥ 0 ∧
      find_output_vm routes vms packet 0 (parse_udp packet 0 len) ≠ vm_idx
  · rw [if_pos hf] at hw hv
    rw [List.mem_append] at hw
    rcases hw with hw | hw
    · simp at hw
    · obtain ⟨hd, hc, hdat⟩ := forward_packet_write_mem _ _ _ _ _ _ _ _ _ hw
      subst hd
      exact ⟨h1, h2, h3, rfl, hf.1, hf.2, hc, hdat, hv⟩
  · rw [if_neg hf] at hw
    split_ifs at hw <;> simp at hw

/-- Claim C10.  For a datagram (a read of non-negative length) that is shorter than 20
bytes, or whose version field is not 4, or whose header-length field is below 5, the
dispatcher produces exactly one event, a drop message; in particular it makes no route
lookup and no write. -/
theorem process_packet_from_vm_invalid (routes : List Route) (vms : List VirtualMachine)
    (vm_idx : Int) (packet : List Byte) (len : Int) (wr : Int)
    (h0 : 0 ≤ len)
    (hbad : len < 20 ∨ ip_version packet 0 ≠ 4 ∨ ip_ihl packet 0 < 5) :
    (process_packet_from_vm routes vms vm_idx packet len wr = [Event.log_too_short] ∨
      process_packet_from_vm routes vms vm_idx packet len wr =
        [Event.log_non_ipv4 (ip_version packet 0)] ∨
      process_packet_from_vm routes vms vm_idx packet len wr = [Event.log_invalid_ihl]) ∧
    Event.route_lookup ∉ process_packet_from_vm routes vms vm_idx packet len wr ∧
    (∀ (d : Int) (data : List Byte) (count : Int),
      Event.write d data count ∉ process_packet_from_vm routes vms vm_idx packet len wr) := by
  have key : process_packet_from_vm routes vms vm_idx packet len wr = [Event.log_too_short] ∨
      process_packet_from_vm routes vms vm_idx packet len wr =
        [Event.log_non_ipv4 (ip_version packet 0)] ∨
      process_packet_from_vm routes vms vm_idx packet len wr = [Event.log_invalid_ihl] := by
    unfold process_packet_from_vm
    simp only
    by_cases h1 : len % 18446744073709551616 < 20
    · rw [if_pos h1]; exact Or.inl rfl
    · rw [if_neg h1]
      by_cases h2 : ip_version packet 0 ≠ 4
      · rw [if_pos h2]; exact Or.inr (Or.inl rfl)
      · rw [if_neg h2]
        by_cases h3 : ip_ihl packet 0 < 5
        · rw [if_pos h3]; exact Or.inr (Or.inr rfl)
        · exfalso
          rcases hbad with h | h | h
          · omega
          · exact h2 h
          · exact h3 h
  refine ⟨key, ?_, ?_⟩
  · rcases key with h | h | h <;> rw [h] <;> simp
  · intro d data count
    rcases key with h | h | h <;> rw [h] <;> simp

/-- Claim C10 at concrete inputs: a 19-byte read, a version-6 header and a header with
`ihl` 4 are each answered by one drop message. -/
theorem process_packet_from_vm_invalid_witness :
    process_packet_from_vm scenario_b_routes three_vms 0 (sample_udp 5000 0x1111) 19 0
      = [Event.log_too_short] ∧
    process_packet_from_vm scenario_b_routes three_vms 0 ((sample_udp 5000 0).set 0 0x65) 30 0
      = [Event.log_non_ipv4 6] ∧
    process_packet_from_vm scenario_b_routes three_vms 0 ((sample_udp 5000 0).set 0 0x44) 30 0
      = [Event.log_invalid_ihl] ∧
    Event.route_lookup ∉
      process_packet_from_vm scenario_b_routes three_vms 0 (sample_udp 5000 0x1111) 19 0 :=
  ⟨by decide, by decide, by decide,
   (process_packet_from_vm_invalid scenario_b_routes three_vms 0 (sample_udp 5000 0x1111) 19 0
      (by decide) (Or.inl (by decide))).2.1⟩

/-! ## The IP checksum of a forwarded packet -/

/-- Storing a word at an even offset of a byte string adds that word to the sum the string
has with the word zeroed. -/
theorem be_words_set_pair : ∀ (k : Nat) (l : List Byte) (a b : Byte), 2 * k + 1 < l.length →
    (be_words ((l.set (2 * k) a).set (2 * k + 1) b)).sum =
      (be_words ((l.set (2 * k) 0).set (2 * k + 1) 0)).sum + (a.val * 256 + b.val) := by
  intro k
  induction k with
  | zero =>
    intro l a b h
    match l, h with
    | x :: y :: rest, _ =>
      simp only [Nat.mul_zero, Nat.zero_add, List.set_cons_zero, List.set_cons_succ, be_words,
        List.sum_cons]
      simp
      omega
  | succ k ih =>
    intro l a b h
    match l, h with
    | x :: y :: rest, h =>
      have e : 2 * (k + 1) = 2 * k + 1 + 1 := by omega
      rw [e]
      simp only [List.set_cons_succ, be_words, List.sum_cons]
      rw [ih rest a b (by simp only [List.length_cons] at h; omega)]
      omega

theorem slice_take (mem : List Byte) (m n : Nat) (h : n ≤ m) :
    slice (mem.take m) 0 n = slice mem 0 n := by
  apply List.ext_getElem?
  intro j
  rw [getElem?_slice, getElem?_slice]
  by_cases hj : j < n
  · rw [if_pos hj, if_pos hj, List.getElem?_take, if_pos (by omega)]
  · rw [if_neg hj, if_neg hj]

/-- The calls of `forward_packet` leave the header-length field as received. -/
theorem forward_packet_ihl (routes : List Route) (packet : List Byte) (len : Int)
    (src dst wr : Int) :
    ip_ihl (forward_packet routes packet len src dst wr).1 0 = ip_ihl packet 0 := by
  rw [forward_packet_fst, ip_ihl_wr16 _ 0 10 _ (by decide)]
  unfold ip_ihl
  rw [rd8_eq_of_getElem? _ packet 0]
  exact forward_loop_getElem?_header dst packet 0 len routes 0 (by omega)

theorem forward_packet_length (routes : List Route) (packet : List Byte) (len : Int)
    (src dst wr : Int) :
    (forward_packet routes packet len src dst wr).1.length = packet.length := by
  rw [forward_packet_fst, length_wr16, forward_loop_length]

/-- After `forward_packet`, the words of the IP header, checksum included, sum to a value
that folds to `0xFFFF`. -/
theorem forward_packet_ip_header_sum (routes : List Route) (packet : List Byte) (len : Int)
    (src dst wr : Int) (h5 : 5 ≤ ip_ihl packet 0) (hb : ip_ihl packet 0 * 4 ≤ packet.length) :
    fold_carries (be_words
      (slice (forward_packet routes packet len src dst wr).1 0 (ip_ihl packet 0 * 4))).sum
      = 0xFFFF := by
  rw [forward_packet_fst]
  generalize hm : (forward_loop dst packet 0 (parse_udp packet 0 len) routes).1 = mem1
  have hihl1 : ip_ihl mem1 0 = ip_ihl packet 0 := by
    unfold ip_ihl
    rw [rd8_eq_of_getElem? mem1 packet 0]
    rw [← hm]
    exact forward_loop_getElem?_header dst packet 0 len routes 0 (by omega)
  have hlen1 : mem1.length = packet.length := by
    rw [← hm]; exact forward_loop_length _ _ _ _ _
  have hb1 : 0 + ip_ihl mem1 0 * 4 ≤ mem1.length := by rw [hihl1, hlen1]; omega
  rw [calculate_ip_checksum_fst mem1 0 hb1, hihl1, slice_wr16]
  generalize hH : slice mem1 0 (ip_ihl packet 0 * 4) = H
  have hHlen : H.length = ip_ihl packet 0 * 4 := by
    rw [← hH]
    exact length_slice mem1 0 _ (by rw [hihl1] at hb1; exact hb1)
  have hpair : (be_words ((H.set 10 (mkByte (spec_ip_checksum H / 256))).set (10 + 1)
      (mkByte (spec_ip_checksum H)))).sum = (be_words (zero_check H 10)).sum +
      ((mkByte (spec_ip_checksum H / 256)).val * 256 + (mkByte (spec_ip_checksum H)).val) :=
    be_words_set_pair 5 H (mkByte (spec_ip_checksum H / 256))
      (mkByte (spec_ip_checksum H)) (by omega)
  have hc : spec_ip_checksum H = 0xFFFF - fold_carries (be_words (zero_check H 10)).sum := rfl
  have hv : (mkByte (spec_ip_checksum H / 256)).val * 256 + (mkByte (spec_ip_checksum H)).val
      = spec_ip_checksum H := by
    show spec_ip_checksum H / 256 % 256 * 256 + spec_ip_checksum H % 256 = spec_ip_checksum H
    rw [hc]
    omega
  rw [hpair, hv, hc]
  exact fold_carries_add_complement _

/-- Claim C5.  Every packet the dispatcher hands to `write` (which happens only in
`forward_packet`, after validation) and whose length covers its IP header carries a header
whose big-endian 16-bit words, checksum field included, sum to a value that folds to
`0xFFFF`, the ones-complement of which is 0.  Hypothesis `hbuf` says the read returned no
more bytes than the buffer holds. -/
theorem process_packet_ip_checksum_valid (routes : List Route) (vms : List VirtualMachine)
    (vm_idx : Int) (packet : List Byte) (len : Int) (wr : Int)
    (dst : Int) (data : List Byte) (count : Int)
    (hw : Event.write dst data count ∈
      process_packet_from_vm routes vms vm_idx packet len wr)
    (hbuf : len ≤ (packet.length : Int))
    (hcov : ((ip_ihl data 0 * 4 : Nat) : Int) ≤ count) :
    fold_carries (be_words (slice data 0 (ip_ihl data 0 * 4))).sum = 0xFFFF ∧
    htons_not (fold_carries (be_words (slice data 0 (ip_ihl data 0 * 4))).sum) = 0 := by
  obtain ⟨h1, _, h3, _, _, _, hc, hdat, _⟩ :=
    process_write_inv routes vms vm_idx packet len wr dst data count hw
  subst hc
  have hlen0 : 0 ≤ count := by omega
  have hlen20 : 20 ≤ count := by omega
  have hihl : ip_ihl data 0 = ip_ihl packet 0 := by
    rw [← forward_packet_ihl routes packet count vm_idx dst wr]
    unfold ip_ihl
    rw [rd8_eq_of_getElem? data (forward_packet routes packet count vm_idx dst wr).1 0]
    rw [hdat, List.getElem?_take, if_pos (by omega)]
  have hb : ip_ihl packet 0 * 4 ≤ packet.length := by
    rw [hihl] at hcov
    omega
  have hfold := forward_packet_ip_header_sum routes packet count vm_idx dst wr h3 hb
  have hsl : slice data 0 (ip_ihl data 0 * 4) =
      slice (forward_packet routes packet count vm_idx dst wr).1 0 (ip_ihl packet 0 * 4) := by
    rw [hihl, hdat]
    apply slice_take
    rw [hihl] at hcov
    omega
  rw [hsl, hfold]
  exact ⟨rfl, by decide⟩

/-- Claim C5 at a concrete input: the datagram to port 9999 of scenario B, rewritten and
written to endpoint 1. -/
theorem process_packet_ip_checksum_valid_witness :
    Event.write 1 [69, 0, 0, 30, 0, 0, 0, 0, 64, 17, 102, 205, 10, 0, 0, 1, 10, 0, 0, 2,
        18, 52, 31, 64, 0, 10, 14, 150, 171, 205] 30 ∈
      process_packet_from_vm scenario_b_routes three_vms 0 (sample_udp 9999 0x1111) 30 0 ∧
    fold_carries (be_words (slice [69, 0, 0, 30, 0, 0, 0, 0, 64, 17, 102, 205, 10, 0, 0, 1,
        10, 0, 0, 2, 18, 52, 31, 64, 0, 10, 14, 150, 171, 205] 0 (5 * 4))).sum = 0xFFFF :=
  ⟨by decide,
   (process_packet_ip_checksum_valid scenario_b_routes three_vms 0 (sample_udp 9999 0x1111) 30 0
      1 [69, 0, 0, 30, 0, 0, 0, 0, 64, 17, 102, 205, 10, 0, 0, 1, 10, 0, 0, 2,
        18, 52, 31, 64, 0, 10, 14, 150, 171, 205] 30 (by decide) (by decide) (by decide)).1⟩

/-! ## The UDP checksum of a forwarded packet -/

/-- Claim C9.  In a run of the dispatcher that writes a packet, the two bytes of the UDP
checksum field (at offsets `ihl*4 + 6` and `ihl*4 + 7`) leave as they were received
whenever no port rewrite was made, or no UDP header was parsed, or the received checksum
was zero; so a changed checksum field means that `forward_packet` rewrote the destination
port of a parsed UDP header whose checksum was nonzero. -/
theorem process_packet_udp_check_frame (routes : List Route) (vms : List VirtualMachine)
    (vm_idx : Int) (packet : List Byte) (len : Int) (wr : Int)
    (dst : Int) (data : List Byte) (count : Int)
    (hw : Event.write dst data count ∈
      process_packet_from_vm routes vms vm_idx packet len wr) :
    (((∀ o n, Event.log_port_forward o n ∉
          process_packet_from_vm routes vms vm_idx packet len wr) ∨
        parse_udp packet 0 len = none ∨ udp_check packet (ip_ihl packet 0 * 4) = 0) →
      data[ip_ihl packet 0 * 4 + 6]? = (packet.take len.toNat)[ip_ihl packet 0 * 4 + 6]? ∧
      data[ip_ihl packet 0 * 4 + 7]? = (packet.take len.toNat)[ip_ihl packet 0 * 4 + 7]?) ∧
    ((data[ip_ihl packet 0 * 4 + 6]? ≠ (packet.take len.toNat)[ip_ihl packet 0 * 4 + 6]? ∨
        data[ip_ihl packet 0 * 4 + 7]? ≠ (packet.take len.toNat)[ip_ihl packet 0 * 4 + 7]?) →
      (∃ o n, Event.log_port_forward o n ∈
          process_packet_from_vm routes vms vm_idx packet len wr) ∧
        parse_udp packet 0 len ≠ none ∧ udp_check packet (ip_ihl packet 0 * 4) ≠ 0) := by
  obtain ⟨_, _, h3, _, _, _, hc, hdat, htr⟩ :=
    process_write_inv routes vms vm_idx packet len wr dst data count hw
  have hB : ((∀ o n, Event.log_port_forward o n ∉
          process_packet_from_vm routes vms vm_idx packet len wr) ∨
        parse_udp packet 0 len = none ∨ udp_check packet (ip_ihl packet 0 * 4) = 0) →
      data[ip_ihl packet 0 * 4 + 6]? = (packet.take len.toNat)[ip_ihl packet 0 * 4 + 6]? ∧
      data[ip_ihl packet 0 * 4 + 7]? = (packet.take len.toNat)[ip_ihl packet 0 * 4 + 7]? := by
    intro hcase
    have key : ∀ j, (j = ip_ihl packet 0 * 4 + 6 ∨ j = ip_ihl packet 0 * 4 + 7) →
        (forward_packet routes packet len vm_idx dst wr).1[j]? = packet[j]? := by
      intro j hj
      rw [forward_packet_fst, getElem?_wr16_ne _ _ _ _ (by omega) (by omega)]
      rcases forward_loop_cases dst packet 0 (parse_udp packet 0 len) routes with
        h | ⟨r, u, _, hu, hz, _, _, he⟩
      · rw [h]
      · rw [he, port_forward_some r packet 0 u hz]
        have hu2 : u = ip_ihl packet 0 * 4 := by
          unfold parse_udp at hu
          split_ifs at hu
          have := Option.some.inj hu
          omega
        rcases hcase with hno | hnone | hzero
        · exfalso
          apply hno (udp_dest packet u) r.forward_to_port
          rw [htr, List.mem_append]
          right
          rw [forward_packet_port_forward_mem, he, port_forward_some r packet 0 u hz]
          exact List.mem_singleton.mpr rfl
        · rw [hnone] at hu
          cases hu
        · subst hu2
          simp only
          rw [if_neg (by simpa using hzero),
            getElem?_wr16_ne _ _ _ _ (by omega) (by omega)]
    rw [hdat, List.getElem?_take, List.getElem?_take, List.getElem?_take, List.getElem?_take,
      key _ (Or.inl rfl), key _ (Or.inr rfl)]
    exact ⟨rfl, rfl⟩
  refine ⟨hB, ?_⟩
  intro hne
  by_contra hcon
  have hcase : (∀ o n, Event.log_port_forward o n ∉
          process_packet_from_vm routes vms vm_idx packet len wr) ∨
        parse_udp packet 0 len = none ∨ udp_check packet (ip_ihl packet 0 * 4) = 0 := by
    by_contra hc2
    apply hcon
    push_neg at hc2
    obtain ⟨⟨o, n, hon⟩, h2, h3⟩ := hc2
    exact ⟨⟨o, n, hon⟩, h2, h3⟩
  obtain ⟨e6, e7⟩ := hB hcase
  rcases hne with h | h
  · exact h e6
  · exact h e7

/-- Claim C9 at a concrete input: in scenario B a datagram to port 9999 with a disabled
(zero) UDP checksum has its port rewritten and leaves with the checksum bytes still zero. -/
theorem process_packet_udp_check_frame_witness :
    Event.write 1 [69, 0, 0, 30, 0, 0, 0, 0, 64, 17, 102, 205, 10, 0, 0, 1, 10, 0, 0, 2,
        18, 52, 31, 64, 0, 10, 0, 0, 171, 205] 30 ∈
      process_packet_from_vm scenario_b_routes three_vms 0 (sample_udp 9999 0) 30 0 ∧
    udp_check (sample_udp 9999 0) (ip_ihl (sample_udp 9999 0) 0 * 4) = 0 ∧
    ([69, 0, 0, 30, 0, 0, 0, 0, 64, 17, 102, 205, 10, 0, 0, 1, 10, 0, 0, 2,
        18, 52, 31, 64, 0, 10, 0, 0, 171, 205] : List Byte)[ip_ihl (sample_udp 9999 0) 0 * 4 + 6]?
      = ((sample_udp 9999 0).take (30 : Int).toNat)[ip_ihl (sample_udp 9999 0) 0 * 4 + 6]? :=
  ⟨by decide, by decide,
   ((process_packet_udp_check_frame scenario_b_routes three_vms 0 (sample_udp 9999 0) 30 0
      1 [69, 0, 0, 30, 0, 0, 0, 0, 64, 17, 102, 205, 10, 0, 0, 1, 10, 0, 0, 2,
        18, 52, 31, 64, 0, 10, 0, 0, 171, 205] 30 (by decide)).1
      (Or.inr (Or.inr (by decide)))).1⟩

/-! ## The UDP checksum after a port rewrite -/

/-- A 16-bit store outside a window leaves the slice as it was. -/
theorem slice_wr16_outside (mem : List Byte) (i v p n : Nat) (h : i + 2 ≤ p ∨ p + n ≤ i) :
    slice (wr16 mem i v) p n = slice mem p n := by
  apply List.ext_getElem?
  intro j
  rw [getElem?_slice, getElem?_slice]
  by_cases hj : j < n
  · rw [if_pos hj, if_pos hj, getElem?_wr16_ne _ _ _ _ (by omega) (by omega)]
  · rw [if_neg hj, if_neg hj]

/-- The rewrite step on a UDP segment that lies inside the buffer behind the IP header,
with a nonzero checksum: the destination port read back is the rewrite port, and the sum
of pseudo-header and rewritten segment, checksum included, folds to `0xFFFF`. -/
theorem port_forward_udp_checksum_valid (r : Route) (mem : List Byte) (ip u : Nat)
    (hz : r.forward_to_port ≠ 0) (hR : r.forward_to_port < 65536)
    (hck : udp_check mem u ≠ 0) (hL8 : 8 ≤ udp_len mem u) (hip : ip + 20 ≤ u)
    (hudp : u + udp_len mem u ≤ mem.length) :
    udp_dest (port_forward r mem ip (some u)).1 u = r.forward_to_port ∧
    udp_len (port_forward r mem ip (some u)).1 u = udp_len mem u ∧
    fold_carries (udp_verify_sum (slice (port_forward r mem ip (some u)).1 (ip + 12) 4)
      (slice (port_forward r mem ip (some u)).1 (ip + 16) 4) (udp_len mem u)
      (slice (port_forward r mem ip (some u)).1 u (udp_len mem u))) = 0xFFFF := by
  rw [port_forward_some r mem ip u hz]
  simp only
  rw [if_pos hck]
  generalize hm1 : wr16 mem (u + 2) r.forward_to_port = mem1
  have hlen1 : mem1.length = mem.length := by rw [← hm1, length_wr16]
  have hL1 : udp_len mem1 u = udp_len mem u := by
    rw [← hm1]
    unfold udp_len
    exact ntohs_at_wr16_ne mem (u + 2) (u + 4) _ (by omega)
  have hd1 : udp_dest mem1 u = r.forward_to_port := by
    rw [← hm1]
    unfold udp_dest
    rw [ntohs_at_wr16_self mem (u + 2) _ (by omega)]
    exact Nat.mod_eq_of_lt hR
  have hc := calculate_udp_checksum_fst mem1 ip u (by omega) (by rw [hL1, hlen1]; exact hudp)
  rw [hL1] at hc
  generalize hcv : (calculate_udp_checksum mem1 ip u).1 = c at hc
  refine ⟨?_, ?_, ?_⟩
  · unfold udp_dest
    rw [ntohs_at_wr16_ne mem1 (u + 6) (u + 2) _ (by omega)]
    exact hd1
  · unfold udp_len
    rw [ntohs_at_wr16_ne mem1 (u + 6) (u + 4) _ (by omega)]
    exact hL1
  · rw [slice_wr16_outside mem1 (u + 6) c (ip + 12) 4 (by omega),
      slice_wr16_outside mem1 (u + 6) c (ip + 16) 4 (by omega), slice_wr16]
    generalize hS : slice mem1 u (udp_len mem u) = S at hc
    have hSlen : S.length = udp_len mem u := by
      rw [← hS]
      exact length_slice mem1 u _ (by rw [hlen1]; exact hudp)
    have hpair : (be_words ((S.set 6 (mkByte (c / 256))).set (6 + 1) (mkByte c))).sum =
        (be_words (zero_check S 6)).sum + ((mkByte (c / 256)).val * 256 + (mkByte c).val) :=
      be_words_set_pair 3 S (mkByte (c / 256)) (mkByte c) (by omega)
    unfold udp_verify_sum
    rw [hpair]
    unfold spec_udp_checksum at hc
    simp only at hc
    generalize hA : (be_words (slice mem1 (ip + 12) 4)).sum = A at hc
    generalize hB : (be_words (slice mem1 (ip + 16) 4)).sum = B at hc
    generalize hZ : (be_words (zero_check S 6)).sum = Z at hc
    have hv : (mkByte (c / 256)).val * 256 + (mkByte c).val = c % 65536 := by
      show c / 256 % 256 * 256 + c % 256 = c % 65536
      omega
    rw [hv]
    have hfold := fold_carries_eq (A + B + 17 + udp_len mem u + Z)
    rw [if_neg (by omega)] at hfold
    rw [hfold] at hc
    rw [fold_carries_eq, if_neg (by omega)]
    split_ifs at hc <;> omega

/-! ## The route that `forward_packet` takes the rewrite from

`find_output_vm` returns only an endpoint index, and `forward_packet` looks for the rewrite
port again: it takes the first route whose output and destination address agree with the
packet, without testing the source address or the port criterion.  The three evaluations
below show runs in which that route is not the route that resolved the packet. -/

/-- Claim C2, evaluated where it fails.  In `two_rewrite_routes` a datagram to 10.0.0.2
port 9999 (nonzero UDP checksum, length field 10 = 30 - 20) from endpoint 0 is not matched
by route 0 and is matched by route 1, whose rewrite port is 8000; the packet written to
endpoint 1 has destination port 7000, the rewrite port of route 0. -/
theorem two_rewrite_routes_port_9999 :
    two_rewrite_routes = [⟨0, inet_addr_10_0_0 2, 1111, 1, 7000⟩,
      ⟨0, inet_addr_10_0_0 2, 9999, 1, 8000⟩] ∧
    parse_udp (sample_udp 9999 0x1111) 0 30 = some 20 ∧
    ¬ spec_route_matches ⟨0, inet_addr_10_0_0 2, 1111, 1, 7000⟩
      (ip_saddr (sample_udp 9999 0x1111) 0) (ip_daddr (sample_udp 9999 0x1111) 0)
      (some (udp_dest (sample_udp 9999 0x1111) 20)) ∧
    spec_route_matches ⟨0, inet_addr_10_0_0 2, 9999, 1, 8000⟩
      (ip_saddr (sample_udp 9999 0x1111) 0) (ip_daddr (sample_udp 9999 0x1111) 0)
      (some (udp_dest (sample_udp 9999 0x1111) 20)) ∧
    process_packet_from_vm two_rewrite_routes three_vms 0 (sample_udp 9999 0x1111) 30 0 =
      [Event.log_rx 0 (inet_addr_10_0_0 1) (inet_addr_10_0_0 2) 30 17 (some (4660, 9999)),
       Event.route_lookup, Event.log_forward_to 1, Event.log_port_forward 9999 7000,
       Event.write 1 [69, 0, 0, 30, 0, 0, 0, 0, 64, 17, 102, 205, 10, 0, 0, 1, 10, 0, 0, 2,
         18, 52, 27, 88, 0, 10, 18, 126, 171, 205] 30] ∧
    udp_dest [69, 0, 0, 30, 0, 0, 0, 0, 64, 17, 102, 205, 10, 0, 0, 1, 10, 0, 0, 2,
         18, 52, 27, 88, 0, 10, 18, 126, 171, 205] 20 = 7000 := by
  decide

/-- Claim C3, evaluated where it fails.  In scenario B a datagram to 10.0.0.2 port 5000 from
endpoint 0 is not matched by the rewrite route (route 0) and is resolved by the mesh route
to 10.0.0.2 (route 1), whose rewrite port is 0; the packet written to endpoint 1 has
destination port 8000 and a changed UDP checksum. -/
theorem scenario_b_port_5000 :
    scenario_b_routes[0]? = some ⟨0, inet_addr_10_0_0 2, 9999, 1, 8000⟩ ∧
    scenario_b_routes[1]? = some ⟨0, inet_addr_10_0_0 2, 0, 1, 0⟩ ∧
    parse_udp (sample_udp 5000 0x1111) 0 30 = some 20 ∧
    ¬ spec_route_matches ⟨0, inet_addr_10_0_0 2, 9999, 1, 8000⟩
      (ip_saddr (sample_udp 5000 0x1111) 0) (ip_daddr (sample_udp 5000 0x1111) 0)
      (some (udp_dest (sample_udp 5000 0x1111) 20)) ∧
    spec_route_matches ⟨0, inet_addr_10_0_0 2, 0, 1, 0⟩
      (ip_saddr (sample_udp 5000 0x1111) 0) (ip_daddr (sample_udp 5000 0x1111) 0)
      (some (udp_dest (sample_udp 5000 0x1111) 20)) ∧
    udp_dest (sample_udp 5000 0x1111) 20 = 5000 ∧
    udp_check (sample_udp 5000 0x1111) 20 = 0x1111 ∧
    process_packet_from_vm scenario_b_routes three_vms 0 (sample_udp 5000 0x1111) 30 0 =
      [Event.log_rx 0 (inet_addr_10_0_0 1) (inet_addr_10_0_0 2) 30 17 (some (4660, 5000)),
       Event.route_lookup, Event.log_forward_to 1, Event.log_port_forward 5000 8000,
       Event.write 1 [69, 0, 0, 30, 0, 0, 0, 0, 64, 17, 102, 205, 10, 0, 0, 1, 10, 0, 0, 2,
         18, 52, 31, 64, 0, 10, 14, 150, 171, 205] 30] ∧
    udp_dest [69, 0, 0, 30, 0, 0, 0, 0, 64, 17, 102, 205, 10, 0, 0, 1, 10, 0, 0, 2,
         18, 52, 31, 64, 0, 10, 14, 150, 171, 205] 20 = 8000 ∧
    udp_check [69, 0, 0, 30, 0, 0, 0, 0, 64, 17, 102, 205, 10, 0, 0, 1, 10, 0, 0, 2,
         18, 52, 31, 64, 0, 10, 14, 150, 171, 205] 20 = 0x0E96 := by
  decide

/-- Claim C4, evaluated where it fails.  With `rewrite_route_only` no route matches a
datagram to 10.0.0.2 port 5000 from endpoint 0, and `find_output_vm` resolves it through
the address fallback to endpoint 1; the packet written to endpoint 1 has destination port
8000 and a changed UDP checksum. -/
theorem rewrite_route_only_fallback :
    rewrite_route_only = [⟨0, inet_addr_10_0_0 2, 9999, 1, 8000⟩] ∧
    parse_udp (sample_udp 5000 0x1111) 0 30 = some 20 ∧
    ¬ spec_route_matches ⟨0, inet_addr_10_0_0 2, 9999, 1, 8000⟩
      (ip_saddr (sample_udp 5000 0x1111) 0) (ip_daddr (sample_udp 5000 0x1111) 0)
      (some (udp_dest (sample_udp 5000 0x1111) 20)) ∧
    find_output_vm rewrite_route_only three_vms (sample_udp 5000 0x1111) 0 (some 20) =
      default_route_loop three_vms 0 (ip_daddr (sample_udp 5000 0x1111) 0) ∧
    default_route_loop three_vms 0 (ip_daddr (sample_udp 5000 0x1111) 0) = 1 ∧
    process_packet_from_vm rewrite_route_only three_vms 0 (sample_udp 5000 0x1111) 30 0 =
      [Event.log_rx 0 (inet_addr_10_0_0 1) (inet_addr_10_0_0 2) 30 17 (some (4660, 5000)),
       Event.route_lookup, Event.log_forward_to 1, Event.log_port_forward 5000 8000,
       Event.write 1 [69, 0, 0, 30, 0, 0, 0, 0, 64, 17, 102, 205, 10, 0, 0, 1, 10, 0, 0, 2,
         18, 52, 31, 64, 0, 10, 14, 150, 171, 205] 30] ∧
    (sample_udp 5000 0x1111)[22]? = some 19 ∧ (sample_udp 5000 0x1111)[23]? = some 136 ∧
    (sample_udp 5000 0x1111)[26]? = some 17 ∧ (sample_udp 5000 0x1111)[27]? = some 17 := by
  decide

/-! ## The address fallback and the two drops after resolution -/

/-- The default-route loop returns the first endpoint that carries the address and is
active, counted from the index the loop started at. -/
theorem default_route_loop_first (daddr : Nat) :
    ∀ (vms : List VirtualMachine) (k i : Nat) (vm : VirtualMachine), vms[i]? = some vm →
      vm.ip_addr = daddr → vm.active ≠ 0 →
      (∀ j vm', j < i → vms[j]? = some vm' → ¬ (vm'.ip_addr = daddr ∧ vm'.active ≠ 0)) →
      default_route_loop vms k daddr = ((k + i : Nat) : Int) := by
  intro vms
  induction vms with
  | nil => intro k i vm hi; simp at hi
  | cons v rest ih =>
    intro k i vm hi ha hact hfirst
    cases i with
    | zero =>
      simp only [List.getElem?_cons_zero, Option.some.injEq] at hi
      subst hi
      simp only [default_route_loop]
      rw [if_pos ⟨ha, hact⟩]
      rfl
    | succ n =>
      simp only [List.getElem?_cons_succ] at hi
      have h0 : ¬ (v.ip_addr = daddr ∧ v.active ≠ 0) :=
        hfirst 0 v (Nat.succ_pos n) (by simp)
      simp only [default_route_loop]
      rw [if_neg h0, ih (k + 1) n vm hi ha hact
        (fun j vm' hj hv => hfirst (j + 1) vm' (Nat.succ_lt_succ hj) (by simpa using hv))]
      congr 1
      omega

/-- The default-route loop returns `-1` when no endpoint carries the address and is active. -/
theorem default_route_loop_none (daddr : Nat) :
    ∀ (vms : List VirtualMachine) (k : Nat),
      (∀ vm ∈ vms, ¬ (vm.ip_addr = daddr ∧ vm.active ≠ 0)) →
      default_route_loop vms k daddr = -1 := by
  intro vms
  induction vms with
  | nil => intro k _; rfl
  | cons v rest ih =>
    intro k h
    simp only [default_route_loop]
    rw [if_neg (h v (List.mem_cons_self v rest))]
    exact ih (k + 1) (fun vm hvm => h vm (List.mem_cons_of_mem v hvm))

/-- Whatever the default-route loop returns is `-1` or the index of a registered endpoint
that carries the address and is active. -/
theorem default_route_loop_cases (daddr : Nat) :
    ∀ (vms : List VirtualMachine) (k : Nat),
      default_route_loop vms k daddr = -1 ∨
      ∃ i vm, default_route_loop vms k daddr = ((k + i : Nat) : Int) ∧ vms[i]? = some vm ∧
        vm.ip_addr = daddr ∧ vm.active ≠ 0 := by
  intro vms
  induction vms with
  | nil => intro k; exact Or.inl rfl
  | cons v rest ih =>
    intro k
    simp only [default_route_loop]
    by_cases h : v.ip_addr = daddr ∧ v.active ≠ 0
    · rw [if_pos h]
      exact Or.inr ⟨0, v, rfl, by simp, h.1, h.2⟩
    · rw [if_neg h]
      rcases ih (k + 1) with h1 | ⟨i, vm, he, hi, ha, hact⟩
      · exact Or.inl h1
      · refine Or.inr ⟨i + 1, vm, ?_, by simpa using hi, ha, hact⟩
        rw [he]
        congr 1
        omega

/-- When no route matches, the first loop falls through to the default route. -/
theorem route_loop_no_match (vms : List VirtualMachine) (s d p : Nat) (udp : Option Nat)
    (hp : p = (match udp with | some q => q | none => 0)) :
    ∀ routes : List Route, (∀ r ∈ routes, ¬ spec_route_matches r s d udp) →
      route_loop vms s d p routes = default_route_loop vms 0 d := by
  intro routes
  induction routes with
  | nil => intro _; rfl
  | cons r rest ih =>
    intro h
    rw [route_loop_cons_of_not_match vms s d p r rest udp hp (h r (List.mem_cons_self r rest))]
    exact ih (fun r' hr' => h r' (List.mem_cons_of_mem r hr'))

/-- The first loop returns the output of a matching route, or no route matches and the
result is that of the default route. -/
theorem route_loop_cases (vms : List VirtualMachine) (s d p : Nat) (udp : Option Nat)
    (hp : p = (match udp with | some q => q | none => 0)) :
    ∀ routes : List Route,
      (∃ r ∈ routes, spec_route_matches r s d udp ∧
        route_loop vms s d p routes = r.output_vm_index) ∨
      ((∀ r ∈ routes, ¬ spec_route_matches r s d udp) ∧
        route_loop vms s d p routes = default_route_loop vms 0 d) := by
  intro routes
  induction routes with
  | nil => exact Or.inr ⟨fun r hr => by simp at hr, rfl⟩
  | cons r rest ih =>
    by_cases hm : spec_route_matches r s d udp
    · exact Or.inl ⟨r, List.mem_cons_self r rest, hm,
        route_loop_cons_of_match vms s d p r rest udp hp hm⟩
    · rw [route_loop_cons_of_not_match vms s d p r rest udp hp hm]
      rcases ih with ⟨r', hr', hm', he⟩ | ⟨hno, he⟩
      · exact Or.inl ⟨r', List.mem_cons_of_mem r hr', hm', he⟩
      · refine Or.inr ⟨?_, he⟩
        intro r' hr'
        rcases List.mem_cons.mp hr' with h | h
        · rw [h]; exact hm
        · exact hno r' h

theorem find_output_vm_no_match (routes : List Route) (vms : List VirtualMachine)
    (mem : List Byte) (ip : Nat) (udp : Option Nat)
    (hno : ∀ r ∈ routes,
      ¬ spec_route_matches r (ip_saddr mem ip) (ip_daddr mem ip) (udp.map (udp_dest mem))) :
    find_output_vm routes vms mem ip udp = default_route_loop vms 0 (ip_daddr mem ip) := by
  rw [find_output_vm_eq]
  exact route_loop_no_match vms _ _ _ (udp.map (udp_dest mem)) rfl routes hno

/-- The dispatcher makes no write when the resolved output is negative or is the input
endpoint. -/
theorem process_no_write_of_output (routes : List Route) (vms : List VirtualMachine)
    (vm_idx : Int) (packet : List Byte) (len : Int) (wr : Int)
    (h : find_output_vm routes vms packet 0 (parse_udp packet 0 len) < 0 ∨
      find_output_vm routes vms packet 0 (parse_udp packet 0 len) = vm_idx)
    (d : Int) (data : List Byte) (count : Int) :
    Event.write d data count ∉ process_packet_from_vm routes vms vm_idx packet len wr := by
  intro hw
  obtain ⟨_, _, _, hd, h0, hne, _⟩ :=
    process_write_inv routes vms vm_idx packet len wr d data count hw
  rw [← hd] at h
  rcases h with h | h
  · omega
  · exact hne h

/-- Claim C11.  If `find_output_vm` resolves the packet to the input endpoint itself, the
dispatcher makes no write at all; and for a packet that passed validation, read from a
(non-negative) endpoint index, what it does is the lookup followed by the loop message. -/
theorem process_packet_from_vm_loop (routes : List Route) (vms : List VirtualMachine)
    (vm_idx : Int) (packet : List Byte) (len : Int) (wr : Int)
    (h : find_output_vm routes vms packet 0 (parse_udp packet 0 len) = vm_idx) :
    (∀ (d : Int) (data : List Byte) (count : Int),
      Event.write d data count ∉ process_packet_from_vm routes vms vm_idx packet len wr) ∧
    (¬ (len % 18446744073709551616 < 20) → ip_version packet 0 = 4 → 5 ≤ ip_ihl packet 0 →
      0 ≤ vm_idx →
      process_packet_from_vm routes vms vm_idx packet len wr =
        [Event.log_rx vm_idx (ip_saddr packet 0) (ip_daddr packet 0) len (ip_protocol packet 0)
            (match parse_udp packet 0 len with
              | some u => some (udp_source packet u, udp_dest packet u)
              | none => none),
          Event.route_lookup, Event.log_would_loop]) := by
  refine ⟨fun d data count =>
    process_no_write_of_output routes vms vm_idx packet len wr (Or.inr h) d data count, ?_⟩
  intro h1 h2 h3 h0
  rw [process_packet_from_vm_valid routes vms vm_idx packet len wr h1 h2 h3, h]
  rw [if_neg (by simp), if_neg (by omega)]

/-- Claim C11 at a concrete input: in scenario B a datagram to 10.0.0.2 read from endpoint 1
(the endpoint that owns 10.0.0.2) resolves to endpoint 1 and is not written anywhere. -/
theorem process_packet_from_vm_loop_witness :
    find_output_vm scenario_b_routes three_vms (sample_udp 5000 0x1111) 0
      (parse_udp (sample_udp 5000 0x1111) 0 30) = 1 ∧
    process_packet_from_vm scenario_b_routes three_vms 1 (sample_udp 5000 0x1111) 30 0 =
      [Event.log_rx 1 (inet_addr_10_0_0 1) (inet_addr_10_0_0 2) 30 17 (some (4660, 5000)),
       Event.route_lookup, Event.log_would_loop] ∧
    (∀ (d : Int) (data : List Byte) (count : Int), Event.write d data count ∉
      process_packet_from_vm scenario_b_routes three_vms 1 (sample_udp 5000 0x1111) 30 0) :=
  ⟨by decide, by decide,
   (process_packet_from_vm_loop scenario_b_routes three_vms 1 (sample_udp 5000 0x1111) 30 0
      (by decide)).1⟩

/-- Claim C12.  If no route matches the packet, `find_output_vm` returns the lowest index
of an endpoint whose address is the packet's destination and whose active flag is set;
earlier endpoints that carry the address with a cleared flag are passed over. -/
theorem find_output_vm_fallback (routes : List Route) (vms : List VirtualMachine)
    (mem : List Byte) (ip : Nat) (udp : Option Nat) (i : Nat) (vm : VirtualMachine)
    (hno : ∀ r ∈ routes,
      ¬ spec_route_matches r (ip_saddr mem ip) (ip_daddr mem ip) (udp.map (udp_dest mem)))
    (hi : vms[i]? = some vm) (haddr : vm.ip_addr = ip_daddr mem ip) (hact : vm.active ≠ 0)
    (hfirst : ∀ j vm', j < i → vms[j]? = some vm' →
      ¬ (vm'.ip_addr = ip_daddr mem ip ∧ vm'.active ≠ 0)) :
    find_output_vm routes vms mem ip udp = (i : Int) := by
  rw [find_output_vm_no_match routes vms mem ip udp hno,
    default_route_loop_first _ vms 0 i vm hi haddr hact hfirst]
  congr 1
  omega

/-- Claim C12 at a concrete input: with an empty table and a registry whose endpoint 1
carries 10.0.0.2 with a cleared flag and whose endpoint 2 carries it with the flag set, a
datagram to 10.0.0.2 resolves to endpoint 2. -/
theorem find_output_vm_fallback_witness :
    vms_first_inactive[1]? = some ⟨4, inet_addr_10_0_0 2, "tun1", 0⟩ ∧
    find_output_vm [] vms_first_inactive (sample_udp 5000 0x1111) 0 (some 20) = 2 :=
  ⟨by decide,
   find_output_vm_fallback [] vms_first_inactive (sample_udp 5000 0x1111) 0 (some 20) 2
     ⟨5, inet_addr_10_0_0 2, "tun2", 1⟩ (fun r hr => by simp at hr) (by decide) (by decide)
     (by decide)
     (by
       intro j vm' hj hv
       have hj2 : j = 0 ∨ j = 1 := by omega
       rcases hj2 with h | h
       · subst h
         have e : vm' = ⟨3, inet_addr_10_0_0 1, "tun0", 1⟩ :=
           (Option.some.inj hv).symm
         subst e
         decide
       · subst h
         have e : vm' = ⟨4, inet_addr_10_0_0 2, "tun1", 0⟩ :=
           (Option.some.inj hv).symm
         subst e
         decide)⟩

/-- Claim C13.  If no route matches the packet and no active endpoint carries its
destination address, `find_output_vm` returns `-1`, the dispatcher makes no write, and for
a packet that passed validation what it does is the lookup followed by the no-route
message. -/
theorem process_packet_from_vm_no_route (routes : List Route) (vms : List VirtualMachine)
    (vm_idx : Int) (packet : List Byte) (len : Int) (wr : Int)
    (hno : ∀ r ∈ routes, ¬ spec_route_matches r (ip_saddr packet 0) (ip_daddr packet 0)
      ((parse_udp packet 0 len).map (udp_dest packet)))
    (hvm : ∀ vm ∈ vms, ¬ (vm.ip_addr = ip_daddr packet 0 ∧ vm.active ≠ 0)) :
    find_output_vm routes vms packet 0 (parse_udp packet 0 len) = -1 ∧
    (∀ (d : Int) (data : List Byte) (count : Int),
      Event.write d data count ∉ process_packet_from_vm routes vms vm_idx packet len wr) ∧
    (¬ (len % 18446744073709551616 < 20) → ip_version packet 0 = 4 → 5 ≤ ip_ihl packet 0 →
      process_packet_from_vm routes vms vm_idx packet len wr =
        [Event.log_rx vm_idx (ip_saddr packet 0) (ip_daddr packet 0) len (ip_protocol packet 0)
            (match parse_udp packet 0 len with
              | some u => some (udp_source packet u, udp_dest packet u)
              | none => none),
          Event.route_lookup, Event.log_no_route]) := by
  have hf : find_output_vm routes vms packet 0 (parse_udp packet 0 len) = -1 := by
    rw [find_output_vm_no_match routes vms packet 0 _ hno]
    exact default_route_loop_none _ vms 0 hvm
  refine ⟨hf, fun d data count =>
    process_no_write_of_output routes vms vm_idx packet len wr (Or.inl (by rw [hf]; decide))
      d data count, ?_⟩
  intro h1 h2 h3
  rw [process_packet_from_vm_valid routes vms vm_idx packet len wr h1 h2 h3, hf]
  rw [if_neg (fun hc => absurd hc.1 (by decide)), if_pos (by decide)]

/-- Claim C13 at a concrete input: in scenario B, with its seven routes and the three
registered, active endpoints, the datagram to 10.0.0.9 port 9999 read from endpoint 0
matches no route (the rewrite route and the mesh routes all name another destination) and
no endpoint's address, so the result is `-1` and the dispatcher logs and returns. -/
theorem process_packet_from_vm_no_route_witness :
    scenario_b_routes.length = 7 ∧ three_vms.length = 3 ∧
    parse_udp sample_udp_unknown_dest 0 30 = some 20 ∧
    find_output_vm scenario_b_routes three_vms sample_udp_unknown_dest 0
      (parse_udp sample_udp_unknown_dest 0 30) = -1 ∧
    (∀ (d : Int) (data : List Byte) (count : Int),
      Event.write d data count ∉
        process_packet_from_vm scenario_b_routes three_vms 0 sample_udp_unknown_dest 30 0) ∧
    process_packet_from_vm scenario_b_routes three_vms 0 sample_udp_unknown_dest 30 0 =
      [Event.log_rx 0 (inet_addr_10_0_0 1) (inet_addr_10_0_0 9) 30 17 (some (4660, 9999)),
       Event.route_lookup, Event.log_no_route] :=
  have h := process_packet_from_vm_no_route scenario_b_routes three_vms 0
    sample_udp_unknown_dest 30 0 (by decide) (by decide)
  ⟨by decide, by decide, by decide, h.1, h.2.1,
    h.2.2 (by decide) (by decide) (by decide)⟩

/-! ## The test that locates the UDP header -/

/-- Claim C14, evaluated where it fails.  The datagram `tun_sender` sends to 10.0.0.2 with
`payload_size` 0 is a valid IPv4 datagram with protocol 17 and exactly `ihl*4 + 8 = 28`
bytes, destination port 9999.  The dispatcher's test `len > ihl*4 + 8` leaves its UDP
header unparsed: in scenario B the route with port criterion 9999 is passed over, the
packet is resolved by the mesh route, and it is written to endpoint 1 with destination
port 9999, no rewrite made.  The same datagram with one payload byte is parsed and
rewritten to port 8000. -/
theorem tun_sender_empty_payload_not_parsed :
    tun_sender_packet (inet_addr_10_0_0 2) 0 1 0 =
      [69, 0, 0, 28, 0, 0, 0, 0, 64, 17, 102, 207, 10, 0, 0, 1, 10, 0, 0, 2,
       21, 179, 39, 15, 0, 8, 0, 0] ∧
    ip_version (tun_sender_packet (inet_addr_10_0_0 2) 0 1 0) 0 = 4 ∧
    ip_ihl (tun_sender_packet (inet_addr_10_0_0 2) 0 1 0) 0 = 5 ∧
    ip_protocol (tun_sender_packet (inet_addr_10_0_0 2) 0 1 0) 0 = 17 ∧
    udp_dest (tun_sender_packet (inet_addr_10_0_0 2) 0 1 0) 20 = 9999 ∧
    parse_udp (tun_sender_packet (inet_addr_10_0_0 2) 0 1 0) 0 28 = none ∧
    process_packet_from_vm scenario_b_routes three_vms 0
        (tun_sender_packet (inet_addr_10_0_0 2) 0 1 0) 28 0 =
      [Event.log_rx 0 (inet_addr_10_0_0 1) (inet_addr_10_0_0 2) 28 17 none,
       Event.route_lookup, Event.log_forward_to 1,
       Event.write 1 [69, 0, 0, 28, 0, 0, 0, 0, 64, 17, 102, 207, 10, 0, 0, 1, 10, 0, 0, 2,
         21, 179, 39, 15, 0, 8, 0, 0] 28] ∧
    process_packet_from_vm scenario_b_routes three_vms 0
        (tun_sender_packet (inet_addr_10_0_0 2) 0 1 1) 29 0 =
      [Event.log_rx 0 (inet_addr_10_0_0 1) (inet_addr_10_0_0 2) 29 17 (some (5555, 9999)),
       Event.route_lookup, Event.log_forward_to 1, Event.log_port_forward 9999 8000,
       Event.write 1 [69, 0, 0, 29, 0, 0, 0, 0, 64, 17, 102, 206, 10, 0, 0, 1, 10, 0, 0, 2,
         21, 179, 31, 64, 0, 9, 0, 0, 1] 29] := by
  decide

/-! ## Delivery of a forwarded packet -/

/-- The trace of the dispatcher on a validated packet that resolves to an endpoint other
than the one it was read from. -/
theorem process_forward_trace (routes : List Route) (vms : List VirtualMachine)
    (vm_idx : Int) (packet : List Byte) (len : Int) (wr : Int) (out : Int)
    (h1 : ¬ (len % 18446744073709551616 < 20)) (h2 : ip_version packet 0 = 4)
    (h3 : 5 ≤ ip_ihl packet 0)
    (hout : find_output_vm routes vms packet 0 (parse_udp packet 0 len) = out)
    (h0 : 0 ≤ out) (hne : out ≠ vm_idx) :
    process_packet_from_vm routes vms vm_idx packet len wr =
      [Event.log_rx vm_idx (ip_saddr packet 0) (ip_daddr packet 0) len (ip_protocol packet 0)
          (match parse_udp packet 0 len with
            | some u => some (udp_source packet u, udp_dest packet u)
            | none => none),
        Event.route_lookup, Event.log_forward_to out]
        ++ ((forward_loop out packet 0 (parse_udp packet 0 len) routes).2 ++
          [Event.write out ((forward_packet routes packet len vm_idx out wr).1.take len.toNat)
            len] ++
          (if wr < 0 then [Event.log_write_failed] else [])) := by
  rw [process_packet_from_vm_valid routes vms vm_idx packet len wr h1 h2 h3, hout,
    if_pos ⟨h0, hne⟩, forward_packet_snd]

/-- A table whose routes all have rewrite port 0 makes the route loop of `forward_packet`
a no-op. -/
theorem forward_loop_all_zero (dst_vm_idx : Int) (mem : List Byte) (ip : Nat)
    (udp : Option Nat) (routes : List Route) (hz : ∀ r ∈ routes, r.forward_to_port = 0) :
    forward_loop dst_vm_idx mem ip udp routes = (mem, []) := by
  rcases forward_loop_cases dst_vm_idx mem ip udp routes with h | ⟨r, u, hr, _, hnz, _, _, _⟩
  · exact h
  · exact absurd (hz r hr) hnz

theorem getElem?_take_congr (a b : List Byte) (n j : Nat) (h : a[j]? = b[j]?) :
    (a.take n)[j]? = (b.take n)[j]? := by
  rw [List.getElem?_take, List.getElem?_take, h]

theorem write_count_forward (pre : List Event) (e : Event) (wr : Int)
    (hpre : write_count pre = 0) (he : is_write e = true) :
    write_count (pre ++ ([e] ++ (if wr < 0 then [Event.log_write_failed] else []))) = 1 := by
  unfold write_count at hpre ⊢
  have h1 : List.filter is_write [e] = [e] := by
    rw [List.filter_cons_of_pos he, List.filter_nil]
  rw [List.filter_append, List.length_append, hpre, List.filter_append, List.length_append, h1]
  split_ifs
  · rfl
  · rfl

/-- Claim C15.  With an empty route table, if endpoint `e` is active and is the only
endpoint registered with the destination address of a valid datagram read from another
endpoint, then the dispatcher makes exactly one write, to `e`, of the length read; the
written bytes are the received ones except possibly bytes 10 and 11. -/
theorem process_packet_fallback_delivery (vms : List VirtualMachine) (vm_idx : Int)
    (packet : List Byte) (len : Int) (wr : Int) (e : Nat) (vm : VirtualMachine)
    (h20 : 20 ≤ len) (hbuf : len ≤ (packet.length : Int)) (hmax : packet.length ≤ MAX_PACKET)
    (h4 : ip_version packet 0 = 4) (h5 : 5 ≤ ip_ihl packet 0)
    (he : vms[e]? = some vm) (haddr : vm.ip_addr = ip_daddr packet 0) (hact : vm.active ≠ 0)
    (honly : ∀ j vm', vms[j]? = some vm' → vm'.ip_addr = ip_daddr packet 0 → j = e)
    (hsrc : vm_idx ≠ (e : Int)) :
    ∃ data : List Byte,
      process_packet_from_vm [] vms vm_idx packet len wr =
        [Event.log_rx vm_idx (ip_saddr packet 0) (ip_daddr packet 0) len (ip_protocol packet 0)
            (match parse_udp packet 0 len with
              | some u => some (udp_source packet u, udp_dest packet u)
              | none => none),
          Event.route_lookup, Event.log_forward_to (e : Int), Event.write (e : Int) data len]
          ++ (if wr < 0 then [Event.log_write_failed] else []) ∧
      write_count (process_packet_from_vm [] vms vm_idx packet len wr) = 1 ∧
      (data.length : Int) = len ∧
      ∀ j : Nat, j ≠ 10 → j ≠ 11 → data[j]? = (packet.take len.toNat)[j]? := by
  simp only [MAX_PACKET] at hmax
  have hout : find_output_vm [] vms packet 0 (parse_udp packet 0 len) = (e : Int) := by
    rw [find_output_vm_no_match [] vms packet 0 _ (fun r hr => by simp at hr),
      default_route_loop_first _ vms 0 e vm he haddr hact
        (fun j vm' hj hv hc => by have := honly j vm' hv hc.1; omega)]
    congr 1
    omega
  have htr := process_forward_trace [] vms vm_idx packet len wr (e : Int) (by omega) h4 h5
    hout (by omega) (fun h => hsrc h.symm)
  refine ⟨(forward_packet [] packet len vm_idx (e : Int) wr).1.take len.toNat, ?_, ?_, ?_, ?_⟩
  · rw [htr]
    rfl
  · rw [htr]
    exact write_count_forward _ _ wr rfl rfl
  · rw [List.length_take, forward_packet_length]
    omega
  · intro j h10 h11
    apply getElem?_take_congr
    rw [forward_packet_fst]
    exact getElem?_wr16_ne _ _ _ _ (by omega) (by omega)

/-- Claim C15 at a concrete input: with an empty table the sample datagram to 10.0.0.2,
read from endpoint 0, is written once, to endpoint 1, with only bytes 10 and 11 changed. -/
theorem process_packet_fallback_delivery_witness :
    process_packet_from_vm [] three_vms 0 (sample_udp 5000 0x1111) 30 0 =
      [Event.log_rx 0 (inet_addr_10_0_0 1) (inet_addr_10_0_0 2) 30 17 (some (4660, 5000)),
       Event.route_lookup, Event.log_forward_to 1,
       Event.write 1 [69, 0, 0, 30, 0, 0, 0, 0, 64, 17, 102, 205, 10, 0, 0, 1, 10, 0, 0, 2,
         18, 52, 19, 136, 0, 10, 17, 17, 171, 205] 30] ∧
    ∃ data : List Byte,
      write_count (process_packet_from_vm [] three_vms 0 (sample_udp 5000 0x1111) 30 0) = 1 ∧
      (data.length : Int) = 30 := by
  refine ⟨by decide, ?_⟩
  obtain ⟨data, _, hc, hl, _⟩ :=
    process_packet_fallback_delivery three_vms 0 (sample_udp 5000 0x1111) 30 0 1
      ⟨4, inet_addr_10_0_0 2, "tun1", 1⟩ (by decide) (by decide) (by decide) (by decide)
      (by decide) (by decide) (by decide) (by decide)
      (by
        intro j vm' hv ha
        have hj : j < 3 := by
          by_contra hcon
          have : three_vms[j]? = none := List.getElem?_eq_none (by
            show three_vms.length ≤ j
            have : three_vms.length = 3 := rfl
            omega)
          rw [this] at hv
          cases hv
        have hj3 : j = 0 ∨ j = 1 ∨ j = 2 := by omega
        rcases hj3 with h | h | h
        · subst h
          have e : vm' = ⟨3, inet_addr_10_0_0 1, "tun0", 1⟩ := (Option.some.inj hv).symm
          subst e
          exact absurd ha (by decide)
        · exact h
        · subst h
          have e : vm' = ⟨5, inet_addr_10_0_0 3, "tun2", 1⟩ := (Option.some.inj hv).symm
          subst e
          exact absurd ha (by decide))
      (by decide)
  exact ⟨data, hc, hl⟩

/-! ## Recomputing the checksum of an untouched header -/

/-- Storing the 16-bit value read from a place leaves the buffer as it is. -/
theorem wr16_self (mem : List Byte) (i : Nat) : wr16 mem i (ntohs_at mem i) = mem := by
  rw [← wr16_wr16 mem i 0 (ntohs_at mem i)]
  exact wr16_restore mem i 0

theorem ntohs_at_take (a : List Byte) (n j : Nat) (h : j + 1 < n) :
    ntohs_at (a.take n) j = ntohs_at a j := by
  unfold ntohs_at
  rw [rd8_eq_of_getElem? (a.take n) a j (by rw [List.getElem?_take, if_pos (by omega)]),
    rd8_eq_of_getElem? (a.take n) a (j + 1) (by rw [List.getElem?_take, if_pos (by omega)])]

/-- The words of a header sum to the sum with the checksum field zeroed plus the checksum
field. -/
theorem ip_header_sum_split (mem : List Byte) (n : Nat) (h12 : 12 ≤ n) (hn : n ≤ mem.length) :
    (be_words (slice mem 0 n)).sum =
      (be_words (zero_check (slice mem 0 n) 10)).sum + ip_check mem 0 := by
  have hc : ip_check mem 0 < 65536 := ntohs_at_lt mem (0 + 10)
  have e : wr16 mem (0 + 10) (ip_check mem 0) = mem := wr16_self mem (0 + 10)
  have h := congrArg (fun m => (be_words (slice m 0 n)).sum) e
  simp only at h
  rw [slice_wr16] at h
  have hlen : (slice mem 0 n).length = n := length_slice mem 0 n (by omega)
  have hpair : (be_words (((slice mem 0 n).set 10 (mkByte (ip_check mem 0 / 256))).set (10 + 1)
      (mkByte (ip_check mem 0)))).sum = (be_words (zero_check (slice mem 0 n) 10)).sum +
      ((mkByte (ip_check mem 0 / 256)).val * 256 + (mkByte (ip_check mem 0)).val) :=
    be_words_set_pair 5 (slice mem 0 n) _ _ (by omega)
  have hv : (mkByte (ip_check mem 0 / 256)).val * 256 + (mkByte (ip_check mem 0)).val
      = ip_check mem 0 := by
    show ip_check mem 0 / 256 % 256 * 256 + ip_check mem 0 % 256 = ip_check mem 0
    omega
  rw [← h, hpair, hv]

theorem be_words_head_le (l : List Byte) (a : Byte) (h : l[0]? = some a) :
    a.val * 256 ≤ (be_words l).sum := by
  match l, h with
  | [x], h =>
    simp only [List.getElem?_cons_zero, Option.some.injEq] at h
    subst h
    simp [be_words]
  | x :: y :: rest, h =>
    simp only [List.getElem?_cons_zero, Option.some.injEq] at h
    subst h
    simp only [be_words, List.sum_cons]
    omega

/-- The words of a validated header other than the checksum do not sum to zero: the first
byte holds the header length. -/
theorem zero_check_sum_pos (mem : List Byte) (n : Nat) (h5 : 5 ≤ ip_ihl mem 0)
    (h12 : 12 ≤ n) (hn : n ≤ mem.length) :
    0 < (be_words (zero_check (slice mem 0 n) 10)).sum := by
  have h0 : (zero_check (slice mem 0 n) 10)[0]? = some (mem[0]) := by
    unfold zero_check
    rw [List.getElem?_set_ne (by omega), List.getElem?_set_ne (by omega), getElem?_slice,
      if_pos (by omega), List.getElem?_eq_getElem (by omega)]
  have hle := be_words_head_le _ _ h0
  have hihl : ip_ihl mem 0 ≤ (mem[0]).val := by
    unfold ip_ihl
    rw [rd8_eq_getElem mem 0 (by omega)]
    have h : (mem[0]).val &&& 0xF = (mem[0]).val % 16 := Nat.and_pow_two_sub_one_eq_mod _ 4
    rw [h]
    omega
  omega

/-- For a header that verifies, the recomputed checksum is the stored one, unless the
stored one is `0xFFFF`, in which case the recomputed one is `0`. -/
theorem calculate_ip_checksum_of_verified (mem : List Byte)
    (h5 : 5 ≤ ip_ihl mem 0) (hb : ip_ihl mem 0 * 4 ≤ mem.length)
    (hver : fold_carries (be_words (slice mem 0 (ip_ihl mem 0 * 4))).sum = 0xFFFF) :
    (ip_check mem 0 ≠ 0xFFFF → (calculate_ip_checksum mem 0).1 = ip_check mem 0) ∧
    (ip_check mem 0 = 0xFFFF → (calculate_ip_checksum mem 0).1 = 0) := by
  have hc : ip_check mem 0 < 65536 := ntohs_at_lt mem (0 + 10)
  rw [calculate_ip_checksum_fst mem 0 (by omega)]
  rw [ip_header_sum_split mem (ip_ihl mem 0 * 4) (by omega) hb] at hver
  unfold spec_ip_checksum
  have hpos := zero_check_sum_pos mem (ip_ihl mem 0 * 4) h5 (by omega) hb
  generalize (be_words (zero_check (slice mem 0 (ip_ihl mem 0 * 4)) 10)).sum = Z at hver hpos ⊢
  rw [fold_carries_eq] at hver ⊢
  constructor
  · intro hne
    split_ifs at hver ⊢ <;> omega
  · intro heq
    split_ifs at hver ⊢ <;> omega

theorem mesh3_routes_eq :
    mesh3_routes = [⟨0, inet_addr_10_0_0 2, 0, 1, 0⟩, ⟨0, inet_addr_10_0_0 3, 0, 2, 0⟩,
      ⟨0, inet_addr_10_0_0 1, 0, 0, 0⟩, ⟨0, inet_addr_10_0_0 3, 0, 2, 0⟩,
      ⟨0, inet_addr_10_0_0 1, 0, 0, 0⟩, ⟨0, inet_addr_10_0_0 2, 0, 1, 0⟩] := by
  decide

/-- Claim C16, as amended.  In the default configuration for three endpoints, a valid
datagram to 10.0.0.2 that covers its header, whose header verifies, read from the 10.0.0.1
endpoint, is written once, to the 10.0.0.2 endpoint; every byte outside the IP checksum
field is the byte read; the whole packet is the one read when the received checksum field
is not `0xFFFF`; and a received checksum field of `0xFFFF` is written as `0`. -/
theorem mesh3_delivery (packet : List Byte) (len : Int) (wr : Int)
    (h20 : 20 ≤ len) (hbuf : len ≤ (packet.length : Int)) (hmax : packet.length ≤ MAX_PACKET)
    (h4 : ip_version packet 0 = 4) (h5 : 5 ≤ ip_ihl packet 0)
    (hcov : ((ip_ihl packet 0 * 4 : Nat) : Int) ≤ len)
    (hd : ip_daddr packet 0 = inet_addr_10_0_0 2)
    (hver : fold_carries (be_words (slice packet 0 (ip_ihl packet 0 * 4))).sum = 0xFFFF) :
    ∃ data : List Byte,
      process_packet_from_vm mesh3_routes three_vms 0 packet len wr =
        [Event.log_rx 0 (ip_saddr packet 0) (ip_daddr packet 0) len (ip_protocol packet 0)
            (match parse_udp packet 0 len with
              | some u => some (udp_source packet u, udp_dest packet u)
              | none => none),
          Event.route_lookup, Event.log_forward_to 1, Event.write 1 data len]
          ++ (if wr < 0 then [Event.log_write_failed] else []) ∧
      (∀ j : Nat, j ≠ 10 → j ≠ 11 → data[j]? = (packet.take len.toNat)[j]?) ∧
      (ip_check packet 0 ≠ 0xFFFF → data = packet.take len.toNat) ∧
      (ip_check packet 0 = 0xFFFF → ip_check data 0 = 0) := by
  simp only [MAX_PACKET] at hmax
  have hout : find_output_vm mesh3_routes three_vms packet 0 (parse_udp packet 0 len) = 1 := by
    rw [find_output_vm_eq, mesh3_routes_eq]
    exact route_loop_cons_of_match three_vms _ _ _ ⟨0, inet_addr_10_0_0 2, 0, 1, 0⟩ _
      ((parse_udp packet 0 len).map (udp_dest packet)) rfl
      ⟨Or.inl rfl, hd.symm, Or.inl rfl⟩
  have hloop : forward_loop 1 packet 0 (parse_udp packet 0 len) mesh3_routes = (packet, []) := by
    apply forward_loop_all_zero
    rw [mesh3_routes_eq]
    decide
  have htr := process_forward_trace mesh3_routes three_vms 0 packet len wr 1 (by omega) h4 h5
    hout (by decide) (by decide)
  have hfst : (forward_packet mesh3_routes packet len 0 1 wr).1 =
      wr16 packet (0 + 10) (calculate_ip_checksum packet 0).1 := by
    rw [forward_packet_fst, hloop]
  have hchk := calculate_ip_checksum_of_verified packet h5 (by omega) hver
  refine ⟨(forward_packet mesh3_routes packet len 0 1 wr).1.take len.toNat, ?_, ?_, ?_, ?_⟩
  · rw [htr, hloop]
    rfl
  · intro j h10 h11
    apply getElem?_take_congr
    rw [hfst]
    exact getElem?_wr16_ne _ _ _ _ (by omega) (by omega)
  · intro hne
    rw [hfst, hchk.1 hne]
    show (wr16 packet (0 + 10) (ntohs_at packet (0 + 10))).take len.toNat = _
    rw [wr16_self]
  · intro heq
    rw [hfst, hchk.2 heq]
    show ntohs_at ((wr16 packet (0 + 10) 0).take len.toNat) (0 + 10) = 0
    rw [ntohs_at_take _ _ _ (by omega), ntohs_at_wr16_self _ _ _ (by omega)]

/-- Claim C16, as amended, at a concrete input: the sample datagram with its checksum
field filled in (`0x66CD`) is written to endpoint 1 exactly as read. -/
theorem mesh3_delivery_witness :
    fold_carries (be_words (slice (sample_udp 5000 0x1111 |>.set 10 0x66 |>.set 11 0xCD) 0
      (ip_ihl (sample_udp 5000 0x1111 |>.set 10 0x66 |>.set 11 0xCD) 0 * 4))).sum = 0xFFFF ∧
    process_packet_from_vm mesh3_routes three_vms 0
        (sample_udp 5000 0x1111 |>.set 10 0x66 |>.set 11 0xCD) 30 0 =
      [Event.log_rx 0 (inet_addr_10_0_0 1) (inet_addr_10_0_0 2) 30 17 (some (4660, 5000)),
       Event.route_lookup, Event.log_forward_to 1,
       Event.write 1 (sample_udp 5000 0x1111 |>.set 10 0x66 |>.set 11 0xCD) 30] ∧
    ∃ data : List Byte,
      (ip_check (sample_udp 5000 0x1111 |>.set 10 0x66 |>.set 11 0xCD) 0 ≠ 0xFFFF →
        data = (sample_udp 5000 0x1111 |>.set 10 0x66 |>.set 11 0xCD).take (30 : Int).toNat) := by
  refine ⟨by decide, by decide, ?_⟩
  obtain ⟨data, _, _, hv, _⟩ :=
    mesh3_delivery (sample_udp 5000 0x1111 |>.set 10 0x66 |>.set 11 0xCD) 30 0
      (by decide) (by decide) (by decide) (by decide) (by decide) (by decide) (by decide)
      (by decide)
  exact ⟨data, hv⟩

/-- Claim C16 fails as stated.  The datagram `sample_udp_check_ffff` is a UDP datagram to
10.0.0.2 whose header verifies; read from the 10.0.0.1 endpoint in the default
configuration, it is written to the 10.0.0.2 endpoint with checksum bytes `00 00` where
`FF FF` was read. -/
theorem mesh3_check_ffff_not_verbatim :
    ip_protocol sample_udp_check_ffff 0 = 17 ∧
    ip_daddr sample_udp_check_ffff 0 = inet_addr_10_0_0 2 ∧
    fold_carries (be_words (slice sample_udp_check_ffff 0
      (ip_ihl sample_udp_check_ffff 0 * 4))).sum = 0xFFFF ∧
    process_packet_from_vm mesh3_routes three_vms 0 sample_udp_check_ffff 30 0 =
      [Event.log_rx 0 (inet_addr_10_0_0 1) (inet_addr_10_0_0 2) 30 17 (some (4660, 5000)),
       Event.route_lookup, Event.log_forward_to 1,
       Event.write 1 [0x45, 0, 0, 30, 0x66, 0xCD, 0, 0, 64, 17, 0, 0, 10, 0, 0, 1, 10, 0, 0, 2,
         0x12, 0x34, 0x13, 0x88, 0, 10, 0, 0, 0xAB, 0xCD] 30] ∧
    ([0x45, 0, 0, 30, 0x66, 0xCD, 0, 0, 64, 17, 0, 0, 10, 0, 0, 1, 10, 0, 0, 2,
         0x12, 0x34, 0x13, 0x88, 0, 10, 0, 0, 0xAB, 0xCD] : List Byte) ≠
      sample_udp_check_ffff.take (30 : Int).toNat := by
  decide

/-! ## Scenario B: the rewrite route in front of the mesh -/

theorem scenario_b_routes_eq :
    scenario_b_routes = ⟨0, inet_addr_10_0_0 2, 9999, 1, 8000⟩ :: mesh3_routes := by
  decide

theorem calculate_udp_checksum_lt (mem : List Byte) (ip udp : Nat) :
    (calculate_udp_checksum mem ip udp).1 < 65536 := by
  unfold calculate_udp_checksum htons_not
  simp only
  split_ifs <;> omega

theorem forward_loop_cons_pos (dst_vm_idx : Int) (mem : List Byte) (ip : Nat)
    (udp : Option Nat) (r : Route) (rest : List Route)
    (h : r.output_vm_index = dst_vm_idx ∧ r.dst_ip = ip_daddr mem ip) :
    forward_loop dst_vm_idx mem ip udp (r :: rest) = port_forward r mem ip udp := by
  simp only [forward_loop]
  rw [if_pos h]

theorem parse_udp_some (packet : List Byte) (len : Int)
    (hproto : ip_protocol packet 0 = IPPROTO_UDP)
    (hlen : ((ip_ihl packet 0 * 4 + 8 : Nat) : Int) < len) :
    parse_udp packet 0 len = some (ip_ihl packet 0 * 4) := by
  unfold parse_udp
  rw [if_pos ⟨hproto, hlen⟩, Nat.zero_add]

/-- The rewrite of scenario B for a datagram whose UDP length field stays inside the bytes
received (`ihl*4 + udp_len ≤ len`, a test that `router.c` does not make).  Such a datagram
with a parsed UDP header to 10.0.0.2 port 9999, read from an endpoint other than endpoint
1, is written once, to endpoint 1, after one port-forward message; the written destination
port is 8000; when the received UDP checksum was nonzero the written one is the
specification's checksum of the rewritten segment; every byte other than the IP checksum,
the destination port and the UDP checksum is the byte read. -/
theorem scenario_b_rewrite_consistent (vms : List VirtualMachine) (vm_idx : Int)
    (packet : List Byte) (len : Int) (wr : Int)
    (hbuf : len ≤ (packet.length : Int)) (hmax : packet.length ≤ MAX_PACKET)
    (h4 : ip_version packet 0 = 4) (h5 : 5 ≤ ip_ihl packet 0)
    (hproto : ip_protocol packet 0 = IPPROTO_UDP)
    (hlen : ((ip_ihl packet 0 * 4 + 8 : Nat) : Int) < len)
    (hseg : ((ip_ihl packet 0 * 4 + udp_len packet (ip_ihl packet 0 * 4) : Nat) : Int) ≤ len)
    (hd : ip_daddr packet 0 = inet_addr_10_0_0 2)
    (hport : udp_dest packet (ip_ihl packet 0 * 4) = 9999)
    (hsrc : vm_idx ≠ 1) :
    ∃ data : List Byte,
      process_packet_from_vm scenario_b_routes vms vm_idx packet len wr =
        [Event.log_rx vm_idx (ip_saddr packet 0) (ip_daddr packet 0) len (ip_protocol packet 0)
            (some (udp_source packet (ip_ihl packet 0 * 4), 9999)),
          Event.route_lookup, Event.log_forward_to 1, Event.log_port_forward 9999 8000,
          Event.write 1 data len]
          ++ (if wr < 0 then [Event.log_write_failed] else []) ∧
      udp_dest data (ip_ihl packet 0 * 4) = 8000 ∧
      (udp_check packet (ip_ihl packet 0 * 4) ≠ 0 →
        udp_check data (ip_ihl packet 0 * 4) =
          spec_udp_checksum
            (slice (wr16 packet (ip_ihl packet 0 * 4 + 2) 8000) (0 + 12) 4)
            (slice (wr16 packet (ip_ihl packet 0 * 4 + 2) 8000) (0 + 16) 4)
            (udp_len packet (ip_ihl packet 0 * 4))
            (slice (wr16 packet (ip_ihl packet 0 * 4 + 2) 8000) (ip_ihl packet 0 * 4)
              (udp_len packet (ip_ihl packet 0 * 4)))) ∧
      (∀ j : Nat, j ≠ 10 → j ≠ 11 → j ≠ ip_ihl packet 0 * 4 + 2 → j ≠ ip_ihl packet 0 * 4 + 3 →
        j ≠ ip_ihl packet 0 * 4 + 6 → j ≠ ip_ihl packet 0 * 4 + 7 →
        data[j]? = (packet.take len.toNat)[j]?) := by
  simp only [MAX_PACKET] at hmax
  generalize hu : ip_ihl packet 0 * 4 = u at *
  have hparse : parse_udp packet 0 len = some u := by
    rw [← hu]; exact parse_udp_some packet len hproto (by rw [hu]; exact hlen)
  have hout : find_output_vm scenario_b_routes vms packet 0 (parse_udp packet 0 len) = 1 := by
    rw [find_output_vm_eq, scenario_b_routes_eq, hparse]
    exact route_loop_cons_of_match vms _ _ _ ⟨0, inet_addr_10_0_0 2, 9999, 1, 8000⟩ _
      (some (udp_dest packet u)) rfl ⟨Or.inl rfl, hd.symm, Or.inr (by rw [hport])⟩
  have hnz : (⟨0, inet_addr_10_0_0 2, 9999, 1, 8000⟩ : Route).forward_to_port ≠ 0 := by decide
  have hloop : forward_loop 1 packet 0 (parse_udp packet 0 len) scenario_b_routes =
      (if udp_check packet u ≠ 0 then
          wr16 (wr16 packet (u + 2) 8000) (u + 6)
            (calculate_udp_checksum (wr16 packet (u + 2) 8000) 0 u).1
        else wr16 packet (u + 2) 8000,
       [Event.log_port_forward 9999 8000]) := by
    rw [scenario_b_routes_eq, hparse, forward_loop_cons_pos 1 packet 0 (some u) _ _
      ⟨rfl, hd.symm⟩, port_forward_some _ packet 0 u hnz, hport]
  have htr := process_forward_trace scenario_b_routes vms vm_idx packet len wr 1 (by omega)
    h4 h5 hout (by decide) (fun h => hsrc h.symm)
  have hfst := forward_packet_fst scenario_b_routes packet len vm_idx 1 wr
  rw [hloop] at hfst htr
  simp only at hfst htr
  refine ⟨(forward_packet scenario_b_routes packet len vm_idx 1 wr).1.take len.toNat,
    ?_, ?_, ?_, ?_⟩
  · rw [htr, hparse]
    simp only [hport]
    rfl
  · unfold udp_dest
    rw [ntohs_at_take _ _ _ (by omega), hfst, ntohs_at_wr16_ne _ _ _ _ (by omega)]
    by_cases hc : udp_check packet u ≠ 0
    · rw [if_pos hc, ntohs_at_wr16_ne _ _ _ _ (by omega),
        ntohs_at_wr16_self _ _ _ (by omega)]
    · rw [if_neg hc, ntohs_at_wr16_self _ _ _ (by omega)]
  · intro hc
    have hval : udp_check ((forward_packet scenario_b_routes packet len vm_idx 1 wr).1.take
        len.toNat) u = (calculate_udp_checksum (wr16 packet (u + 2) 8000) 0 u).1 := by
      unfold udp_check
      rw [ntohs_at_take _ _ _ (by omega), hfst, ntohs_at_wr16_ne _ _ _ _ (by omega), if_pos hc,
        ntohs_at_wr16_self _ _ _ (by rw [length_wr16]; omega)]
      exact Nat.mod_eq_of_lt (calculate_udp_checksum_lt _ _ _)
    have hL : u + udp_len packet u ≤ packet.length := by omega
    have hLr : udp_len (wr16 packet (u + 2) 8000) u = udp_len packet u := by
      unfold udp_len
      exact ntohs_at_wr16_ne packet (u + 2) (u + 4) _ (by omega)
    rw [hval, calculate_udp_checksum_fst _ 0 u (by rw [length_wr16]; omega)
      (by rw [hLr, length_wr16]; exact hL), hLr]
  · intro j h10 h11 h2 h3 h6 h7
    apply getElem?_take_congr
    rw [hfst, getElem?_wr16_ne _ _ _ _ (by omega) (by omega)]
    by_cases hc : udp_check packet u ≠ 0
    · rw [if_pos hc, getElem?_wr16_ne _ _ _ _ (by omega) (by omega),
        getElem?_wr16_ne _ _ _ _ (by omega) (by omega)]
    · rw [if_neg hc, getElem?_wr16_ne _ _ _ _ (by omega) (by omega)]

/-- The rewrite of scenario B on the sample datagram to port 9999 (UDP length field 10, ten
bytes after the IP header), read from endpoint 0. -/
theorem scenario_b_rewrite_consistent_sample :
    process_packet_from_vm scenario_b_routes three_vms 0 (sample_udp 9999 0x1111) 30 0 =
      [Event.log_rx 0 (inet_addr_10_0_0 1) (inet_addr_10_0_0 2) 30 17 (some (4660, 9999)),
       Event.route_lookup, Event.log_forward_to 1, Event.log_port_forward 9999 8000,
       Event.write 1 [69, 0, 0, 30, 0, 0, 0, 0, 64, 17, 102, 205, 10, 0, 0, 1, 10, 0, 0, 2,
         18, 52, 31, 64, 0, 10, 14, 150, 171, 205] 30] ∧
    ∃ data : List Byte, udp_dest data (ip_ihl (sample_udp 9999 0x1111) 0 * 4) = 8000 := by
  refine ⟨by decide, ?_⟩
  obtain ⟨data, _, hd, _⟩ :=
    scenario_b_rewrite_consistent three_vms 0 (sample_udp 9999 0x1111) 30 0 (by decide)
      (by decide) (by decide) (by decide) (by decide) (by decide) (by decide) (by decide)
      (by decide) (by decide)
  exact ⟨data, hd⟩

/-- Claim C17, evaluated where it fails.  The 30-byte datagram `long_udp_length_datagram`
is a valid IPv4 datagram with a parsed UDP header, destination 10.0.0.2 port 9999 and the
nonzero UDP checksum field `0x1111`; its UDP length field is 12 where ten bytes follow the
IP header, which nothing in the dispatcher tests.  Read from endpoint 0 into a buffer
whose next two bytes are `BE EF`, it is written to endpoint 1 with destination port 8000
and UDP checksum field `0x4FA2`.  The checksum of the rewritten segment, the ten bytes
written at offsets 20 to 29, is `0x0E92` when the pseudo-header carries the length field's
12 and `0x0E94` when it carries the segment's 10: the written field is neither.  The same
30 bytes read into a buffer with zeros behind them are written with `0x0E92`, so the
written checksum is not a function of the datagram. -/
theorem scenario_b_rewrite_stale_bytes :
    ¬ ((30 : Int) % 18446744073709551616 < 20) ∧
    ip_version (long_udp_length_datagram ++ [0xBE, 0xEF]) 0 = 4 ∧
    ip_ihl (long_udp_length_datagram ++ [0xBE, 0xEF]) 0 = 5 ∧
    parse_udp (long_udp_length_datagram ++ [0xBE, 0xEF]) 0 30 = some 20 ∧
    ip_daddr (long_udp_length_datagram ++ [0xBE, 0xEF]) 0 = inet_addr_10_0_0 2 ∧
    udp_dest (long_udp_length_datagram ++ [0xBE, 0xEF]) 20 = 9999 ∧
    udp_check (long_udp_length_datagram ++ [0xBE, 0xEF]) 20 = 0x1111 ∧
    udp_len (long_udp_length_datagram ++ [0xBE, 0xEF]) 20 = 12 ∧
    process_packet_from_vm scenario_b_routes three_vms 0
        (long_udp_length_datagram ++ [0xBE, 0xEF]) 30 0 =
      [Event.log_rx 0 (inet_addr_10_0_0 1) (inet_addr_10_0_0 2) 30 17 (some (4660, 9999)),
       Event.route_lookup, Event.log_forward_to 1, Event.log_port_forward 9999 8000,
       Event.write 1 [69, 0, 0, 30, 0, 0, 0, 0, 64, 17, 102, 205, 10, 0, 0, 1, 10, 0, 0, 2,
         18, 52, 31, 64, 0, 12, 0x4F, 0xA2, 171, 205] 30] ∧
    udp_dest [69, 0, 0, 30, 0, 0, 0, 0, 64, 17, 102, 205, 10, 0, 0, 1, 10, 0, 0, 2,
         18, 52, 31, 64, 0, 12, 0x4F, 0xA2, 171, 205] 20 = 8000 ∧
    udp_check [69, 0, 0, 30, 0, 0, 0, 0, 64, 17, 102, 205, 10, 0, 0, 1, 10, 0, 0, 2,
         18, 52, 31, 64, 0, 12, 0x4F, 0xA2, 171, 205] 20 = 0x4FA2 ∧
    spec_udp_checksum [10, 0, 0, 1] [10, 0, 0, 2] 12
        (slice [69, 0, 0, 30, 0, 0, 0, 0, 64, 17, 102, 205, 10, 0, 0, 1, 10, 0, 0, 2,
         18, 52, 31, 64, 0, 12, 0x4F, 0xA2, 171, 205] 20 10) = 0x0E92 ∧
    spec_udp_checksum [10, 0, 0, 1] [10, 0, 0, 2] 10
        (slice [69, 0, 0, 30, 0, 0, 0, 0, 64, 17, 102, 205, 10, 0, 0, 1, 10, 0, 0, 2,
         18, 52, 31, 64, 0, 12, 0x4F, 0xA2, 171, 205] 20 10) = 0x0E94 ∧
    (long_udp_length_datagram ++ [0, 0]).take 30 =
      (long_udp_length_datagram ++ [0xBE, 0xEF]).take 30 ∧
    process_packet_from_vm scenario_b_routes three_vms 0 (long_udp_length_datagram ++ [0, 0])
        30 0 =
      [Event.log_rx 0 (inet_addr_10_0_0 1) (inet_addr_10_0_0 2) 30 17 (some (4660, 9999)),
       Event.route_lookup, Event.log_forward_to 1, Event.log_port_forward 9999 8000,
       Event.write 1 [69, 0, 0, 30, 0, 0, 0, 0, 64, 17, 102, 205, 10, 0, 0, 1, 10, 0, 0, 2,
         18, 52, 31, 64, 0, 12, 0x0E, 0x92, 171, 205] 30] := by
  decide

/-! ## Which endpoint `find_output_vm` can name -/

/-- Claim C18, as amended.  If every route of the table has an output index below the
number of registered endpoints, then a non-negative result of `find_output_vm` is the
index of a registered endpoint, and so is the target of every write of the dispatcher.
Whatever the table, when no route matches, the result is `-1` or the index of a
registered endpoint whose active flag is set and that carries the destination address: the
fallback never selects an endpoint whose active flag is cleared. -/
theorem find_output_vm_registered (routes : List Route) (vms : List VirtualMachine)
    (mem : List Byte) (ip : Nat) (udp : Option Nat) :
    ((∀ r ∈ routes, r.output_vm_index < (vms.length : Int)) →
        0 ≤ find_output_vm routes vms mem ip udp →
        find_output_vm routes vms mem ip udp < (vms.length : Int) ∧
        ∃ vm, vms[(find_output_vm routes vms mem ip udp).toNat]? = some vm) ∧
    ((∀ r ∈ routes, r.output_vm_index < (vms.length : Int)) →
        ∀ (vm_idx : Int) (len wr : Int) (d : Int) (data : List Byte) (count : Int),
          ip = 0 → udp = parse_udp mem 0 len →
          Event.write d data count ∈ process_packet_from_vm routes vms vm_idx mem len wr →
          0 ≤ d ∧ d < (vms.length : Int) ∧ ∃ vm, vms[d.toNat]? = some vm) ∧
    ((∀ r ∈ routes,
          ¬ spec_route_matches r (ip_saddr mem ip) (ip_daddr mem ip) (udp.map (udp_dest mem))) →
        find_output_vm routes vms mem ip udp = -1 ∨
        ∃ (i : Nat) (vm : VirtualMachine), find_output_vm routes vms mem ip udp = (i : Int) ∧
          vms[i]? = some vm ∧ vm.active ≠ 0 ∧ vm.ip_addr = ip_daddr mem ip) := by
  have hfall : ∀ x : Int, x = default_route_loop vms 0 (ip_daddr mem ip) →
      x = -1 ∨ ∃ (i : Nat) (vm : VirtualMachine), x = (i : Int) ∧
          vms[i]? = some vm ∧ vm.active ≠ 0 ∧ vm.ip_addr = ip_daddr mem ip := by
    intro x hx
    rcases default_route_loop_cases (ip_daddr mem ip) vms 0 with h | ⟨i, vm, he, hi, ha, hact⟩
    · exact Or.inl (hx.trans h)
    · refine Or.inr ⟨i, vm, ?_, hi, hact, ha⟩
      rw [hx, he]
      congr 1
      omega
  have hget : ∀ x : Int, 0 ≤ x → x < (vms.length : Int) → ∃ vm, vms[x.toNat]? = some vm := by
    intro x h0 hx
    have hlt : x.toNat < vms.length := by omega
    exact ⟨vms[x.toNat], List.getElem?_eq_getElem hlt⟩
  have hmain : (∀ r ∈ routes, r.output_vm_index < (vms.length : Int)) →
        0 ≤ find_output_vm routes vms mem ip udp →
        find_output_vm routes vms mem ip udp < (vms.length : Int) := by
    intro hr h0
    rw [find_output_vm_eq] at h0 ⊢
    rcases route_loop_cases vms (ip_saddr mem ip) (ip_daddr mem ip) _
        (udp.map (udp_dest mem)) rfl routes with ⟨r, hrm, _, he⟩ | ⟨_, he⟩
    · rw [he]
      exact hr r hrm
    · rcases hfall _ he with h | ⟨i, vm, hx, hi, _, _⟩
      · rw [h] at h0
        exact absurd h0 (by decide)
      · rw [hx]
        have hlt : i < vms.length := by
          by_contra hge
          rw [List.getElem?_eq_none (by omega)] at hi
          exact absurd hi (by simp)
        omega
  refine ⟨fun hr h0 => ⟨hmain hr h0, hget _ h0 (hmain hr h0)⟩, ?_, ?_⟩
  · intro hr vm_idx len wr d data count hip hudp hw
    subst hip
    subst hudp
    obtain ⟨_, _, _, hd, h0, _⟩ :=
      process_write_inv routes vms vm_idx mem len wr d data count hw
    rw [hd] at h0 ⊢
    exact ⟨h0, hmain hr h0, hget _ h0 (hmain hr h0)⟩
  · intro hno
    exact hfall _ (find_output_vm_no_match routes vms mem ip udp hno)

/-- Claim C18, as amended, at a concrete input: in scenario B every one of the seven routes
has an output index below 3, the sample datagram to port 9999 resolves to index 1, and
index 1 is a registered endpoint. -/
theorem find_output_vm_registered_witness :
    scenario_b_routes.length = 7 ∧ three_vms.length = 3 ∧
    find_output_vm scenario_b_routes three_vms (sample_udp 9999 0x1111) 0 (some 20) = 1 ∧
    find_output_vm scenario_b_routes three_vms (sample_udp 9999 0x1111) 0 (some 20)
      < (three_vms.length : Int) ∧
    ∃ vm, three_vms[(find_output_vm scenario_b_routes three_vms (sample_udp 9999 0x1111) 0
      (some 20)).toNat]? = some vm :=
  ⟨by decide, by decide, by decide,
   (find_output_vm_registered scenario_b_routes three_vms (sample_udp 9999 0x1111) 0
      (some 20)).1 (by decide) (by decide)⟩

/-- Claim C18 fails as stated.  The table `stray_output_routes` is built by a call of
`add_route`; with three registered endpoints `find_output_vm` returns 7 for a datagram to
10.0.0.2, and the dispatcher writes the packet to index 7. -/
theorem stray_output_routes_unregistered :
    stray_output_routes = [⟨0, inet_addr_10_0_0 2, 0, 7, 0⟩] ∧
    three_vms.length = 3 ∧
    find_output_vm stray_output_routes three_vms (sample_udp 5000 0x1111) 0
      (parse_udp (sample_udp 5000 0x1111) 0 30) = 7 ∧
    three_vms[7]? = none ∧
    process_packet_from_vm stray_output_routes three_vms 0 (sample_udp 5000 0x1111) 30 0 =
      [Event.log_rx 0 (inet_addr_10_0_0 1) (inet_addr_10_0_0 2) 30 17 (some (4660, 5000)),
       Event.route_lookup, Event.log_forward_to 7,
       Event.write 7 [69, 0, 0, 30, 0, 0, 0, 0, 64, 17, 102, 205, 10, 0, 0, 1, 10, 0, 0, 2,
         18, 52, 19, 136, 0, 10, 17, 17, 171, 205] 30] := by
  decide

/-- The first loop of `find_output_vm` returns the stored output index without a test of
`vms[].active`; the fallback loop makes that test.  In the registry `vms_first_inactive`
endpoint 1 carries 10.0.0.2 with its active flag cleared and endpoint 2 carries the same
address with the flag set.  With the mesh table the route 10.0.0.1 to 10.0.0.2 selects
endpoint 1 and the dispatcher writes the packet to it; with an empty table the fallback
passes over endpoint 1 and the packet goes to endpoint 2. -/
theorem mesh_route_selects_inactive :
    (∀ r ∈ mesh3_routes, r.output_vm_index < (vms_first_inactive.length : Int)) ∧
    vms_first_inactive[1]? = some ⟨4, inet_addr_10_0_0 2, "tun1", 0⟩ ∧
    find_output_vm mesh3_routes vms_first_inactive (sample_udp 5000 0x1111) 0
      (parse_udp (sample_udp 5000 0x1111) 0 30) = 1 ∧
    process_packet_from_vm mesh3_routes vms_first_inactive 0 (sample_udp 5000 0x1111) 30 0 =
      [Event.log_rx 0 (inet_addr_10_0_0 1) (inet_addr_10_0_0 2) 30 17 (some (4660, 5000)),
       Event.route_lookup, Event.log_forward_to 1,
       Event.write 1 [69, 0, 0, 30, 0, 0, 0, 0, 64, 17, 102, 205, 10, 0, 0, 1, 10, 0, 0, 2,
         18, 52, 19, 136, 0, 10, 17, 17, 171, 205] 30] ∧
    find_output_vm [] vms_first_inactive (sample_udp 5000 0x1111) 0
      (parse_udp (sample_udp 5000 0x1111) 0 30) = 2 ∧
    process_packet_from_vm [] vms_first_inactive 0 (sample_udp 5000 0x1111) 30 0 =
      [Event.log_rx 0 (inet_addr_10_0_0 1) (inet_addr_10_0_0 2) 30 17 (some (4660, 5000)),
       Event.route_lookup, Event.log_forward_to 2,
       Event.write 2 [69, 0, 0, 30, 0, 0, 0, 0, 64, 17, 102, 205, 10, 0, 0, 1, 10, 0, 0, 2,
         18, 52, 19, 136, 0, 10, 17, 17, 171, 205] 30] := by
  decide

/-! ## Building the routing table -/

theorem add_route_entry_eq (routes : List Route) (r : Route) :
    add_route_entry routes r = if routes.length ≥ MAX_ROUTES then routes else routes ++ [r] :=
  rfl

theorem add_route_of_lt (routes : List Route) (s d p : Nat) (o : Int) (f : Nat)
    (h : routes.length < MAX_ROUTES) :
    add_route routes s d p o f = routes ++ [⟨s, d, p, o, f⟩] := by
  unfold add_route
  rw [if_neg (by omega)]

theorem add_route_of_ge (routes : List Route) (s d p : Nat) (o : Int) (f : Nat)
    (h : routes.length ≥ MAX_ROUTES) :
    add_route routes s d p o f = routes := by
  unfold add_route
  rw [if_pos h]

/-- Claim C19.  On a table holding fewer than `MAX_ROUTES` = 256 routes, `add_route` appends
the given route: the new table is one longer, its last entry is the route, every earlier
entry is where it was, and nothing is printed.  On a table holding 256 routes it prints
the table-full message and returns the table as it was. -/
theorem add_route_spec (routes : List Route) (s d p : Nat) (o : Int) (f : Nat) :
    (routes.length < MAX_ROUTES →
      add_route routes s d p o f = routes ++ [⟨s, d, p, o, f⟩] ∧
      (add_route routes s d p o f).length = routes.length + 1 ∧
      (add_route routes s d p o f)[routes.length]? = some ⟨s, d, p, o, f⟩ ∧
      (∀ i, i < routes.length → (add_route routes s d p o f)[i]? = routes[i]?) ∧
      add_route_log routes = []) ∧
    (routes.length = MAX_ROUTES →
      add_route routes s d p o f = routes ∧
      (add_route routes s d p o f).length = routes.length ∧
      add_route_log routes = [ConfigEvent.log_routing_table_full]) := by
  constructor
  · intro h
    rw [add_route_of_lt routes s d p o f h]
    refine ⟨rfl, by simp, by simp, ?_, ?_⟩
    · intro i hi
      exact List.getElem?_append_left hi
    · unfold add_route_log
      rw [if_neg (by omega)]
  · intro h
    rw [add_route_of_ge routes s d p o f (by omega)]
    refine ⟨rfl, rfl, ?_⟩
    unfold add_route_log
    rw [if_pos (by omega)]

/-- Claim C19 at concrete inputs: an empty table, and a table of 256 routes. -/
theorem add_route_spec_witness :
    add_route [] 0 (inet_addr_10_0_0 2) 9999 1 8000 = [⟨0, inet_addr_10_0_0 2, 9999, 1, 8000⟩] ∧
    add_route (List.replicate 256 (mesh_route 1)) 0 (inet_addr_10_0_0 2) 9999 1 8000 =
      List.replicate 256 (mesh_route 1) :=
  ⟨((add_route_spec [] 0 (inet_addr_10_0_0 2) 9999 1 8000).1 (by decide)).1,
   ((add_route_spec (List.replicate 256 (mesh_route 1)) 0 (inet_addr_10_0_0 2) 9999 1 8000).2
      (by rw [List.length_replicate]; rfl)).1⟩

/-! ## The mesh that `main` configures -/

/-- Adding a list of routes one by one fills the table up to `MAX_ROUTES` and drops the
rest. -/
theorem foldl_add_route_entry : ∀ (cands routes : List Route), routes.length ≤ MAX_ROUTES →
    cands.foldl add_route_entry routes = (routes ++ cands).take MAX_ROUTES := by
  intro cands
  induction cands with
  | nil =>
    intro routes h
    rw [List.append_nil, List.foldl_nil, List.take_of_length_le h]
  | cons r cs ih =>
    intro routes h
    rw [List.foldl_cons, add_route_entry_eq]
    by_cases hfull : routes.length ≥ MAX_ROUTES
    · rw [if_pos hfull, ih routes h, List.take_append_of_le_length hfull,
        List.take_append_of_le_length hfull]
    · rw [if_neg hfull, ih (routes ++ [r]) (by rw [List.length_append]; simp; omega),
        List.append_assoc]
      rfl

/-- The inner loop of `main` for a fixed `i` adds the default routes to the endpoints
other than `i`. -/
theorem inner_loop_eq (i : Nat) : ∀ (l : List Nat) (acc : List Route),
    l.foldl (fun acc j =>
        if i ≠ j then add_route acc 0 (inet_addr_10_0_0 (j + 1)) 0 (j : Int) 0 else acc) acc =
      ((l.filter (fun j => decide (i ≠ j))).map mesh_route).foldl add_route_entry acc := by
  intro l
  induction l with
  | nil => intro acc; rfl
  | cons j js ih =>
    intro acc
    rw [List.foldl_cons]
    by_cases h : i ≠ j
    · rw [if_pos h, List.filter_cons_of_pos (by simpa using h), List.map_cons, List.foldl_cons,
        ih]
      rfl
    · rw [if_neg h, List.filter_cons_of_neg (by simpa using h), ih]

/-- The two loops of `main` add the routes of the specification's mesh, in its order. -/
theorem outer_loop_eq (n : Nat) : ∀ (l : List Nat) (acc : List Route),
    l.foldl (fun acc i =>
      (List.range n).foldl (fun acc j =>
        if i ≠ j then add_route acc 0 (inet_addr_10_0_0 (j + 1)) 0 (j : Int) 0 else acc) acc)
      acc =
    (l.flatMap (fun i =>
      ((List.range n).filter (fun j => decide (i ≠ j))).map mesh_route)).foldl
        add_route_entry acc := by
  intro l
  induction l with
  | nil => intro acc; rfl
  | cons i is ih =>
    intro acc
    rw [List.foldl_cons, List.flatMap_cons, List.foldl_append, inner_loop_eq, ih]

theorem configure_default_routes_take (n : Nat) :
    configure_default_routes n [] = (spec_mesh n).take MAX_ROUTES := by
  unfold configure_default_routes spec_mesh
  rw [outer_loop_eq n (List.range n) [], foldl_add_route_entry _ [] (Nat.zero_le _),
    List.nil_append]

/-- Among the indices below `n`, all but `i` differ from `i`. -/
theorem length_filter_ne_range (i : Nat) : ∀ n : Nat,
    ((List.range n).filter (fun j => decide (i ≠ j))).length = if i < n then n - 1 else n := by
  intro n
  induction n with
  | zero => rfl
  | succ k ih =>
    rw [List.range_succ, List.filter_append, List.length_append, ih]
    by_cases hik : i = k
    · subst hik
      rw [List.filter_cons_of_neg (by simp), List.filter_nil]
      simp
    · rw [List.filter_cons_of_pos (by simpa using hik), List.filter_nil]
      by_cases hlt : i < k
      · rw [if_pos hlt, if_pos (by omega)]
        simp
        omega
      · rw [if_neg hlt, if_neg (by omega)]
        simp

theorem length_flatMap_mesh (n : Nat) : ∀ l : List Nat, (∀ i ∈ l, i < n) →
    (l.flatMap (fun i =>
      ((List.range n).filter (fun j => decide (i ≠ j))).map mesh_route)).length
      = l.length * (n - 1) := by
  intro l
  induction l with
  | nil => intro _; simp
  | cons i is ih =>
    intro h
    rw [List.flatMap_cons, List.length_append, List.length_map, length_filter_ne_range,
      if_pos (h i (List.mem_cons_self i is)),
      ih (fun x hx => h x (List.mem_cons_of_mem i hx)), List.length_cons, Nat.succ_mul]
    omega

theorem length_spec_mesh (n : Nat) : (spec_mesh n).length = n * (n - 1) := by
  unfold spec_mesh
  rw [length_flatMap_mesh n (List.range n) (fun i hi => List.mem_range.mp hi),
    List.length_range]

theorem length_configure_default_routes (n : Nat) :
    (configure_default_routes n []).length = min MAX_ROUTES (n * (n - 1)) := by
  rw [configure_default_routes_take, List.length_take, length_spec_mesh]

/-- Claim C20, as amended.  The configuration loops of `main` leave the table holding the
first `MAX_ROUTES` = 256 routes of the mesh (one default route per ordered pair of distinct
endpoint indices below `n`, `n * (n - 1)` routes in all): the whole mesh when `n ≤ 16`,
and exactly 256 routes when `n ≥ 17`. -/
theorem configure_default_routes_spec (n : Nat) :
    configure_default_routes n [] = (spec_mesh n).take MAX_ROUTES ∧
    (spec_mesh n).length = n * (n - 1) ∧
    (n ≤ 16 → configure_default_routes n [] = spec_mesh n ∧
      (configure_default_routes n []).length = n * (n - 1)) ∧
    (17 ≤ n → (configure_default_routes n []).length = MAX_ROUTES) := by
  refine ⟨configure_default_routes_take n, length_spec_mesh n, ?_, ?_⟩
  · intro h
    have hle : n * (n - 1) ≤ 16 * 15 := Nat.mul_le_mul h (by omega)
    have e : configure_default_routes n [] = spec_mesh n := by
      rw [configure_default_routes_take, List.take_of_length_le]
      rw [length_spec_mesh]
      unfold MAX_ROUTES
      omega
    exact ⟨e, by rw [e, length_spec_mesh]⟩
  · intro h
    have hge : 17 * 16 ≤ n * (n - 1) := Nat.mul_le_mul h (by omega)
    rw [length_configure_default_routes]
    unfold MAX_ROUTES
    omega

/-- Claim C20, as amended, at a concrete input: three machines give the six routes of the
mesh. -/
theorem configure_default_routes_spec_witness :
    configure_default_routes 3 [] = spec_mesh 3 ∧
    (configure_default_routes 3 []).length = 3 * (3 - 1) :=
  (configure_default_routes_spec 3).2.2.1 (by decide)

/-- Claim C20 fails as stated.  For the accepted machine count 17 the mesh has
`17 * 16 = 272` routes, and the table that `main` configures holds 256. -/
theorem configure_default_routes_17 :
    main_accepts 17 = true ∧
    (configure_default_routes 17 []).length = 256 ∧ 17 * (17 - 1) = 272 := by
  refine ⟨by decide, ?_, by decide⟩
  rw [length_configure_default_routes]
  decide

/-! ## Registering endpoints -/

/-- Claim C21.  With fewer than `MAX_MACHINES` = 100 endpoints registered and a channel
that opened (`fd ≥ 0`), `add_virtual_machine` appends the endpoint with its handle,
address, name and `active = 1`, returns its index, which is the number of endpoints
registered before, and leaves the earlier entries in place.  With 100 endpoints registered,
or with a channel that failed to open, it returns `-1` and the registry is as it was. -/
theorem add_virtual_machine_spec (vms : List VirtualMachine) (name : String) (ip_addr : Nat)
    (fd : Int) :
    (vms.length < MAX_MACHINES → 0 ≤ fd →
      add_virtual_machine vms name ip_addr fd =
        (vms ++ [⟨fd, ip_addr, name, 1⟩], (vms.length : Int)) ∧
      (add_virtual_machine vms name ip_addr fd).1.length = vms.length + 1 ∧
      (add_virtual_machine vms name ip_addr fd).1[vms.length]? = some ⟨fd, ip_addr, name, 1⟩ ∧
      (∀ i, i < vms.length → (add_virtual_machine vms name ip_addr fd).1[i]? = vms[i]?) ∧
      add_virtual_machine_log vms fd = [ConfigEvent.log_created_machine vms.length]) ∧
    (vms.length = MAX_MACHINES →
      add_virtual_machine vms name ip_addr fd = (vms, -1) ∧
      add_virtual_machine_log vms fd = [ConfigEvent.log_max_machines_reached]) ∧
    (fd < 0 → add_virtual_machine vms name ip_addr fd = (vms, -1)) := by
  refine ⟨?_, ?_, ?_⟩
  · intro h hfd
    have e : add_virtual_machine vms name ip_addr fd =
        (vms ++ [⟨fd, ip_addr, name, 1⟩], (vms.length : Int)) := by
      unfold add_virtual_machine
      rw [if_neg (by omega), if_neg (by omega)]
    rw [e]
    refine ⟨rfl, by simp, by simp, ?_, ?_⟩
    · intro i hi
      exact List.getElem?_append_left hi
    · unfold add_virtual_machine_log
      rw [if_neg (by omega), if_neg (by omega)]
  · intro h
    constructor
    · unfold add_virtual_machine
      rw [if_pos (by omega)]
    · unfold add_virtual_machine_log
      rw [if_pos (by omega)]
  · intro h
    unfold add_virtual_machine
    by_cases hc : vms.length ≥ MAX_MACHINES
    · rw [if_pos hc]
    · rw [if_neg hc, if_pos h]

/-- Claim C21 at concrete inputs: the third registration of `main`, a full registry, and
a channel that failed to open. -/
theorem add_virtual_machine_spec_witness :
    add_virtual_machine (three_vms.take 2) "tun2" (inet_addr_10_0_0 3) 5 = (three_vms, 2) ∧
    add_virtual_machine (List.replicate 100 ⟨3, inet_addr_10_0_0 1, "tun0", 1⟩) "tun100"
        (inet_addr_10_0_0 101) 4 =
      (List.replicate 100 ⟨3, inet_addr_10_0_0 1, "tun0", 1⟩, -1) ∧
    add_virtual_machine three_vms "tun3" (inet_addr_10_0_0 4) (-1) = (three_vms, -1) :=
  ⟨((add_virtual_machine_spec (three_vms.take 2) "tun2" (inet_addr_10_0_0 3) 5).1
      (by decide) (by decide)).1,
   ((add_virtual_machine_spec (List.replicate 100 ⟨3, inet_addr_10_0_0 1, "tun0", 1⟩) "tun100"
      (inet_addr_10_0_0 101) 4).2.1 (by rw [List.length_replicate]; rfl)).1,
   (add_virtual_machine_spec three_vms "tun3" (inet_addr_10_0_0 4) (-1)).2.2 (by decide)⟩

/-! ## A read that fails -/

/-- Claim C23, evaluated where it fails.  When `read` returns `-1` the comparison
`len < sizeof(struct iphdr)`, made on `size_t`, sees `2^64 - 1` and does not hold.  With a
buffer that still holds an earlier valid datagram the dispatcher goes on: it prints the
receive line, makes the route lookup, and calls `forward_packet`, which calls `write` with
count `-1`.  A read of 19 bytes of the same buffer is dropped as too short. -/
theorem process_packet_from_vm_failed_read :
    ((-1 : Int) < 20) ∧
    process_packet_from_vm scenario_b_routes three_vms 0 (sample_udp 5000 0x1111) (-1) (-1) =
      [Event.log_rx 0 (inet_addr_10_0_0 1) (inet_addr_10_0_0 2) (-1) 17 none,
       Event.route_lookup, Event.log_forward_to 1, Event.write 1 [] (-1),
       Event.log_write_failed] ∧
    Event.route_lookup ∈
      process_packet_from_vm scenario_b_routes three_vms 0 (sample_udp 5000 0x1111) (-1) (-1) ∧
    write_count
      (process_packet_from_vm scenario_b_routes three_vms 0 (sample_udp 5000 0x1111) (-1) (-1))
      = 1 ∧
    process_packet_from_vm scenario_b_routes three_vms 0 (sample_udp 5000 0x1111) 19 0 =
      [Event.log_too_short] := by
  decide

/-! ## Width of the checksum accumulator -/

/-- Each word adds at most `0xFFFF`, and a run over `len` bytes adds `⌈len / 2⌉` words. -/
theorem sum_loop_unbounded_le (mem : List Byte) : ∀ (len ptr acc : Nat),
    sum_loop_unbounded mem ptr len acc ≤ acc + 65535 * ((len + 1) / 2) := by
  intro len
  induction len using Nat.twoStepInduction with
  | zero => intro ptr acc; simp [sum_loop_unbounded]
  | one =>
    intro ptr acc
    have h := rd8_lt mem ptr
    simp only [sum_loop_unbounded, Nat.shiftLeft_eq]
    omega
  | more n ih _ =>
    intro ptr acc
    have h := ntohs_at_lt mem ptr
    simp only [sum_loop_unbounded]
    have := ih (ptr + 2) (acc + ntohs_at mem ptr)
    omega

/-- While the unbounded sum stays below `2^32`, the 32-bit accumulator holds it exactly. -/
theorem sum_loop_eq_unbounded (mem : List Byte) : ∀ (len ptr acc : Nat),
    acc + 65535 * ((len + 1) / 2) < 4294967296 →
    sum_loop mem ptr len acc = sum_loop_unbounded mem ptr len acc := by
  intro len
  induction len using Nat.twoStepInduction with
  | zero => intro ptr acc _; rfl
  | one =>
    intro ptr acc hb
    have h := rd8_lt mem ptr
    simp only [sum_loop, sum_loop_unbounded, Nat.shiftLeft_eq] at hb ⊢
    exact Nat.mod_eq_of_lt (by omega)
  | more n ih _ =>
    intro ptr acc hb
    have h := ntohs_at_lt mem ptr
    simp only [sum_loop, sum_loop_unbounded]
    rw [Nat.mod_eq_of_lt (by omega)]
    exact ih (ptr + 2) (acc + ntohs_at mem ptr) (by omega)

theorem udp_pseudo_sum_eq_unbounded (mem : List Byte) (ip udp : Nat) :
    udp_pseudo_sum mem ip udp = udp_pseudo_sum_unbounded mem ip udp := by
  have hL : udp_len mem udp < 65536 := ntohs_at_lt mem (udp + 4)
  have h1 := ntohs_at_lt mem (ip + 12)
  have h2 := ntohs_at_lt mem (ip + 14)
  have h3 := ntohs_at_lt mem (ip + 16)
  have h4 := ntohs_at_lt mem (ip + 18)
  unfold udp_pseudo_sum udp_pseudo_sum_unbounded IPPROTO_UDP
  simp only
  omega

theorem udp_pseudo_sum_unbounded_le (mem : List Byte) (ip udp : Nat) :
    udp_pseudo_sum_unbounded mem ip udp ≤ 327692 := by
  have hL : udp_len mem udp < 65536 := ntohs_at_lt mem (udp + 4)
  have h1 := ntohs_at_lt mem (ip + 12)
  have h2 := ntohs_at_lt mem (ip + 14)
  have h3 := ntohs_at_lt mem (ip + 16)
  have h4 := ntohs_at_lt mem (ip + 18)
  unfold udp_pseudo_sum_unbounded IPPROTO_UDP
  omega

/-- On a 32-bit value the carry fold is over after two iterations. -/
theorem fold_loop_two (s : Nat) (h : s ≤ 0xFFFFFFFF) : fold_loop 2 s = fold_carries s := by
  rw [fold_carries_eq]
  simp only [fold_loop, shiftRight16, and_FFFF]
  split_ifs <;> omega

/-- Claim C25.  For every buffer and every header position: while `calculate_ip_checksum`
sums (`ihl ≤ 15`) and while `calculate_udp_checksum` sums (length field at most 65535) the
accumulator, taken in unbounded integers, never exceeds `2^32 - 1`; the results of both
routines are those obtained with unbounded integers; and the carry fold ends, on a 32-bit
value after at most two iterations, with a value of at most `0xFFFF` for which the loop
condition `sum >> 16` is false. -/
theorem checksum_accumulator_no_overflow (mem : List Byte) (ip udp : Nat) :
    (∀ n, n ≤ ip_ihl mem ip * 4 →
      sum_loop_unbounded (wr16 mem (ip + 10) 0) ip n 0 ≤ 0xFFFFFFFF) ∧
    (calculate_ip_checksum mem ip).1 = calculate_ip_checksum_unbounded mem ip ∧
    (∀ n, n ≤ udp_len mem udp →
      sum_loop_unbounded (wr16 mem (udp + 6) 0) udp n (udp_pseudo_sum_unbounded mem ip udp)
        ≤ 0xFFFFFFFF) ∧
    udp_pseudo_sum mem ip udp = udp_pseudo_sum_unbounded mem ip udp ∧
    (calculate_udp_checksum mem ip udp).1 = calculate_udp_checksum_unbounded mem ip udp ∧
    (∀ s, fold_carries s ≤ 0xFFFF ∧ fold_carries s >>> 16 = 0) ∧
    (∀ s, s ≤ 0xFFFFFFFF → fold_loop 2 s = fold_carries s) := by
  have h15 := ip_ihl_le mem ip
  have hL : udp_len mem udp < 65536 := ntohs_at_lt mem (udp + 4)
  have hP := udp_pseudo_sum_unbounded_le mem ip udp
  refine ⟨?_, ?_, ?_, udp_pseudo_sum_eq_unbounded mem ip udp, ?_, ?_, fold_loop_two⟩
  · intro n hn
    have := sum_loop_unbounded_le (wr16 mem (ip + 10) 0) n ip 0
    omega
  · unfold calculate_ip_checksum calculate_ip_checksum_unbounded
    simp only
    rw [sum_loop_eq_unbounded _ _ _ _ (by omega)]
  · intro n hn
    have := sum_loop_unbounded_le (wr16 mem (udp + 6) 0) n udp
      (udp_pseudo_sum_unbounded mem ip udp)
    omega
  · unfold calculate_udp_checksum calculate_udp_checksum_unbounded udp_folded_sum
    simp only
    rw [udp_pseudo_sum_eq_unbounded, sum_loop_eq_unbounded _ _ _ _ (by omega)]
  · intro s
    have h := fold_carries_lt s
    refine ⟨by omega, ?_⟩
    rw [shiftRight16]
    omega

/-! ## The bytes the checksum loops load -/

/-- The summation loop depends on the buffer only through the offsets listed by
`sum_loop_reads`. -/
theorem sum_loop_congr_reads (m1 m2 : List Byte) : ∀ (len ptr acc : Nat),
    (∀ o ∈ sum_loop_reads ptr len, rd8 m1 o = rd8 m2 o) →
    sum_loop m1 ptr len acc = sum_loop m2 ptr len acc := by
  intro len
  induction len using Nat.twoStepInduction with
  | zero => intro ptr acc _; rfl
  | one =>
    intro ptr acc h
    simp only [sum_loop]
    rw [h ptr (by simp [sum_loop_reads])]
  | more n ih _ =>
    intro ptr acc h
    simp only [sum_loop, ntohs_at]
    rw [h ptr (by simp [sum_loop_reads]), h (ptr + 1) (by simp [sum_loop_reads])]
    exact ih (ptr + 2) _ (fun o ho => h o (by simp [sum_loop_reads, ho]))

/-- Claim C24, evaluated where it fails.  Validation tests `len ≥ 20` and `ihl ≥ 5` but not
`ihl*4 ≤ len`, and nothing compares the UDP length field with the bytes received.
A 20-byte datagram with `ihl = 6` passes validation and is forwarded, and the IP checksum
loop loads offsets 20 to 23: two buffers that hold the same 20-byte datagram and differ
only behind it give different written checksums.  A 30-byte datagram with UDP length
field 12 is rewritten in scenario B, and the UDP checksum loop loads offsets 30 and 31:
again the written checksum depends on the bytes behind the datagram. -/
theorem checksum_reads_outside_datagram :
    ip_version long_header_datagram 0 = 4 ∧ ip_ihl long_header_datagram 0 = 6 ∧
    long_header_datagram.length = 20 ∧
    (long_header_datagram ++ [0, 0, 0, 0]).take 20 =
      (long_header_datagram ++ [0xDE, 0xAD, 0xBE, 0xEF]).take 20 ∧
    ip_checksum_reads (long_header_datagram ++ [0, 0, 0, 0]) 0 =
      [0, 1, 2, 3, 4, 5, 6, 7, 8, 9, 10, 11, 12, 13, 14, 15, 16, 17, 18, 19, 20, 21, 22, 23] ∧
    process_packet_from_vm mesh3_routes three_vms 0 (long_header_datagram ++ [0, 0, 0, 0]) 20 0 =
      [Event.log_rx 0 (inet_addr_10_0_0 1) (inet_addr_10_0_0 2) 20 17 none,
       Event.route_lookup, Event.log_forward_to 1,
       Event.write 1 [70, 0, 0, 20, 0, 0, 0, 0, 64, 17, 101, 215, 10, 0, 0, 1, 10, 0, 0, 2] 20] ∧
    process_packet_from_vm mesh3_routes three_vms 0
        (long_header_datagram ++ [0xDE, 0xAD, 0xBE, 0xEF]) 20 0 =
      [Event.log_rx 0 (inet_addr_10_0_0 1) (inet_addr_10_0_0 2) 20 17 none,
       Event.route_lookup, Event.log_forward_to 1,
       Event.write 1 [70, 0, 0, 20, 0, 0, 0, 0, 64, 17, 200, 57, 10, 0, 0, 1, 10, 0, 0, 2] 20] ∧
    long_udp_length_datagram.length = 30 ∧ udp_len long_udp_length_datagram 20 = 12 ∧
    udp_checksum_reads (long_udp_length_datagram ++ [0, 0]) 20 =
      [20, 21, 22, 23, 24, 25, 26, 27, 28, 29, 30, 31] ∧
    process_packet_from_vm scenario_b_routes three_vms 0 (long_udp_length_datagram ++ [0, 0])
        30 0 =
      [Event.log_rx 0 (inet_addr_10_0_0 1) (inet_addr_10_0_0 2) 30 17 (some (4660, 9999)),
       Event.route_lookup, Event.log_forward_to 1, Event.log_port_forward 9999 8000,
       Event.write 1 [69, 0, 0, 30, 0, 0, 0, 0, 64, 17, 102, 205, 10, 0, 0, 1, 10, 0, 0, 2,
         18, 52, 31, 64, 0, 12, 14, 146, 171, 205] 30] ∧
    process_packet_from_vm scenario_b_routes three_vms 0
        (long_udp_length_datagram ++ [0xBE, 0xEF]) 30 0 =
      [Event.log_rx 0 (inet_addr_10_0_0 1) (inet_addr_10_0_0 2) 30 17 (some (4660, 9999)),
       Event.route_lookup, Event.log_forward_to 1, Event.log_port_forward 9999 8000,
       Event.write 1 [69, 0, 0, 30, 0, 0, 0, 0, 64, 17, 102, 205, 10, 0, 0, 1, 10, 0, 0, 2,
         18, 52, 31, 64, 0, 12, 79, 162, 171, 205] 30] := by
  decide

/-! ## One wake of the main loop -/

theorem write_count_append (a b : List Event) :
    write_count (a ++ b) = write_count a + write_count b := by
  unfold write_count
  rw [List.filter_append, List.length_append]

theorem write_count_forward_loop (dst_vm_idx : Int) (mem : List Byte) (ip : Nat)
    (udp : Option Nat) (routes : List Route) :
    write_count (forward_loop dst_vm_idx mem ip udp routes).2 = 0 := by
  rcases forward_loop_cases dst_vm_idx mem ip udp routes with h | ⟨r, u, _, _, hz, _, _, he⟩
  · rw [h]; rfl
  · rw [he, port_forward_some r mem ip u hz]; rfl

/-- A call of the dispatcher makes at most one `write`. -/
theorem write_count_process_le_one (routes : List Route) (vms : List VirtualMachine)
    (vm_idx : Int) (packet : List Byte) (len : Int) (wr : Int) :
    write_count (process_packet_from_vm routes vms vm_idx packet len wr) ≤ 1 := by
  by_cases h1 : len % 18446744073709551616 < 20
  · unfold process_packet_from_vm
    rw [if_pos h1]
    exact Nat.zero_le 1
  by_cases h2 : ip_version packet 0 = 4
  swap
  · unfold process_packet_from_vm
    simp only
    rw [if_neg h1, if_pos h2]
    exact Nat.zero_le 1
  by_cases h3 : 5 ≤ ip_ihl packet 0
  swap
  · unfold process_packet_from_vm
    simp only
    rw [if_neg h1, if_neg (by simpa using h2), if_pos (by omega)]
    exact Nat.zero_le 1
  rw [process_packet_from_vm_valid routes vms vm_idx packet len wr h1 h2 h3]
  split_ifs
  · rw [forward_packet_snd, write_count_append, write_count_append, write_count_append,
      write_count_forward_loop]
    split_ifs <;> exact Nat.le_refl 1
  · exact Nat.zero_le 1
  · exact Nat.zero_le 1

/-- The dispatch loop started at index `k` on the tail `l` of the registry: every event is
a call of the dispatcher on the one read of its endpoint; the endpoints called are, in
strictly ascending order, those at or after `k` that are active and reported ready. -/
theorem dispatch_loop_spec (routes : List Route) (vms : List VirtualMachine)
    (isset : Int → Bool) (rd : Nat → List Byte × Int) (wr : Nat → Int) :
    ∀ (l : List VirtualMachine) (k : Nat),
      (∀ e ∈ dispatch_loop routes vms isset rd wr l k, ∃ i, e = RouterEvent.invoke i
        (process_packet_from_vm routes vms (i : Int) (rd i).1 (rd i).2 (wr i))) ∧
      (invoked_indices (dispatch_loop routes vms isset rd wr l k)).Pairwise (· < ·) ∧
      (∀ i, i ∈ invoked_indices (dispatch_loop routes vms isset rd wr l k) ↔
        k ≤ i ∧ ∃ vm, l[i - k]? = some vm ∧ vm.active ≠ 0 ∧ isset vm.fd = true) := by
  intro l
  induction l with
  | nil =>
    intro k
    refine ⟨fun e he => by simp [dispatch_loop] at he, List.Pairwise.nil, ?_⟩
    intro i
    simp [dispatch_loop, invoked_indices]
  | cons vm rest ih =>
    intro k
    obtain ⟨ih1, ih2, ih3⟩ := ih (k + 1)
    have hrest : ∀ i, (k + 1 ≤ i ∧ ∃ vm', rest[i - (k + 1)]? = some vm' ∧ vm'.active ≠ 0 ∧
        isset vm'.fd = true) ↔ (k < i ∧ ∃ vm', (vm :: rest)[i - k]? = some vm' ∧
        vm'.active ≠ 0 ∧ isset vm'.fd = true) := by
      intro i
      constructor
      · rintro ⟨hk, vm', hv, ha⟩
        refine ⟨hk, vm', ?_, ha⟩
        rw [show i - k = (i - (k + 1)) + 1 by omega, List.getElem?_cons_succ]
        exact hv
      · rintro ⟨hk, vm', hv, ha⟩
        refine ⟨hk, vm', ?_, ha⟩
        rw [show i - k = (i - (k + 1)) + 1 by omega, List.getElem?_cons_succ] at hv
        exact hv
    by_cases hc : vm.active ≠ 0 ∧ isset vm.fd = true
    · have e : dispatch_loop routes vms isset rd wr (vm :: rest) k =
          RouterEvent.invoke k
              (process_packet_from_vm routes vms (k : Int) (rd k).1 (rd k).2 (wr k))
            :: dispatch_loop routes vms isset rd wr rest (k + 1) := by
        simp only [dispatch_loop]
        rw [if_pos hc]
      rw [e]
      refine ⟨?_, ?_, ?_⟩
      · intro ev hev
        rcases List.mem_cons.mp hev with h | h
        · exact ⟨k, h⟩
        · exact ih1 ev h
      · simp only [invoked_indices]
        rw [List.pairwise_cons]
        refine ⟨?_, ih2⟩
        intro j hj
        have := ((ih3 j).mp hj).1
        omega
      · intro i
        simp only [invoked_indices, List.mem_cons]
        rw [ih3 i, hrest i]
        constructor
        · rintro (h | ⟨hk, hex⟩)
          · subst h
            exact ⟨Nat.le_refl _, vm, by simp, hc.1, hc.2⟩
          · exact ⟨Nat.le_of_lt hk, hex⟩
        · rintro ⟨hk, hex⟩
          by_cases hik : i = k
          · exact Or.inl hik
          · exact Or.inr ⟨by omega, hex⟩
    · have e : dispatch_loop routes vms isset rd wr (vm :: rest) k =
          dispatch_loop routes vms isset rd wr rest (k + 1) := by
        simp only [dispatch_loop]
        rw [if_neg hc]
      rw [e]
      refine ⟨ih1, ih2, ?_⟩
      intro i
      rw [ih3 i, hrest i]
      constructor
      · rintro ⟨hk, hex⟩
        exact ⟨Nat.le_of_lt hk, hex⟩
      · rintro ⟨hk, vm', hv, ha⟩
        by_cases hik : i = k
        · exfalso
          subst hik
          rw [Nat.sub_self, List.getElem?_cons_zero] at hv
          have hvm : vm' = vm := (Option.some.inj hv).symm
          subst hvm
          exact hc ha
        · exact ⟨by omega, vm', hv, ha⟩

/-- Claim C22.  In a pass of the loop of `run_router` in which `select` returns with a
ready set, what the pass does is the dispatch loop, followed by the later passes.  Every
event of the dispatch loop is one call of the dispatcher, on the one read delivered for
its endpoint, with at most one `write`; the endpoints called are, each once and in
strictly ascending index order, exactly the registered endpoints that are active and
whose descriptor is in the ready set. -/
theorem run_router_wake (routes : List Route) (vms : List VirtualMachine) (inp : LoopInput)
    (rest : List LoopInput) (isset : Int → Bool)
    (hrun : inp.running = true) (hsel : inp.select_result = SelectResult.ready isset) :
    run_router routes vms (inp :: rest) =
      dispatch_loop routes vms isset inp.read_result inp.write_ret vms 0
        ++ run_router routes vms rest ∧
    (∀ e ∈ dispatch_loop routes vms isset inp.read_result inp.write_ret vms 0,
      ∃ i, e = RouterEvent.invoke i (process_packet_from_vm routes vms (i : Int)
          (inp.read_result i).1 (inp.read_result i).2 (inp.write_ret i)) ∧
        write_count (process_packet_from_vm routes vms (i : Int)
          (inp.read_result i).1 (inp.read_result i).2 (inp.write_ret i)) ≤ 1) ∧
    (invoked_indices
      (dispatch_loop routes vms isset inp.read_result inp.write_ret vms 0)).Pairwise (· < ·) ∧
    (∀ i, i ∈ invoked_indices
        (dispatch_loop routes vms isset inp.read_result inp.write_ret vms 0) ↔
      ∃ vm, vms[i]? = some vm ∧ vm.active ≠ 0 ∧ isset vm.fd = true) := by
  obtain ⟨h1, h2, h3⟩ :=
    dispatch_loop_spec routes vms isset inp.read_result inp.write_ret vms 0
  refine ⟨?_, ?_, h2, ?_⟩
  · simp only [run_router]
    rw [if_neg (by rw [hrun]; decide), hsel]
  · intro e he
    obtain ⟨i, hi⟩ := h1 e he
    exact ⟨i, hi, write_count_process_le_one _ _ _ _ _ _⟩
  · intro i
    rw [h3 i]
    constructor
    · rintro ⟨_, hex⟩
      exact hex
    · intro hex
      exact ⟨Nat.zero_le i, hex⟩

/-- Claim C22 at a concrete input: with three endpoints on descriptors 3, 4, 5 and only
descriptor 4 reported ready, the pass calls the dispatcher once, for endpoint 1. -/
theorem run_router_wake_witness :
    invoked_indices (run_router scenario_b_routes three_vms [sample_pass]) = [1] ∧
    run_router scenario_b_routes three_vms [sample_pass] =
      dispatch_loop scenario_b_routes three_vms (fun fd => decide (fd = 4))
        sample_pass.read_result sample_pass.write_ret three_vms 0
        ++ run_router scenario_b_routes three_vms [] :=
  ⟨by decide,
   (run_router_wake scenario_b_routes three_vms sample_pass [] (fun fd => decide (fd = 4))
      rfl rfl).1⟩

end Router
